import Mathlib

/-! # Veloera relay: error normalisation, stream accumulation and adaptors

A shallow embedding of `service/error.go`, of the stream accumulator and the
end-of-stream handling of `relay/channel/openai/helper.go`, of the Ali channel
adaptor (`relay/channel/ali/adaptor.go`), of the Suno task adaptor
(`relay/channel/task/suno/adaptor.go`), of the notification code
(`service/webhook.go`, `service/user_notify.go`) and of the sensitive-word
lists (`setting/sensitive.go`), with the properties of the relay's
specification stated over it.

Conventions of the embedding.

* Go `string` is `String`, Go `int` is `Int`, a Go `error` value is the text
  returned by its `Error()` method.
* Functions of Go's standard library whose behaviour depends on large tables
  or grammars (`strings.ToLower`, `strings.ToUpper`, `json.Unmarshal`,
  `textproto.CanonicalMIMEHeaderKey`) and helpers of packages that are not part
  of the sources at hand are parameters of the definitions that call them, so
  every theorem holds for whatever those functions compute.  Small concrete
  instances are given for evaluation.
* A Go call that can panic returns an `Outcome`.
* SHA-256, HMAC and hexadecimal encoding are defined in full, on bytes as
  natural numbers, so that signatures can be evaluated.
* `common.SysLog` / `common.SysError` only write to the server log and do not
  influence any returned value; the calls are left out.
-/

set_option autoImplicit false

namespace Veloera

/-! ## Go standard library -/

namespace strings

/-- Does the character list start with the given pattern? -/
def startsWithChars : List Char → List Char → Bool
  | _, [] => true
  | [], _ :: _ => false
  | c :: cs, p :: ps => c == p && startsWithChars cs ps

/-- Does the pattern occur somewhere in the character list? -/
def containsChars : List Char → List Char → Bool
  | [], sub => startsWithChars [] sub
  | c :: cs, sub => startsWithChars (c :: cs) sub || containsChars cs sub

/-- Go `strings.Contains(s, substr)`: `substr` occurs within `s`. -/
def Contains (s substr : String) : Bool :=
  containsChars s.toList substr.toList

/-- An instance of `strings.ToLower` for evaluation: it maps `A`..`Z` to
`a`..`z` and keeps every other character, which is what Go computes on ASCII
text. -/
def asciiToLower (s : String) : String :=
  String.mk (s.toList.map Char.toLower)

end strings

namespace strconv

/-- Go `strconv.Itoa`, also the `%d` verb of `fmt.Sprintf`: decimal text of an
integer, with a leading `-` when negative. -/
def Itoa (i : Int) : String :=
  toString i

/-- The two errors of `strconv.Atoi`. -/
inductive NumError where
  | ErrSyntax
  | ErrRange
  deriving DecidableEq, Repr

/-- Value of a decimal digit, `none` for any other character. -/
def digitVal (c : Char) : Option Nat :=
  if '0' ≤ c ∧ c ≤ '9' then some (c.toNat - '0'.toNat) else none

/-- The digit loop of Go `strconv.ParseUint` in base 10 with 64 bits, from the
value `n` read so far.  The characters are taken left to right: a character
that is not a digit is a syntax error with the value 0, a digit that takes the
value past 2^64 - 1 is a range error with the value 2^64 - 1, and the first of
the two in the text decides; what follows it is not read. -/
def parseDigits : Nat → List Char → Nat × Option NumError
  | n, [] => (n, none)
  | n, c :: cs =>
    match digitVal c with
    | none => (0, some NumError.ErrSyntax)
    | some d =>
      if n * 10 + d ≥ 2 ^ 64 then (2 ^ 64 - 1, some NumError.ErrRange)
      else parseDigits (n * 10 + d) cs

/-- Go `strconv.Atoi` on a 64-bit platform: an optional sign followed by at
least one decimal digit.  A syntax error returns 0; a value outside the
`int64` range returns the nearest bound together with `ErrRange`, also when
the digits that leave the `uint64` range are followed by a character that is
not a digit. -/
def Atoi (s : String) : Int × Option NumError :=
  let neg : Bool := s.toList.head? == some '-'
  let body : List Char :=
    match s.toList with
    | '-' :: cs => cs
    | '+' :: cs => cs
    | cs => cs
  if body.isEmpty then (0, some NumError.ErrSyntax)
  else
    match parseDigits 0 body with
    | (_, some NumError.ErrSyntax) => (0, some NumError.ErrSyntax)
    | (un, _) =>
      if !neg && un ≥ 2 ^ 63 then ((2 : Int) ^ 63 - 1, some NumError.ErrRange)
      else if neg && un > 2 ^ 63 then (-(2 : Int) ^ 63, some NumError.ErrRange)
      else (if neg then -(un : Int) else (un : Int), none)

end strconv

namespace http

/-- Go `http.StatusOK`. -/
def StatusOK : Int := 200

/-- Go `http.StatusTooManyRequests`. -/
def StatusTooManyRequests : Int := 429

/-- An upstream response body as seen by its reader: what `io.ReadAll`
returns (`none` when it returns an error, whose text is `readError`) and
whether `Close` returns an error. -/
structure Body where
  readAll : Option String
  closeFails : Bool
  readError : String := "unexpected EOF"
  deriving DecidableEq, Repr

/-- The part of Go `http.Response` that the error handler reads. -/
structure Response where
  StatusCode : Int
  Body : Body
  Header : List (String × List String) := []
  deriving DecidableEq, Repr

end http

/-! ## Package `dto`: error envelopes -/

namespace dto

/-- The `dto.OpenAIError` record.  `Code` has Go type `any`; the relay only
stores strings in it, and a decoded JSON value is kept as its text. -/
structure OpenAIError where
  Message : String := ""
  Type_ : String := ""
  Param : String := ""
  Code : String := ""
  deriving DecidableEq, Repr

/-- The `dto.OpenAIErrorWithStatusCode` envelope. -/
structure OpenAIErrorWithStatusCode where
  Error : OpenAIError := {}
  StatusCode : Int := 0
  LocalError : Bool := false
  deriving DecidableEq, Repr

/-- The `dto.ClaudeError` record. -/
structure ClaudeError where
  Message : String := ""
  Type_ : String := ""
  deriving DecidableEq, Repr

/-- The `dto.ClaudeErrorWithStatusCode` envelope. -/
structure ClaudeErrorWithStatusCode where
  Error : ClaudeError := {}
  StatusCode : Int := 0
  LocalError : Bool := false
  deriving DecidableEq, Repr

/-- The `dto.TaskError` envelope; `Error` holds the text of the wrapped Go
error. -/
structure TaskError where
  Code : String := ""
  Message : String := ""
  StatusCode : Int := 0
  LocalError : Bool := false
  Error : String := ""
  deriving DecidableEq, Repr

/-- A decoded `dto.GeneralErrorResponse`: its `Error` field and the value of
its `ToMessage()` method, which is declared in package `dto` and reads the
vendor-specific message fields of the body. -/
structure GeneralErrorResponse where
  Error : OpenAIError := {}
  ToMessage : String := ""
  deriving DecidableEq, Repr

end dto

/-! ## Package `service`: `error.go` -/

namespace service

/-- Go `OpenAIErrorWrapper`: wraps an error into an OpenAI-shape envelope. -/
def OpenAIErrorWrapper (ToLower : String → String) (err : String) (code : String)
    (statusCode : Int) : dto.OpenAIErrorWithStatusCode :=
  let text := err
  let lowerText := ToLower text
  let text :=
    if strings.Contains lowerText "post" || strings.Contains lowerText "dial"
        || strings.Contains lowerText "http" then
      "请求上游地址失败"
    else text
  let openAIError : dto.OpenAIError :=
    { Message := text, Type_ := "veloera_error", Code := code }
  { Error := openAIError, StatusCode := statusCode }

/-- Go `OpenAIErrorWrapperLocal`. -/
def OpenAIErrorWrapperLocal (ToLower : String → String) (err : String) (code : String)
    (statusCode : Int) : dto.OpenAIErrorWithStatusCode :=
  let openaiErr := OpenAIErrorWrapper ToLower err code statusCode
  { openaiErr with LocalError := true }

/-- Go `ClaudeErrorWrapper`; the `code` argument is not used by the source. -/
def ClaudeErrorWrapper (ToLower : String → String) (err : String) (_code : String)
    (statusCode : Int) : dto.ClaudeErrorWithStatusCode :=
  let text := err
  let lowerText := ToLower text
  let text :=
    if strings.Contains lowerText "post" || strings.Contains lowerText "dial"
        || strings.Contains lowerText "http" then
      "请求上游地址失败"
    else text
  let claudeError : dto.ClaudeError :=
    { Message := text, Type_ := "veloera_error" }
  { Error := claudeError, StatusCode := statusCode }

/-- Go `ClaudeErrorWrapperLocal`. -/
def ClaudeErrorWrapperLocal (ToLower : String → String) (err : String) (code : String)
    (statusCode : Int) : dto.ClaudeErrorWithStatusCode :=
  let claudeErr := ClaudeErrorWrapper ToLower err code statusCode
  { claudeErr with LocalError := true }

/-- Go `RelayErrorHandler`.  `hideUpstream` is the value of the global setting
`HideUpstreamErrorEnabled`; `unmarshal` is `json.Unmarshal` into a
`dto.GeneralErrorResponse` (`none` when it returns an error). -/
def RelayErrorHandler (hideUpstream : Bool)
    (unmarshal : String → Option dto.GeneralErrorResponse)
    (resp : http.Response) (showBodyWhenFail : Bool) : dto.OpenAIErrorWithStatusCode :=
  let errWithStatusCode : dto.OpenAIErrorWithStatusCode :=
    { StatusCode := resp.StatusCode,
      Error :=
        { Type_ := "upstream_error",
          Code := "bad_response_status_code",
          Param := strconv.Itoa resp.StatusCode } }
  match resp.Body.readAll with
  | none => errWithStatusCode
  | some responseBody =>
    if resp.Body.closeFails then errWithStatusCode
    else
      match unmarshal responseBody with
      | none =>
        let e1 : dto.OpenAIErrorWithStatusCode :=
          if showBodyWhenFail then
            { errWithStatusCode with
              Error := { errWithStatusCode.Error with Message := responseBody } }
          else
            { errWithStatusCode with
              Error := { errWithStatusCode.Error with
                Message := "bad response status code " ++ strconv.Itoa resp.StatusCode } }
        if hideUpstream && resp.StatusCode != http.StatusTooManyRequests then
          { e1 with
            Error := { e1.Error with
              Message := "Upstream error with status code " ++ strconv.Itoa resp.StatusCode } }
        else e1
      | some errResponse =>
        let e1 : dto.OpenAIErrorWithStatusCode :=
          if errResponse.Error.Message != "" then
            { errWithStatusCode with Error := errResponse.Error }
          else
            { errWithStatusCode with
              Error := { errWithStatusCode.Error with Message := errResponse.ToMessage } }
        let e2 : dto.OpenAIErrorWithStatusCode :=
          if e1.Error.Message == "" then
            { e1 with
              Error := { e1.Error with
                Message := "bad response status code " ++ strconv.Itoa resp.StatusCode } }
          else e1
        if hideUpstream && resp.StatusCode != http.StatusTooManyRequests then
          { e2 with
            Error := { e2.Error with
              Message := "Upstream error with status code " ++ strconv.Itoa resp.StatusCode } }
        else e2

/-- Go `ResetStatusCode`; the envelope is updated in place in the source and
returned here.  `unmarshal` is `json.Unmarshal` into a `map[string]string`
(`none` when it returns an error); the decoded map is a key-value list read
with `List.lookup`. -/
def ResetStatusCode (unmarshal : String → Option (List (String × String)))
    (openaiErr : dto.OpenAIErrorWithStatusCode) (statusCodeMappingStr : String) :
    dto.OpenAIErrorWithStatusCode :=
  if statusCodeMappingStr == "" || statusCodeMappingStr == "\x7b\x7d" then openaiErr
  else
    match unmarshal statusCodeMappingStr with
    | none => openaiErr
    | some statusCodeMapping =>
      if openaiErr.StatusCode == http.StatusOK then openaiErr
      else
        let codeStr := strconv.Itoa openaiErr.StatusCode
        match statusCodeMapping.lookup codeStr with
        | some v =>
          let intCode := (strconv.Atoi v).1
          { openaiErr with StatusCode := intCode }
        | none => openaiErr

/-- Go `TaskErrorWrapper`. -/
def TaskErrorWrapper (ToLower : String → String) (err : String) (code : String)
    (statusCode : Int) : dto.TaskError :=
  let text := err
  let lowerText := ToLower text
  let text :=
    if strings.Contains lowerText "post" || strings.Contains lowerText "dial"
        || strings.Contains lowerText "http" then
      "请求上游地址失败"
    else text
  { Code := code, Message := text, StatusCode := statusCode, Error := err }

/-- Go `TaskErrorWrapperLocal`. -/
def TaskErrorWrapperLocal (ToLower : String → String) (err : String) (code : String)
    (statusCode : Int) : dto.TaskError :=
  let openaiErr := TaskErrorWrapper ToLower err code statusCode
  { openaiErr with LocalError := true }

end service

/-! ## Specification vocabulary for `error.go` -/

namespace service

/-- The lower-cased text of the error mentions a transport-level term: it
contains "post", "dial" or "http". -/
def mentionsTransportTerm (ToLower : String → String) (err : String) : Bool :=
  strings.Contains (ToLower err) "post" || strings.Contains (ToLower err) "dial"
    || strings.Contains (ToLower err) "http"

end service

/-! ## Package `dto`: stream frames -/

namespace dto

/-- The `Function` part of a tool call: name and argument fragment. -/
structure FunctionResponse where
  Name : String := ""
  Arguments : String := ""
  deriving DecidableEq, Repr

/-- One entry of a delta's tool-call array. -/
structure ToolCallResponse where
  Function : FunctionResponse := {}
  deriving DecidableEq, Repr

/-- The delta of one choice, as `ProcessStreamResponse` reads it:
`ContentString` is the value of `GetContentString()`, `ReasoningContent` the
value of `GetReasoningContent()`, and `ToolCalls` is `none` for a nil slice. -/
structure ChatCompletionsStreamResponseChoiceDelta where
  ContentString : String := ""
  ReasoningContent : String := ""
  ToolCalls : Option (List ToolCallResponse) := none
  deriving DecidableEq, Repr

/-- One choice of a stream frame. -/
structure ChatCompletionsStreamResponseChoice where
  Delta : ChatCompletionsStreamResponseChoiceDelta := {}
  deriving DecidableEq, Repr

/-- The `dto.Usage` record: token counts. -/
structure Usage where
  PromptTokens : Int := 0
  CompletionTokens : Int := 0
  TotalTokens : Int := 0
  deriving DecidableEq, Repr

/-- One decoded stream frame.  `SystemFingerprint` is the value of
`GetSystemFingerprint()` and `Usage` is `none` for a nil pointer. -/
structure ChatCompletionsStreamResponse where
  Id : String := ""
  Created : Int := 0
  Model : String := ""
  SystemFingerprint : String := ""
  Choices : List ChatCompletionsStreamResponseChoice := []
  Usage : Option Usage := none
  deriving DecidableEq, Repr

end dto

/-! ## Package `openai`: `helper.go` -/

namespace openai

/-- The body of the loop over `streamResponse.Choices` in
`ProcessStreamResponse`, on the pair (text written to the builder so far,
tool-call count). -/
def processChoice (acc : String × Int) (choice : dto.ChatCompletionsStreamResponseChoice) :
    String × Int :=
  let text := acc.1 ++ choice.Delta.ContentString
  let text := text ++ choice.Delta.ReasoningContent
  match choice.Delta.ToolCalls with
  | some toolCalls =>
    let toolCount := if (toolCalls.length : Int) > acc.2 then (toolCalls.length : Int) else acc.2
    let text := toolCalls.foldl
      (fun t tool => (t ++ tool.Function.Name) ++ tool.Function.Arguments) text
    (text, toolCount)
  | none => (text, acc.2)

/-- Go `ProcessStreamResponse`: the builder and the counter are updated in
place in the source and returned here; the error it returns is always nil. -/
def ProcessStreamResponse (streamResponse : dto.ChatCompletionsStreamResponse)
    (responseTextBuilder : String) (toolCount : Int) : String × Int :=
  streamResponse.Choices.foldl processChoice (responseTextBuilder, toolCount)

/-- Apply `ProcessStreamResponse` to every frame of a sequence, in order. -/
def processFrames (frames : List dto.ChatCompletionsStreamResponse)
    (responseTextBuilder : String) (toolCount : Int) : String × Int :=
  frames.foldl (fun acc frame => ProcessStreamResponse frame acc.1 acc.2)
    (responseTextBuilder, toolCount)

/-- Length of the tool-call array of a choice (0 for a nil array). -/
def toolCallsLen (choice : dto.ChatCompletionsStreamResponseChoice) : Nat :=
  match choice.Delta.ToolCalls with
  | some toolCalls => toolCalls.length
  | none => 0

/-- Largest number in a list of lengths, 0 for the empty list. -/
def maxLen (lens : List Nat) : Nat :=
  lens.foldr max 0

/-- The maximum tool-call-array length over all choices of all frames. -/
def maxToolCalls (frames : List dto.ChatCompletionsStreamResponse) : Nat :=
  maxLen ((frames.flatMap (fun frame => frame.Choices)).map toolCallsLen)

/-- A frame with a single choice carrying `n` empty tool calls. -/
def frameWithToolCalls (n : Nat) : dto.ChatCompletionsStreamResponse :=
  { Choices := [{ Delta := { ToolCalls := some (List.replicate n {}) } }] }

end openai

/-! ## Instances of the decoders, for evaluation -/

namespace sample

/-- What `json.Unmarshal` into a `dto.GeneralErrorResponse` yields on the
bodies evaluated below: an OpenAI-shape error body decodes, text that is not
JSON does not. -/
def unmarshalError (body : String) : Option dto.GeneralErrorResponse :=
  if body = "\x7b\"error\":\x7b\"message\":\"bad key\"\x7d\x7d" then
    some { Error := { Message := "bad key" }, ToMessage := "bad key" }
  else if body = "\x7b\x7d" then some {}
  else none

/-- What `json.Unmarshal` into a `map[string]string` yields on the mapping
strings evaluated below; any other text is treated as malformed. -/
def unmarshalMap (s : String) : Option (List (String × String)) :=
  if s = "\x7b\"404\":\"500\"\x7d" then some [("404", "500")]
  else if s = "\x7b\"404\":\"abc\"\x7d" then some [("404", "abc")]
  else if s = "\x7b\"404\":\"\"\x7d" then some [("404", "")]
  else if s = "\x7b\"200\":\"500\"\x7d" then some [("200", "500")]
  else if s = "\x7b\x7d" then some []
  else none

/-- An upstream response with the given status whose body reads and closes
without error. -/
def response (status : Int) (body : String) : http.Response :=
  { StatusCode := status, Body := { readAll := some body, closeFails := false } }

end sample

/-! ## Go runtime -/

/-- Outcome of a Go call: it returns a value, or it panics with a message. -/
inductive Outcome (α : Type) where
  | returned (value : α)
  | panicked (message : String)
  deriving DecidableEq, Repr

/-! ## Package `dto`: completions frames -/

namespace dto

/-- One choice of a legacy completions frame. -/
structure CompletionsStreamResponseChoice where
  Text : String := ""
  deriving DecidableEq, Repr

/-- One decoded legacy completions frame. -/
structure CompletionsStreamResponse where
  Choices : List CompletionsStreamResponseChoice := []
  deriving DecidableEq, Repr

end dto

/-! ## Package `relayconstant` -/

namespace relayconstant

/-- Modelled from the spec: the operation kinds of `relay/constant`, whose
declaration is not part of the sources at hand.  The specification lists chat
completions, completions (legacy), embeddings, image generation, rerank, audio
and responses; the four names the sources use are kept. -/
inductive RelayMode where
  | RelayModeChatCompletions
  | RelayModeCompletions
  | RelayModeEmbeddings
  | RelayModeImagesGenerations
  | RelayModeRerank
  | RelayModeAudio
  | RelayModeResponses
  deriving DecidableEq, Repr

end relayconstant

/-! ## Package `relaycommon` -/

namespace relaycommon

/-- The client-facing format of a request.  The sources name
`RelayFormatOpenAI` and `RelayFormatClaude`; `RelayFormatOther` stands for any
other value of the Go type, which no `switch` of the sources matches. -/
inductive RelayFormat where
  | RelayFormatOpenAI
  | RelayFormatClaude
  | RelayFormatOther
  deriving DecidableEq, Repr

/-- The side state used when the client format is Claude. -/
structure ClaudeConvertInfo where
  Done : Bool := false
  Usage : Option dto.Usage := none
  deriving DecidableEq, Repr

/-- The fields of `relaycommon.RelayInfo` that the sources read or write. -/
structure RelayInfo where
  RelayMode : relayconstant.RelayMode := relayconstant.RelayMode.RelayModeChatCompletions
  BaseUrl : String := ""
  ApiKey : String := ""
  IsStream : Bool := false
  RelayFormat : RelayFormat := RelayFormat.RelayFormatOpenAI
  ShouldIncludeUsage : Bool := false
  SendResponseCount : Int := 0
  ClaudeConvertInfo : ClaudeConvertInfo := {}
  deriving DecidableEq, Repr

/-- The fields of `relaycommon.TaskRelayInfo` that the sources read or write. -/
structure TaskRelayInfo where
  ChannelType : Int := 0
  BaseUrl : String := ""
  ApiKey : String := ""
  Action : String := ""
  OriginTaskID : String := ""
  deriving DecidableEq, Repr

end relaycommon

/-! ## Package `openai`: `helper.go`, end of stream -/

namespace openai

/-- The loop of lines 94-103 of `processChatCompletions`: each retained frame
is decoded on its own (`unmarshalOne` is `json.Unmarshal` into one frame) and
fed to `ProcessStreamResponse`; the first frame that does not decode ends the
function with its error. -/
def processChatCompletionsEach
    (unmarshalOne : String → Except String dto.ChatCompletionsStreamResponse) :
    List String → String × Int → (String × Int) × Option String
  | [], acc => (acc, none)
  | item :: items, acc =>
    match unmarshalOne item with
    | .error err => (acc, some err)
    | .ok streamResponse =>
      processChatCompletionsEach unmarshalOne items
        (ProcessStreamResponse streamResponse acc.1 acc.2)

/-- Go `processChatCompletions`.  `unmarshalAll` is `json.Unmarshal` of the
concatenation into a slice of frames.  The result is the builder text, the
tool-call count and the returned error. -/
def processChatCompletions
    (unmarshalAll : String → Except String (List dto.ChatCompletionsStreamResponse))
    (unmarshalOne : String → Except String dto.ChatCompletionsStreamResponse)
    (streamResp : String) (streamItems : List String)
    (responseTextBuilder : String) (toolCount : Int) : (String × Int) × Option String :=
  match unmarshalAll streamResp with
  | .error _ =>
    processChatCompletionsEach unmarshalOne streamItems (responseTextBuilder, toolCount)
  | .ok streamResponses =>
    (streamResponses.foldl
      (fun acc streamResponse =>
        streamResponse.Choices.foldl
          (fun (acc : String × Int) choice =>
            let text := acc.1 ++ choice.Delta.ContentString
            let text := text ++ choice.Delta.ReasoningContent
            match choice.Delta.ToolCalls with
            | some toolCalls =>
              let toolCount :=
                if (toolCalls.length : Int) > acc.2 then (toolCalls.length : Int) else acc.2
              let text := toolCalls.foldl
                (fun t tool => (t ++ tool.Function.Name) ++ tool.Function.Arguments) text
              (text, toolCount)
            | none => (text, acc.2))
          acc)
      (responseTextBuilder, toolCount), none)

/-- The loop of lines 130-138 of `processCompletions`: a frame that does not
decode is passed over (`continue`). -/
def processCompletionsEach
    (unmarshalOne : String → Except String dto.CompletionsStreamResponse) :
    List String → String → String
  | [], text => text
  | item :: items, text =>
    match unmarshalOne item with
    | .error _ => processCompletionsEach unmarshalOne items text
    | .ok streamResponse =>
      processCompletionsEach unmarshalOne items
        (streamResponse.Choices.foldl (fun t choice => t ++ choice.Text) text)

/-- Go `processCompletions`: builder text and returned error. -/
def processCompletions
    (unmarshalAll : String → Except String (List dto.CompletionsStreamResponse))
    (unmarshalOne : String → Except String dto.CompletionsStreamResponse)
    (streamResp : String) (streamItems : List String)
    (responseTextBuilder : String) : String × Option String :=
  match unmarshalAll streamResp with
  | .error _ => (processCompletionsEach unmarshalOne streamItems responseTextBuilder, none)
  | .ok streamResponses =>
    (streamResponses.foldl
      (fun text streamResponse =>
        streamResponse.Choices.foldl (fun t choice => t ++ choice.Text) text)
      responseTextBuilder, none)

/-- Concatenation of a list of texts, in order. -/
def concatText : List String → String
  | [] => ""
  | t :: ts => t ++ concatText ts

/-- The text one choice contributes: content, reasoning, then name and
arguments of each tool call. -/
def choiceText (choice : dto.ChatCompletionsStreamResponseChoice) : String :=
  (choice.Delta.ContentString ++ choice.Delta.ReasoningContent)
    ++ concatText
        ((choice.Delta.ToolCalls.getD []).map
          (fun tool => tool.Function.Name ++ tool.Function.Arguments))

/-- The text a sequence of frames contributes, frame by frame and choice by
choice. -/
def framesText (frames : List dto.ChatCompletionsStreamResponse) : String :=
  concatText ((frames.flatMap (fun frame => frame.Choices)).map choiceText)

/-- What is sent to the client at the end of a stream. -/
inductive Event (κ : Type) where
  | ObjectData (object : dto.ChatCompletionsStreamResponse)
  | Done
  | ClaudeData (resp : κ)
  deriving DecidableEq, Repr

/-- Go `handleFinalResponse`.  The result lists what is sent to the client, in
order, with the updated `info`.  `GenerateFinalUsageResponse` and
`SetSystemFingerprint` build the usage-only frame, `unmarshalOne` is
`json.Unmarshal` into one frame, and `StreamResponseOpenAI2Claude` converts a
frame into Claude events and may update `info`.  Dereferencing a nil `usage`
panics. -/
def handleFinalResponse {κ : Type}
    (GenerateFinalUsageResponse :
      String → Int → String → dto.Usage → dto.ChatCompletionsStreamResponse)
    (SetSystemFingerprint :
      dto.ChatCompletionsStreamResponse → String → dto.ChatCompletionsStreamResponse)
    (unmarshalOne : String → Except String dto.ChatCompletionsStreamResponse)
    (StreamResponseOpenAI2Claude :
      dto.ChatCompletionsStreamResponse → relaycommon.RelayInfo →
        List κ × relaycommon.RelayInfo)
    (info : relaycommon.RelayInfo) (lastStreamData : String)
    (responseId : String) (createAt : Int) (model : String) (systemFingerprint : String)
    (usage : Option dto.Usage) (containStreamUsage : Bool) :
    Outcome (List (Event κ) × relaycommon.RelayInfo) :=
  match info.RelayFormat with
  | relaycommon.RelayFormat.RelayFormatOpenAI =>
    if info.ShouldIncludeUsage && !containStreamUsage then
      match usage with
      | none => Outcome.panicked "runtime error: invalid memory address or nil pointer dereference"
      | some u =>
        let response := GenerateFinalUsageResponse responseId createAt model u
        let response := SetSystemFingerprint response systemFingerprint
        Outcome.returned ([Event.ObjectData response, Event.Done], info)
    else Outcome.returned ([Event.Done], info)
  | relaycommon.RelayFormat.RelayFormatClaude =>
    let info := { info with ClaudeConvertInfo := { info.ClaudeConvertInfo with Done := true } }
    match unmarshalOne lastStreamData with
    | .error _ => Outcome.returned ([], info)
    | .ok streamResponse =>
      let info := { info with ClaudeConvertInfo := { info.ClaudeConvertInfo with Usage := usage } }
      let converted := StreamResponseOpenAI2Claude streamResponse info
      Outcome.returned (converted.1.map Event.ClaudeData, converted.2)
  | relaycommon.RelayFormat.RelayFormatOther => Outcome.returned ([], info)

end openai

/-! ## Instances of the frame decoders, for evaluation -/

namespace sample

/-- The frame `{"choices":[{"delta":{"content":"Hel"}}]}`. -/
def frameHel : String :=
  "\x7b\"choices\":[\x7b\"delta\":\x7b\"content\":\"Hel\"\x7d\x7d]\x7d"

/-- The frame `{"choices":[{"delta":{"content":"lo"}}]}`. -/
def frameLo : String :=
  "\x7b\"choices\":[\x7b\"delta\":\x7b\"content\":\"lo\"\x7d\x7d]\x7d"

/-- A frame cut off in transit: `{"choices":[{"delta":`. -/
def frameCut : String :=
  "\x7b\"choices\":[\x7b\"delta\":"

/-- What `json.Unmarshal` into one chat frame yields on the frames above. -/
def unmarshalFrame (s : String) : Except String dto.ChatCompletionsStreamResponse :=
  if s = frameHel then .ok { Choices := [{ Delta := { ContentString := "Hel" } }] }
  else if s = frameLo then .ok { Choices := [{ Delta := { ContentString := "lo" } }] }
  else .error "unexpected end of JSON input"

/-- What `json.Unmarshal` into a slice of chat frames yields: the array of the
two whole frames decodes, any other text evaluated here does not. -/
def unmarshalFrames (s : String) : Except String (List dto.ChatCompletionsStreamResponse) :=
  if s = "[" ++ frameHel ++ "," ++ frameLo ++ "]" then
    .ok [{ Choices := [{ Delta := { ContentString := "Hel" } }] },
      { Choices := [{ Delta := { ContentString := "lo" } }] }]
  else .error "invalid character"

/-- A slice decoder that fails, which sends `processChatCompletions` through
its frame-by-frame loop. -/
def unmarshalFramesFails (_s : String) :
    Except String (List dto.ChatCompletionsStreamResponse) :=
  .error "invalid character"

/-- The legacy completions frame `{"choices":[{"text":"Hel"}]}`. -/
def textHel : String := "\x7b\"choices\":[\x7b\"text\":\"Hel\"\x7d]\x7d"

/-- The legacy completions frame `{"choices":[{"text":"lo"}]}`. -/
def textLo : String := "\x7b\"choices\":[\x7b\"text\":\"lo\"\x7d]\x7d"

/-- What `json.Unmarshal` into one legacy completions frame yields on the
frames above. -/
def unmarshalText (s : String) : Except String dto.CompletionsStreamResponse :=
  if s = textHel then .ok { Choices := [{ Text := "Hel" }] }
  else if s = textLo then .ok { Choices := [{ Text := "lo" }] }
  else .error "unexpected end of JSON input"

/-- A usage-only frame builder for evaluation: the arguments are not kept,
the frame has no choices. -/
def generateFinalUsageResponse (_id : String) (_createAt : Int) (_model : String)
    (_usage : dto.Usage) : dto.ChatCompletionsStreamResponse :=
  { Choices := [] }

/-- A Claude converter for evaluation that emits nothing. -/
def streamResponseOpenAI2Claude (_frame : dto.ChatCompletionsStreamResponse)
    (info : relaycommon.RelayInfo) : List Unit × relaycommon.RelayInfo :=
  ([], info)

end sample

/-! ## Request context and headers -/

namespace dto

/-- The fields of `dto.SunoSubmitReq` that the task adaptor reads or writes;
`Others` stands for the remaining fields of the request. -/
structure SunoSubmitReq where
  Prompt : String := ""
  Mv : String := ""
  ContinueClipId : String := ""
  TaskID : String := ""
  Others : List (String × String) := []
  deriving DecidableEq, Repr

end dto

namespace gin

/-- A value kept in the key/value store of a request context: a string, a
pointer to a Suno submit request (`none` for a nil pointer), or anything
else. -/
inductive Value where
  | str (s : String)
  | sunoSubmitReq (request : Option dto.SunoSubmitReq)
  | other (description : String)
  deriving DecidableEq, Repr

/-- The part of `gin.Context` that the adaptors use: the path parameters and
the key/value store. -/
structure Context where
  Params : String → String := fun _ => ""
  Keys : String → Option Value := fun _ => none

/-- Go `c.Param(key)`. -/
def Context.Param (c : Context) (key : String) : String :=
  c.Params key

/-- Go `c.GetString(key)`: the stored value when it is a string, else "". -/
def Context.GetString (c : Context) (key : String) : String :=
  match c.Keys key with
  | some (Value.str s) => s
  | _ => ""

/-- Go `c.Set(key, value)`. -/
def Context.Set (c : Context) (key : String) (value : Value) : Context :=
  { c with Keys := fun k => if k = key then some value else c.Keys k }

end gin

namespace http

/-- Go `http.StatusBadRequest`. -/
def StatusBadRequest : Int := 400

/-- Go `http.Header`: from a canonical header name to its values, `none` when
the name is absent. -/
abbrev Header := String → Option (List String)

/-- Go `Header.Set`: the values of the canonical form of `key` become the
single `value`.  `CanonicalMIMEHeaderKey` is the function of `net/textproto`. -/
def Header.Set (CanonicalMIMEHeaderKey : String → String) (h : Header)
    (key value : String) : Header :=
  fun k => if k = CanonicalMIMEHeaderKey key then some [value] else h k

/-- Go `Header.Get`: the first value of the canonical form of `key`, or "". -/
def Header.Get (CanonicalMIMEHeaderKey : String → String) (h : Header)
    (key : String) : String :=
  match h (CanonicalMIMEHeaderKey key) with
  | some (v :: _) => v
  | _ => ""

/-- Upper-case the first letter and every letter after a hyphen, lower-case
the others. -/
def canonicalChars : Bool → List Char → List Char
  | _, [] => []
  | upper, c :: cs =>
    (if upper then c.toUpper else c.toLower) :: canonicalChars (c == '-') cs

/-- An instance of `CanonicalMIMEHeaderKey` for evaluation: what Go computes
on a header name made of ASCII letters, digits and hyphens. -/
def asciiCanonicalMIMEHeaderKey (s : String) : String :=
  String.mk (canonicalChars true s.toList)

end http

/-! ## Package `ali`: `adaptor.go` -/

namespace ali

/-- Go `Adaptor.ConvertClaudeRequest`: the body is `panic("implement me")`;
the `return nil, nil` after it is never reached. -/
def ConvertClaudeRequest {Req Conv : Type} (_c : gin.Context)
    (_info : relaycommon.RelayInfo) (_request : Option Req) :
    Outcome (Option Conv × Option String) :=
  Outcome.panicked "implement me"

/-- Go `Adaptor.GetRequestURL`: the URL and the returned error. -/
def GetRequestURL (info : relaycommon.RelayInfo) : String × Option String :=
  let fullRequestURL :=
    match info.RelayMode with
    | relayconstant.RelayMode.RelayModeEmbeddings =>
      info.BaseUrl ++ "/api/v1/services/embeddings/text-embedding/text-embedding"
    | relayconstant.RelayMode.RelayModeImagesGenerations =>
      info.BaseUrl ++ "/api/v1/services/aigc/text2image/image-synthesis"
    | _ => info.BaseUrl ++ "/compatible-mode/v1/chat/completions"
  (fullRequestURL, none)

/-- Go `Adaptor.SetupRequestHeader`: the header after the call and the returned
error.  `SetupApiRequestHeader` is the shared helper of package `channel`,
which fills `req` from the client request first. -/
def SetupRequestHeader (CanonicalMIMEHeaderKey : String → String)
    (SetupApiRequestHeader : relaycommon.RelayInfo → gin.Context → http.Header → http.Header)
    (c : gin.Context) (req : http.Header) (info : relaycommon.RelayInfo) :
    http.Header × Option String :=
  let req := SetupApiRequestHeader info c req
  let req := http.Header.Set CanonicalMIMEHeaderKey req "Authorization" ("Bearer " ++ info.ApiKey)
  let req :=
    if info.IsStream then http.Header.Set CanonicalMIMEHeaderKey req "X-DashScope-SSE" "enable"
    else req
  let req :=
    if c.GetString "plugin" != "" then
      http.Header.Set CanonicalMIMEHeaderKey req "X-DashScope-Plugin" (c.GetString "plugin")
    else req
  (req, none)

/-- Go `Adaptor.ConvertOpenAIRequest`: the converted request and the returned
error; `request` is `none` for a nil pointer and `requestOpenAI2Ali` is the
converter of the package. -/
def ConvertOpenAIRequest {Req Conv : Type} (requestOpenAI2Ali : Req → Conv)
    (_c : gin.Context) (_info : relaycommon.RelayInfo) (request : Option Req) :
    Option Conv × Option String :=
  match request with
  | none => (none, some "request is nil")
  | some r => (some (requestOpenAI2Ali r), none)

/-- Go `Adaptor.ConvertRerankRequest`. -/
def ConvertRerankRequest {Req Conv : Type} (_c : gin.Context)
    (_relayMode : relayconstant.RelayMode) (_request : Req) : Option Conv × Option String :=
  (none, some "not implemented")

/-- Go `Adaptor.ConvertAudioRequest`. -/
def ConvertAudioRequest {Req Conv : Type} (_c : gin.Context)
    (_info : relaycommon.RelayInfo) (_request : Req) : Option Conv × Option String :=
  (none, some "not implemented")

/-- Go `Adaptor.ConvertOpenAIResponsesRequest`. -/
def ConvertOpenAIResponsesRequest {Req Conv : Type} (_c : gin.Context)
    (_info : relaycommon.RelayInfo) (_request : Req) : Option Conv × Option String :=
  (none, some "not implemented")

end ali

/-! ## Package `suno`: `adaptor.go` -/

namespace suno

/-- Go `actionValidate`: the request after the call (it is updated through
the pointer) and the returned error.  `SunoActionMusic` and `SunoActionLyrics`
are the constants of package `constant`.  Reading a field through a nil
request pointer panics. -/
def actionValidate (SunoActionMusic SunoActionLyrics : String)
    (sunoRequest : Option dto.SunoSubmitReq) (action : String) :
    Outcome (Option dto.SunoSubmitReq × Option String) :=
  if action = SunoActionMusic then
    match sunoRequest with
    | none => Outcome.panicked "runtime error: invalid memory address or nil pointer dereference"
    | some r =>
      if r.Mv == "" then Outcome.returned (some { r with Mv := "chirp-v3-0" }, none)
      else Outcome.returned (some r, none)
  else if action = SunoActionLyrics then
    match sunoRequest with
    | none => Outcome.panicked "runtime error: invalid memory address or nil pointer dereference"
    | some r =>
      if r.Prompt == "" then Outcome.returned (some r, some "prompt_empty")
      else Outcome.returned (some r, none)
  else Outcome.returned (sunoRequest, some "invalid_action")

/-- Go `TaskAdaptor.ValidateRequestAndSetAction`: the returned task error
(`none` for nil), the request context and `info` after the call.
`UnmarshalBodyReusable` is the helper of package `common` that decodes the
request body into a request pointer; it returns the context as it leaves it. -/
def ValidateRequestAndSetAction (ToLower ToUpper : String → String)
    (SunoActionMusic SunoActionLyrics : String)
    (UnmarshalBodyReusable :
      gin.Context → Except String (Option dto.SunoSubmitReq) × gin.Context)
    (c : gin.Context) (info : relaycommon.TaskRelayInfo) :
    Outcome (Option dto.TaskError × gin.Context × relaycommon.TaskRelayInfo) :=
  let action := ToUpper (c.Param "action")
  let decoded := UnmarshalBodyReusable c
  let c := decoded.2
  match decoded.1 with
  | .error err =>
    Outcome.returned
      (some (service.TaskErrorWrapperLocal ToLower err "invalid_request" http.StatusBadRequest),
        c, info)
  | .ok sunoRequest =>
    match actionValidate SunoActionMusic SunoActionLyrics sunoRequest action with
    | Outcome.panicked message => Outcome.panicked message
    | Outcome.returned (_, some err) =>
      Outcome.returned
        (some (service.TaskErrorWrapperLocal ToLower err "invalid_request"
          http.StatusBadRequest), c, info)
    | Outcome.returned (none, none) =>
      Outcome.panicked "runtime error: invalid memory address or nil pointer dereference"
    | Outcome.returned (some sunoRequest, none) =>
      if sunoRequest.ContinueClipId != "" then
        if sunoRequest.TaskID == "" then
          Outcome.returned
            (some (service.TaskErrorWrapperLocal ToLower "task id is empty" "invalid_request"
              http.StatusBadRequest), c, info)
        else
          let info := { info with OriginTaskID := sunoRequest.TaskID }
          let info := { info with Action := action }
          Outcome.returned
            (none, c.Set "task_request" (gin.Value.sunoSubmitReq (some sunoRequest)), info)
      else
        let info := { info with Action := action }
        Outcome.returned
          (none, c.Set "task_request" (gin.Value.sunoSubmitReq (some sunoRequest)), info)

end suno

/-! ## Instances for evaluating the adaptors -/

namespace sample

/-- An instance of `strings.ToUpper` for evaluation: it maps `a`..`z` to
`A`..`Z` and keeps every other character. -/
def asciiToUpper (s : String) : String :=
  String.mk (s.toList.map Char.toUpper)

/-- A `SetupApiRequestHeader` that only sets the content type. -/
def setupApiRequestHeader (_info : relaycommon.RelayInfo) (_c : gin.Context)
    (req : http.Header) : http.Header :=
  http.Header.Set http.asciiCanonicalMIMEHeaderKey req "Content-Type" "application/json"

/-- A request context whose path action is `action` and whose key/value
store is empty. -/
def taskContext (action : String) : gin.Context :=
  { Params := fun key => if key = "action" then action else "" }

/-- A body decoder that yields the given request and leaves the context as it
is. -/
def unmarshalBody (request : dto.SunoSubmitReq) (c : gin.Context) :
    Except String (Option dto.SunoSubmitReq) × gin.Context :=
  (.ok (some request), c)

end sample

/-! ## Package `openai`: `helper.go`, the last frame -/

namespace openai

/-- The variables `handleLastResponse` writes through its pointer
arguments. -/
structure LastResponseOutputs where
  responseId : String := ""
  createAt : Int := 0
  systemFingerprint : String := ""
  model : String := ""
  usage : Option dto.Usage := none
  containStreamUsage : Bool := false
  shouldSendLastResp : Bool := true
  deriving DecidableEq, Repr

/-- Go `handleLastResponse`: the outputs after the call and the returned error.
`unmarshalOne` is `json.Unmarshal` into one frame and `ValidUsage` is the
helper of package `service`. -/
def handleLastResponse
    (unmarshalOne : String → Except String dto.ChatCompletionsStreamResponse)
    (ValidUsage : Option dto.Usage → Bool)
    (lastStreamData : String) (out : LastResponseOutputs) (info : relaycommon.RelayInfo) :
    LastResponseOutputs × Option String :=
  match unmarshalOne lastStreamData with
  | .error err => (out, some err)
  | .ok lastStreamResponse =>
    let out := { out with responseId := lastStreamResponse.Id }
    let out := { out with createAt := lastStreamResponse.Created }
    let out := { out with systemFingerprint := lastStreamResponse.SystemFingerprint }
    let out := { out with model := lastStreamResponse.Model }
    let out :=
      if ValidUsage lastStreamResponse.Usage then
        let out := { out with containStreamUsage := true }
        let out := { out with usage := lastStreamResponse.Usage }
        if !info.ShouldIncludeUsage then { out with shouldSendLastResp := false } else out
      else out
    (out, none)

end openai

namespace sample

/-- A last frame with usage: `{"id":"chatcmpl-9","created":1700000000,
"model":"qwen-max","choices":[],"usage":{"prompt_tokens":3,
"completion_tokens":4,"total_tokens":7}}`. -/
def frameUsage : String :=
  "\x7b\"id\":\"chatcmpl-9\",\"created\":1700000000,\"model\":\"qwen-max\",\"choices\":[],\"usage\":\x7b\"prompt_tokens\":3,\"completion_tokens\":4,\"total_tokens\":7\x7d\x7d"

/-- What `json.Unmarshal` into one chat frame yields on `frameUsage`; any
other text evaluated here does not decode. -/
def unmarshalLast (s : String) : Except String dto.ChatCompletionsStreamResponse :=
  if s = frameUsage then
    .ok { Id := "chatcmpl-9", Created := 1700000000, Model := "qwen-max",
          Usage := some { PromptTokens := 3, CompletionTokens := 4, TotalTokens := 7 } }
  else .error "unexpected end of JSON input"

/-- A `ValidUsage` for evaluation: the pointer is not nil and a prompt or
completion count is not zero. -/
def validUsage (usage : Option dto.Usage) : Bool :=
  match usage with
  | some u => u.PromptTokens != 0 || u.CompletionTokens != 0
  | none => false

end sample

/-! ## Go values and text substitution -/

/-- A Go `interface{}` value as far as the sources tell values apart: a
string, or a value of another type, for which an integer stands. -/
inductive Any where
  | str (s : String)
  | int (i : Int)
  deriving DecidableEq, Repr

namespace strings

/-- The leftmost occurrence of `old` in `s` replaced by `new`; `s` itself when
`old` does not occur. -/
def replaceFirstChars : List Char → List Char → List Char → List Char
  | [], old, new => if old.isEmpty then new else []
  | c :: cs, old, new =>
    if startsWithChars (c :: cs) old then new ++ (c :: cs).drop old.length
    else c :: replaceFirstChars cs old new

/-- Go `strings.Replace(s, old, new, 1)`. -/
def Replace1 (s old new : String) : String :=
  String.mk (replaceFirstChars s.toList old.toList new.toList)

end strings

/-! ## Package `crypto/sha256`, `crypto/hmac`, `encoding/hex` -/

/-- The UTF-8 bytes of a character. -/
def utf8Char (c : Char) : List Nat :=
  let n := c.toNat
  if n < 128 then [n]
  else if n < 2048 then [192 + n / 64, 128 + n % 64]
  else if n < 65536 then [224 + n / 4096, 128 + (n / 64) % 64, 128 + n % 64]
  else [240 + n / 262144, 128 + (n / 4096) % 64, 128 + (n / 64) % 64, 128 + n % 64]

/-- Go `[]byte(s)`: the bytes of a string. -/
def bytesOf (s : String) : List Nat :=
  s.toList.flatMap utf8Char

namespace sha256

/-- The round constants of SHA-256 (FIPS 180-4, section 4.2.2). -/
def K : List Nat :=
  [
    0x428a2f98, 0x71374491, 0xb5c0fbcf, 0xe9b5dba5, 0x3956c25b, 0x59f111f1,
    0x923f82a4, 0xab1c5ed5, 0xd807aa98, 0x12835b01, 0x243185be, 0x550c7dc3,
    0x72be5d74, 0x80deb1fe, 0x9bdc06a7, 0xc19bf174, 0xe49b69c1, 0xefbe4786,
    0x0fc19dc6, 0x240ca1cc, 0x2de92c6f, 0x4a7484aa, 0x5cb0a9dc, 0x76f988da,
    0x983e5152, 0xa831c66d, 0xb00327c8, 0xbf597fc7, 0xc6e00bf3, 0xd5a79147,
    0x06ca6351, 0x14292967, 0x27b70a85, 0x2e1b2138, 0x4d2c6dfc, 0x53380d13,
    0x650a7354, 0x766a0abb, 0x81c2c92e, 0x92722c85, 0xa2bfe8a1, 0xa81a664b,
    0xc24b8b70, 0xc76c51a3, 0xd192e819, 0xd6990624, 0xf40e3585, 0x106aa070,
    0x19a4c116, 0x1e376c08, 0x2748774c, 0x34b0bcb5, 0x391c0cb3, 0x4ed8aa4a,
    0x5b9cca4f, 0x682e6ff3, 0x748f82ee, 0x78a5636f, 0x84c87814, 0x8cc70208,
    0x90befffa, 0xa4506ceb, 0xbef9a3f7, 0xc67178f2]

/-- Reduce to a 32-bit word. -/
def word (x : Nat) : Nat := x % 4294967296

/-- Rotate a 32-bit word right by `n` bits. -/
def rotr (x n : Nat) : Nat := (x >>> n) ||| word (x <<< (32 - n))

/-- The eight working variables. -/
structure State where
  a : Nat
  b : Nat
  c : Nat
  d : Nat
  e : Nat
  f : Nat
  g : Nat
  h : Nat
  deriving DecidableEq, Repr

/-- The initial hash value (FIPS 180-4, section 5.3.3). -/
def init : State :=
  { a := 0x6a09e667, b := 0xbb67ae85, c := 0x3c6ef372, d := 0xa54ff53a,
    e := 0x510e527f, f := 0x9b05688c, g := 0x1f83d9ab, h := 0x5be0cd19 }

/-- The four big-endian bytes of a 32-bit word. -/
def wordBytes (x : Nat) : List Nat :=
  [(x >>> 24) % 256, (x >>> 16) % 256, (x >>> 8) % 256, x % 256]

/-- Padding: the byte 0x80, zero bytes up to 56 modulo 64, and the length in
bits as eight big-endian bytes. -/
def pad (msg : List Nat) : List Nat :=
  let bits := 8 * msg.length
  msg ++ [128] ++ List.replicate ((55 + 64 - msg.length % 64) % 64) 0
    ++ wordBytes ((bits >>> 32) % 4294967296) ++ wordBytes (bits % 4294967296)

/-- The first `n` big-endian words of a block. -/
def blockWords : Nat → List Nat → List Nat
  | 0, _ => []
  | n + 1, bytes =>
    (bytes.getD 0 0 * 16777216 + bytes.getD 1 0 * 65536 + bytes.getD 2 0 * 256
        + bytes.getD 3 0)
      :: blockWords n (bytes.drop 4)

/-- Extend the message schedule by `n` words. -/
def extend : Nat → List Nat → List Nat
  | 0, w => w
  | n + 1, w =>
    let i := w.length
    let w15 := w.getD (i - 15) 0
    let w2 := w.getD (i - 2) 0
    let s0 := (rotr w15 7 ^^^ rotr w15 18) ^^^ (w15 >>> 3)
    let s1 := (rotr w2 17 ^^^ rotr w2 19) ^^^ (w2 >>> 10)
    extend n (w ++ [word (w.getD (i - 16) 0 + s0 + w.getD (i - 7) 0 + s1)])

/-- One round of the compression function, on a round constant and a schedule
word. -/
def round (s : State) (kw : Nat × Nat) : State :=
  let S1 := (rotr s.e 6 ^^^ rotr s.e 11) ^^^ rotr s.e 25
  let ch := (s.e &&& s.f) ^^^ ((4294967295 - s.e) &&& s.g)
  let t1 := word (s.h + S1 + ch + kw.1 + kw.2)
  let S0 := (rotr s.a 2 ^^^ rotr s.a 13) ^^^ rotr s.a 22
  let maj := ((s.a &&& s.b) ^^^ (s.a &&& s.c)) ^^^ (s.b &&& s.c)
  let t2 := word (S0 + maj)
  { a := word (t1 + t2), b := s.a, c := s.b, d := s.c,
    e := word (s.d + t1), f := s.e, g := s.f, h := s.g }

/-- The compression function on one block of 64 bytes. -/
def compress (s : State) (block : List Nat) : State :=
  let w := extend 48 (blockWords 16 block)
  let t := (K.zip w).foldl round s
  { a := word (s.a + t.a), b := word (s.b + t.b), c := word (s.c + t.c),
    d := word (s.d + t.d), e := word (s.e + t.e), f := word (s.f + t.f),
    g := word (s.g + t.g), h := word (s.h + t.h) }

/-- Compress `n` consecutive blocks of 64 bytes. -/
def blocks : Nat → List Nat → State → State
  | 0, _, s => s
  | n + 1, bytes, s => blocks n (bytes.drop 64) (compress s (bytes.take 64))

/-- The bytes of a final state. -/
def digest (s : State) : List Nat :=
  wordBytes s.a ++ wordBytes s.b ++ wordBytes s.c ++ wordBytes s.d
    ++ wordBytes s.e ++ wordBytes s.f ++ wordBytes s.g ++ wordBytes s.h

/-- Go `sha256.Sum256`: the 32 bytes of the SHA-256 digest of `msg`. -/
def Sum256 (msg : List Nat) : List Nat :=
  digest (blocks ((pad msg).length / 64) (pad msg) init)

end sha256

namespace hmac

/-- The 64-byte key block of HMAC-SHA256: a key longer than the block is
replaced by its digest, and the key is padded with zero bytes. -/
def keyBlock (key : List Nat) : List Nat :=
  let k := if key.length > 64 then sha256.Sum256 key else key
  k ++ List.replicate (64 - k.length) 0

/-- The input of the outer hash of HMAC-SHA256. -/
def outerInput (key msg : List Nat) : List Nat :=
  (keyBlock key).map (fun b => b ^^^ 92)
    ++ sha256.Sum256 ((keyBlock key).map (fun b => b ^^^ 54) ++ msg)

/-- Go `hmac.New(sha256.New, key)`, `Write(msg)`, `Sum(nil)`: HMAC-SHA256
(RFC 2104). -/
def Sum (key msg : List Nat) : List Nat :=
  sha256.Sum256 (outerInput key msg)

end hmac

namespace hex

/-- The lower-case hexadecimal digit of a number below 16. -/
def digit (n : Nat) : Char :=
  "0123456789abcdef".toList.getD n '0'

/-- Go `hex.EncodeToString`: two lower-case hexadecimal digits per byte. -/
def EncodeToString (bytes : List Nat) : String :=
  String.mk (bytes.flatMap (fun b => [digit (b / 16), digit (b % 16)]))

end hex

/-! ## Package `service`: `webhook.go` and `user_notify.go` -/

namespace dto

/-- The `dto.Notify` record. -/
structure Notify where
  Type_ : String := ""
  Title : String := ""
  Content : String := ""
  Values : List Any := []
  deriving DecidableEq, Repr

end dto

namespace http

/-- The part of Go `http.Request` that the webhook sender fills. -/
structure Request where
  Method : String
  URL : String
  Header : Header
  Body : String

end http

namespace service

/-- Go `WebhookPayload`. -/
structure WebhookPayload where
  Type_ : String
  Title : String
  Content : String
  Values : List Any
  Timestamp : Int
  deriving DecidableEq, Repr

/-- The fields of `WorkerRequest` that the webhook sender fills; `Headers` is
a Go map, `none` where a key is absent. -/
structure WorkerRequest where
  URL : String
  Key : String
  Method : String
  Headers : String → Option String
  Body : String

/-- A request handed to a transport. -/
inductive Sent where
  | worker (request : WorkerRequest)
  | direct (request : http.Request)

/-- What `NotifyUser` does to the outside, in order. -/
inductive Effect where
  | checkLimit (userId : Int) (notifyType : String)
  | email (subject receiver content : String)
  | webhook (sent : Sent)

/-- The collaborators of the notification code: formatting (`fmt.Sprintf`),
the clock (`time.Now().Unix()`), `json.Marshal` of a payload, the worker
setting and its key, the worker transport and the direct transport (each
yields the status code of the response or an error), the error of
`http.NewRequest` on a URL, header canonicalisation, the rate-limit check, the
mail transport, and the constants of packages `constant` and `dto`. -/
structure Env where
  Sprintf : String → List Any → String
  Now : Int
  Marshal : WebhookPayload → Except String String
  EnableWorker : Bool
  WorkerValidKey : String
  DoWorkerRequest : WorkerRequest → Except String Int
  NewRequestError : String → Option String
  Do : http.Request → Except String Int
  CanonicalMIMEHeaderKey : String → String
  CheckNotificationLimit : Int → String → Bool × Option String
  SendEmail : String → String → String → Option String
  ContentValueParam : String
  UserSettingNotifyType : String
  UserSettingNotificationEmail : String
  UserSettingWebhookUrl : String
  UserSettingWebhookSecret : String
  NotifyTypeEmail : String
  NotifyTypeWebhook : String

/-- Go `generateSignature`: lower-case hexadecimal HMAC-SHA256 of the payload
under the secret. -/
def generateSignature (secret : String) (payload : String) : String :=
  hex.EncodeToString (hmac.Sum (bytesOf secret) (bytesOf payload))

/-- The content loop of `SendWebhookNotify` (lines 51-54):
`content = fmt.Sprintf(content, value)` for each value in turn. -/
def webhookContent (env : Env) (data : dto.Notify) : String :=
  data.Values.foldl (fun content value => env.Sprintf content [value]) data.Content

/-- Go `SendWebhookNotify`: the requests handed to a transport and the
returned error. -/
def SendWebhookNotify (env : Env) (webhookURL : String) (secret : String)
    (data : dto.Notify) : List Sent × Option String :=
  let content := webhookContent env data
  let payload : WebhookPayload :=
    { Type_ := data.Type_, Title := data.Title, Content := content,
      Values := data.Values, Timestamp := env.Now }
  match env.Marshal payload with
  | .error err => ([], some ("failed to marshal webhook payload: " ++ err))
  | .ok payloadBytes =>
    if env.EnableWorker then
      let headers : String → Option String :=
        fun k => if k = "Content-Type" then some "application/json" else none
      let headers : String → Option String :=
        if secret != "" then
          let signature := generateSignature secret payloadBytes
          let headers : String → Option String :=
            fun k => if k = "X-Webhook-Signature" then some signature else headers k
          fun k => if k = "Authorization" then some ("Bearer " ++ secret) else headers k
        else headers
      let workerReq : WorkerRequest :=
        { URL := webhookURL, Key := env.WorkerValidKey, Method := "POST",
          Headers := headers, Body := payloadBytes }
      match env.DoWorkerRequest workerReq with
      | .error err =>
        ([Sent.worker workerReq],
          some ("failed to send webhook request through worker: " ++ err))
      | .ok statusCode =>
        if statusCode < 200 || statusCode >= 300 then
          ([Sent.worker workerReq],
            some ("webhook request failed with status code: " ++ strconv.Itoa statusCode))
        else ([Sent.worker workerReq], none)
    else
      match env.NewRequestError webhookURL with
      | some err => ([], some ("failed to create webhook request: " ++ err))
      | none =>
        let header : http.Header := fun _ => none
        let header :=
          http.Header.Set env.CanonicalMIMEHeaderKey header "Content-Type" "application/json"
        let header :=
          if secret != "" then
            let signature := generateSignature secret payloadBytes
            http.Header.Set env.CanonicalMIMEHeaderKey header "X-Webhook-Signature" signature
          else header
        let req : http.Request :=
          { Method := "POST", URL := webhookURL, Header := header, Body := payloadBytes }
        match env.Do req with
        | .error err => ([Sent.direct req], some ("failed to send webhook request: " ++ err))
        | .ok statusCode =>
          if statusCode < 200 || statusCode >= 300 then
            ([Sent.direct req],
              some ("webhook request failed with status code: " ++ strconv.Itoa statusCode))
          else ([Sent.direct req], none)

/-- The content loop of `sendEmailNotify` (lines 88-92): each value in turn
replaces the first occurrence of the placeholder token in the content. -/
def emailContent (env : Env) (data : dto.Notify) : String :=
  data.Values.foldl
    (fun content value =>
      strings.Replace1 content env.ContentValueParam (env.Sprintf "%v" [value]))
    data.Content

/-- Go `sendEmailNotify`: the call of the mail transport and its error. -/
def sendEmailNotify (env : Env) (userEmail : String) (data : dto.Notify) :
    List Effect × Option String :=
  let content := emailContent env data
  ([Effect.email data.Title userEmail content], env.SendEmail data.Title userEmail content)

/-- Go `NotifyUser`: what it does to the outside, in order, and how the call
ends.  The type assertion `settingEmail.(string)` panics on a value that is
not a string. -/
def NotifyUser (env : Env) (userId : Int) (userEmail : String)
    (userSetting : String → Option Any) (data : dto.Notify) :
    List Effect × Outcome (Option String) :=
  let notifyType : Any :=
    match userSetting env.UserSettingNotifyType with
    | some v => v
    | none => Any.str env.NotifyTypeEmail
  let checked := env.CheckNotificationLimit userId data.Type_
  let trace := [Effect.checkLimit userId data.Type_]
  match checked.2 with
  | some err => (trace, Outcome.returned (some err))
  | none =>
    if !checked.1 then
      (trace, Outcome.returned (some
        (env.Sprintf "notification limit exceeded for user %d with type %s"
          [Any.int userId, notifyType])))
    else if notifyType = Any.str env.NotifyTypeEmail then
      match userSetting env.UserSettingNotificationEmail with
      | some (Any.int _) =>
        (trace, Outcome.panicked "interface conversion: interface {} is not string")
      | some (Any.str settingEmail) =>
        if settingEmail == "" then (trace, Outcome.returned none)
        else
          let sent := sendEmailNotify env settingEmail data
          (trace ++ sent.1, Outcome.returned sent.2)
      | none =>
        if userEmail == "" then (trace, Outcome.returned none)
        else
          let sent := sendEmailNotify env userEmail data
          (trace ++ sent.1, Outcome.returned sent.2)
    else if notifyType = Any.str env.NotifyTypeWebhook then
      match userSetting env.UserSettingWebhookUrl with
      | none => (trace, Outcome.returned none)
      | some (Any.int _) => (trace, Outcome.returned none)
      | some (Any.str webhookURLStr) =>
        let webhookSecret : String :=
          match userSetting env.UserSettingWebhookSecret with
          | some (Any.str secret) => secret
          | _ => ""
        let sent := SendWebhookNotify env webhookURLStr webhookSecret data
        (trace ++ sent.1.map Effect.webhook, Outcome.returned sent.2)
    else (trace, Outcome.returned none)

end service

/-! ## Package `suno`: the submit response -/

namespace dto

/-- The fields of a decoded `dto.TaskResponse[string]`. -/
structure TaskResponse where
  Code : String := ""
  Message : String := ""
  Data : String := ""
  deriving DecidableEq, Repr

end dto

namespace http

/-- Go `http.StatusInternalServerError`. -/
def StatusInternalServerError : Int := 500

end http

namespace suno

/-- What `DoResponse` writes to the client. -/
inductive ClientWrite where
  | setHeader (key value : String)
  | writeHeader (statusCode : Int)
  | write (body : String)
  deriving DecidableEq, Repr

/-- The loop of lines 122-124: the first value of every response header is
copied to the client; `none` when a header has no value, where `v[0]`
panics. -/
def copyHeaders : List (String × List String) → Option (List ClientWrite)
  | [] => some []
  | (_, []) :: _ => none
  | (k, v :: _) :: rest =>
    match copyHeaders rest with
    | some writes => some (ClientWrite.setHeader k v :: writes)
    | none => none

/-- Go `TaskAdaptor.DoResponse`: the task id, the task data (always nil), the
task error, and what was written to the client.  `Errorf` is `fmt.Errorf`
called with a format and no operand, `unmarshal` is `json.Unmarshal` into a
task response, `IsSuccess` is the method of `dto.TaskResponse`, and `copyError`
is the error of `io.Copy` to the client. -/
def DoResponse (ToLower : String → String) (Errorf : String → String)
    (unmarshal : String → Except String dto.TaskResponse)
    (IsSuccess : dto.TaskResponse → Bool) (copyError : Option String)
    (resp : http.Response) :
    Outcome ((String × Option String × Option dto.TaskError) × List ClientWrite) :=
  match resp.Body.readAll with
  | none =>
    Outcome.returned
      (("", none, some (service.TaskErrorWrapper ToLower resp.Body.readError
        "read_response_body_failed" http.StatusInternalServerError)), [])
  | some responseBody =>
    match unmarshal responseBody with
    | .error err =>
      Outcome.returned
        (("", none, some (service.TaskErrorWrapper ToLower err
          "unmarshal_response_body_failed" http.StatusInternalServerError)), [])
    | .ok sunoResponse =>
      if !IsSuccess sunoResponse then
        Outcome.returned
          (("", none, some (service.TaskErrorWrapper ToLower (Errorf sunoResponse.Message)
            sunoResponse.Code http.StatusInternalServerError)), [])
      else
        match copyHeaders resp.Header with
        | none => Outcome.panicked "runtime error: index out of range [0] with length 0"
        | some headerWrites =>
          let writes := headerWrites
            ++ [ClientWrite.setHeader "Content-Type" "application/json",
                ClientWrite.writeHeader resp.StatusCode, ClientWrite.write responseBody]
          match copyError with
          | some err =>
            Outcome.returned
              (("", none, some (service.TaskErrorWrapper ToLower err
                "copy_response_body_failed" http.StatusInternalServerError)), writes)
          | none => Outcome.returned ((sunoResponse.Data, none, none), writes)

end suno

/-! ## Package `setting`: `sensitive.go` -/

namespace unicode

/-- Go `unicode.IsSpace`: the characters with the Unicode White_Space
property. -/
def IsSpace (c : Char) : Bool :=
  let n := c.toNat
  (9 ≤ n && n ≤ 13) || n == 32 || n == 0x85 || n == 0xA0 || n == 0x1680
    || (0x2000 ≤ n && n ≤ 0x200A) || n == 0x2028 || n == 0x2029 || n == 0x202F
    || n == 0x205F || n == 0x3000

end unicode

namespace strings

/-- Cut a character list at every occurrence of the separator. -/
def splitChars (sep : Char) : List Char → List (List Char)
  | [] => [[]]
  | c :: cs =>
    if c = sep then [] :: splitChars sep cs
    else
      match splitChars sep cs with
      | [] => [[c]]
      | l :: ls => (c :: l) :: ls

/-- Go `strings.Split(s, sep)` for a separator of one character. -/
def Split (s : String) (sep : Char) : List String :=
  (splitChars sep s.toList).map String.mk

/-- Remove the white space at the end of a character list. -/
def trimRightChars (l : List Char) : List Char :=
  (l.reverse.dropWhile unicode.IsSpace).reverse

/-- Go `strings.TrimSpace`: the text without its leading and trailing white
space. -/
def TrimSpace (s : String) : String :=
  String.mk (trimRightChars (s.toList.dropWhile unicode.IsSpace))

/-- Go `strings.HasPrefix(s, p)`: `s` starts with `p`. -/
def HasPrefix (s p : String) : Bool :=
  startsWithChars s.toList p.toList

/-- Go `strings.TrimPrefix(s, p)`: `s` without the leading `p`, or `s` itself
when it does not start with `p`. -/
def TrimPrefix (s p : String) : String :=
  if startsWithChars s.toList p.toList then String.mk (s.toList.drop p.length) else s

end strings

namespace setting

/-- The two package variables `SensitiveWords` and `RegexSensitiveWords`. -/
structure Lists where
  SensitiveWords : List String
  RegexSensitiveWords : List String
  deriving DecidableEq, Repr

/-- Go `SensitiveWordsToString`. -/
def SensitiveWordsToString (lists : Lists) : String :=
  let builder := lists.SensitiveWords.foldl (fun b word => (b ++ word) ++ "\n") ""
  lists.RegexSensitiveWords.foldl (fun b pattern => ((b ++ "regex:") ++ pattern) ++ "\n")
    builder

/-- The body of the loop of `SensitiveWordsFromString` on one line.
`isValidRegex` tells whether `regexp.Compile` accepts a pattern. -/
def addLine (isValidRegex : String → Bool) (lists : Lists) (line : String) : Lists :=
  let line := strings.TrimSpace line
  if line == "" then lists
  else if strings.HasPrefix line "regex:" then
    let pattern := strings.TrimPrefix line "regex:"
    if isValidRegex pattern then
      { lists with RegexSensitiveWords := lists.RegexSensitiveWords ++ [pattern] }
    else lists
  else { lists with SensitiveWords := lists.SensitiveWords ++ [line] }

/-- Go `SensitiveWordsFromString`: both variables are reset and refilled from
the lines of `s`. -/
def SensitiveWordsFromString (isValidRegex : String → Bool) (s : String) : Lists :=
  (strings.Split s '\n').foldl (addLine isValidRegex)
    { SensitiveWords := [], RegexSensitiveWords := [] }

/-- A text has no white space at its start and none at its end. -/
def noOuterSpace (s : String) : Bool :=
  (match s.toList.head? with
    | some c => !unicode.IsSpace c
    | none => true)
  && (match s.toList.getLast? with
    | some c => !unicode.IsSpace c
    | none => true)

/-- The lists that the round trip preserves: every plain word is non-empty,
has no newline, no white space at either end and does not start with
"regex:"; every pattern is accepted by `regexp.Compile`, has no newline and no
white space at either end. -/
def WellFormed (isValidRegex : String → Bool) (lists : Lists) : Prop :=
  (∀ word ∈ lists.SensitiveWords,
      word ≠ "" ∧ '\n' ∉ word.toList ∧ noOuterSpace word = true
        ∧ strings.HasPrefix word "regex:" = false)
  ∧ (∀ pattern ∈ lists.RegexSensitiveWords,
      isValidRegex pattern = true ∧ '\n' ∉ pattern.toList ∧ noOuterSpace pattern = true)

end setting

/-! ## Instances of formatting and of the notification collaborators -/

namespace sample

/-- The `%v` text of a value. -/
def valueText : Any → String
  | Any.str s => s
  | Any.int i => strconv.Itoa i

/-- The text of one operand under a verb: `s` and `v` print a string, `d` and
`v` print an integer, and any other character reports a bad verb. -/
def verbText (verb : Char) : Any → String
  | Any.str s =>
    if verb = 's' ∨ verb = 'v' then s
    else "%!" ++ String.singleton verb ++ "(string=" ++ s ++ ")"
  | Any.int i =>
    if verb = 'd' ∨ verb = 'v' then strconv.Itoa i
    else "%!" ++ String.singleton verb ++ "(int=" ++ strconv.Itoa i ++ ")"

/-- The report on operands that no verb consumed. -/
def extraText : List Any → String
  | [] => ""
  | a :: rest =>
    "%!(EXTRA "
      ++ ", ".intercalate
          ((a :: rest).map fun x =>
            (match x with
              | Any.str _ => "string="
              | Any.int _ => "int=") ++ valueText x)
      ++ ")"

/-- The scan of a format: text is copied, `%%` prints a percent sign, a `%`
followed by a character consumes the next operand or reports it missing, and a
`%` that ends the format reports that the verb is missing. -/
def sprintfChars : List Char → List Any → String
  | [], args => extraText args
  | ['%'], args => "%!(NOVERB)" ++ extraText args
  | '%' :: '%' :: rest, args => "%" ++ sprintfChars rest args
  | '%' :: verb :: rest, [] =>
    "%!" ++ String.singleton verb ++ "(MISSING)" ++ sprintfChars rest []
  | '%' :: verb :: rest, a :: args => verbText verb a ++ sprintfChars rest args
  | c :: rest, args => String.singleton c ++ sprintfChars rest args

/-- An instance of `fmt.Sprintf` for evaluation: what Go computes on string and
integer operands for a format in which every `%` ends the format or is
directly followed by `%`, by one of the verbs `s`, `v`, `d`, or by a character
that is a verb of no type (such as `!`). -/
def sprintf (format : String) (args : List Any) : String :=
  sprintfChars format.toList args

/-- An instance of `fmt.Errorf` called without operands: the text of the
error. -/
def errorf (format : String) : String :=
  sprintf format []

/-- An instance of `json.Marshal` for evaluation: type, title and content of
the payload between separators. -/
def marshal (payload : service.WebhookPayload) : Except String String :=
  .ok (payload.Type_ ++ "|" ++ payload.Title ++ "|" ++ payload.Content)

/-- Collaborators for evaluation: every transport answers 200, the rate limit
allows the notification, and the placeholder token is `{{value}}`. -/
def env (enableWorker : Bool) : service.Env :=
  { Sprintf := sprintf
    Now := 1700000000
    Marshal := marshal
    EnableWorker := enableWorker
    WorkerValidKey := "worker-key"
    DoWorkerRequest := fun _ => .ok 200
    NewRequestError := fun _ => none
    Do := fun _ => .ok 200
    CanonicalMIMEHeaderKey := http.asciiCanonicalMIMEHeaderKey
    CheckNotificationLimit := fun _ _ => (true, none)
    SendEmail := fun _ _ _ => none
    ContentValueParam := "\x7b\x7bvalue\x7d\x7d"
    UserSettingNotifyType := "notify_type"
    UserSettingNotificationEmail := "notification_email"
    UserSettingWebhookUrl := "webhook_url"
    UserSettingWebhookSecret := "webhook_secret"
    NotifyTypeEmail := "email"
    NotifyTypeWebhook := "webhook" }

/-- The collaborators of `env` with a rate limit that is exceeded. -/
def envLimited : service.Env :=
  { env false with CheckNotificationLimit := fun _ _ => (false, none) }

/-- What `json.Unmarshal` into a task response yields on the body
`{"code":"quota_exceeded","message":"quota usage reached 100%","data":""}`;
any other text evaluated here does not decode. -/
def unmarshalTask (s : String) : Except String dto.TaskResponse :=
  if s = "\x7b\"code\":\"quota_exceeded\",\"message\":\"quota usage reached 100%\",\"data\":\"\"\x7d"
  then .ok { Code := "quota_exceeded", Message := "quota usage reached 100%" }
  else .error "unexpected end of JSON input"

/-- An instance of `IsSuccess`: the code is "success". -/
def isSuccess (r : dto.TaskResponse) : Bool :=
  r.Code == "success"

/-- An instance of `isValidRegex` for evaluation: a pattern is rejected when
it contains an opening parenthesis and no closing one. -/
def isValidRegex (pattern : String) : Bool :=
  !(pattern.toList.contains '(' && !pattern.toList.contains ')')

end sample

/-! ## Specification vocabulary for placeholder substitution -/

namespace strings

/-- In `p` followed by the token, the token occurs at the end only. -/
def tokenFreeBefore (token : List Char) : List Char → Bool
  | [] => true
  | c :: cs => !startsWithChars (c :: cs ++ token) token && tokenFreeBefore token cs

/-- The token does not occur in `p`. -/
def tokenFree (token : List Char) : List Char → Bool
  | [] => !startsWithChars [] token
  | c :: cs => !startsWithChars (c :: cs) token && tokenFree token cs

/-- A template cut at the occurrences of the token, read left to right: every
piece but the last is followed by an occurrence, which is the first one after
the piece, and the last piece holds no occurrence. -/
def segmentsValid (token : List Char) : List (List Char) → Bool
  | [] => true
  | [p] => tokenFree token p
  | p :: q :: ps => tokenFreeBefore token p && segmentsValid token (q :: ps)

/-- The pieces of a template joined again, the i-th occurrence of the token
replaced by the i-th text; occurrences beyond the texts keep the token and
texts beyond the occurrences are not used. -/
def fillSegments (token : List Char) : List (List Char) → List (List Char) → List Char
  | [], _ => []
  | [p], _ => p
  | p :: q :: ps, [] => p ++ token ++ fillSegments token (q :: ps) []
  | p :: q :: ps, v :: vs => p ++ v ++ fillSegments token (q :: ps) vs

/-- No occurrence of the token starts inside `d` when the text `rest` follows
it. -/
def noTokenStartsIn (token : List Char) : List Char → List Char → Bool
  | [], _ => true
  | c :: cs, rest =>
    !startsWithChars (c :: cs ++ rest) token && noTokenStartsIn token cs rest

/-- Filling the texts into the template, in order, creates no occurrence of the
token that a later text could take.  `d` is the template as filled so far, the
pieces are those still to come and the texts those still to fill.  For every
text that is followed by another text: once it stands in place of its
occurrence, no occurrence of the token starts before its end, the rest of the
template following.  Nothing is asked of the last text, and nothing of a text
that has no occurrence left to fill. -/
def fillsCleanly (token : List Char) :
    List Char → List (List Char) → List (List Char) → Bool
  | d, p :: q :: ps, v :: vs =>
    (vs.isEmpty
        || noTokenStartsIn token (d ++ (p ++ v)) (fillSegments token (q :: ps) []))
      && fillsCleanly token (d ++ (p ++ v)) (q :: ps) vs
  | _, _, _ => true

end strings

/-! ## Theorems: `RelayErrorHandler` -/

namespace service

/-- Shared lemma: the status code of the envelope is always that of the
response. -/
theorem RelayErrorHandler_status (hideUpstream : Bool)
    (unmarshal : String → Option dto.GeneralErrorResponse)
    (resp : http.Response) (showBodyWhenFail : Bool) :
    (RelayErrorHandler hideUpstream unmarshal resp showBodyWhenFail).StatusCode
      = resp.StatusCode := by
  unfold RelayErrorHandler
  dsimp only
  repeat' (first | rfl | split_ifs | split)

/-- Shared lemma: with the policy disabled, a body that reads, closes and
decodes with a non-empty `error.message` has its whole decoded error object
copied into the envelope. -/
theorem RelayErrorHandler_decoded (unmarshal : String → Option dto.GeneralErrorResponse)
    (resp : http.Response) (showBodyWhenFail : Bool) (hideUpstream : Bool)
    (body : String) (r : dto.GeneralErrorResponse)
    (hread : resp.Body.readAll = some body) (hclose : resp.Body.closeFails = false)
    (hdec : unmarshal body = some r) (hmsg : r.Error.Message ≠ "")
    (hpol : (hideUpstream && resp.StatusCode != http.StatusTooManyRequests) = false) :
    (RelayErrorHandler hideUpstream unmarshal resp showBodyWhenFail).Error = r.Error := by
  unfold RelayErrorHandler
  simp only [hread, hclose, hdec, hpol]
  simp [hmsg]

/-- C1. With the hide-upstream policy disabled, an upstream response whose body
is read successfully (`io.ReadAll` and `Close` return no error) and decodes as
JSON with a non-empty `error.message` m yields an envelope whose message is
exactly m and whose status code is the status code of the response. -/
theorem C1_message_passthrough_when_not_hidden
    (unmarshal : String → Option dto.GeneralErrorResponse)
    (resp : http.Response) (showBodyWhenFail : Bool)
    (body : String) (r : dto.GeneralErrorResponse)
    (hread : resp.Body.readAll = some body) (hclose : resp.Body.closeFails = false)
    (hdec : unmarshal body = some r) (hmsg : r.Error.Message ≠ "") :
    (RelayErrorHandler false unmarshal resp showBodyWhenFail).Error.Message = r.Error.Message
    ∧ (RelayErrorHandler false unmarshal resp showBodyWhenFail).StatusCode
        = resp.StatusCode := by
  refine ⟨?_, RelayErrorHandler_status _ _ _ _⟩
  rw [RelayErrorHandler_decoded unmarshal resp showBodyWhenFail false body r hread hclose
    hdec hmsg (by simp)]

/-- Witness of C1: the body `{"error":{"message":"bad key"}}` with status 401
yields the message "bad key" and the status 401. -/
theorem C1_message_passthrough_when_not_hidden_witness :
    (RelayErrorHandler false sample.unmarshalError
        (sample.response 401 "\x7b\"error\":\x7b\"message\":\"bad key\"\x7d\x7d")
        false).Error.Message = "bad key"
    ∧ (RelayErrorHandler false sample.unmarshalError
        (sample.response 401 "\x7b\"error\":\x7b\"message\":\"bad key\"\x7d\x7d")
        false).StatusCode = 401 :=
  C1_message_passthrough_when_not_hidden sample.unmarshalError
    (sample.response 401 "\x7b\"error\":\x7b\"message\":\"bad key\"\x7d\x7d") false
    "\x7b\"error\":\x7b\"message\":\"bad key\"\x7d\x7d"
    { Error := { Message := "bad key" }, ToMessage := "bad key" }
    rfl rfl (by decide) (by decide)

/-- C2. With the hide-upstream policy enabled, an upstream response with a
status N other than 429 whose body is read successfully (`io.ReadAll` and
`Close` return no error) yields the message "Upstream error with status code N",
whether or not the body decodes and whatever message it carries. -/
theorem C2_generic_message_when_hidden
    (unmarshal : String → Option dto.GeneralErrorResponse)
    (resp : http.Response) (showBodyWhenFail : Bool) (body : String)
    (hstatus : resp.StatusCode ≠ 429)
    (hread : resp.Body.readAll = some body) (hclose : resp.Body.closeFails = false) :
    (RelayErrorHandler true unmarshal resp showBodyWhenFail).Error.Message
      = "Upstream error with status code " ++ strconv.Itoa resp.StatusCode := by
  have hne : (resp.StatusCode != http.StatusTooManyRequests) = true := by
    simpa [http.StatusTooManyRequests] using hstatus
  unfold RelayErrorHandler
  simp only [hread, hclose]
  cases unmarshal body with
  | none => simp [hne]
  | some r => simp [hne]

/-- Witness of C2: status 500 with the body `{"error":{"message":"bad key"}}`
yields "Upstream error with status code 500". -/
theorem C2_generic_message_when_hidden_witness :
    (RelayErrorHandler true sample.unmarshalError
        (sample.response 500 "\x7b\"error\":\x7b\"message\":\"bad key\"\x7d\x7d")
        false).Error.Message = "Upstream error with status code 500" :=
  C2_generic_message_when_hidden sample.unmarshalError
    (sample.response 500 "\x7b\"error\":\x7b\"message\":\"bad key\"\x7d\x7d") false
    "\x7b\"error\":\x7b\"message\":\"bad key\"\x7d\x7d" (by decide) rfl rfl

/-- C3. For a response with status 429 and any body (readable or not,
decodable or not), the envelope is the same with the hide-upstream policy
enabled and disabled; and when the body reads, closes and decodes with a
non-empty `error.message`, both runs carry that message verbatim. -/
theorem C3_rate_limit_passthrough
    (unmarshal : String → Option dto.GeneralErrorResponse)
    (resp : http.Response) (showBodyWhenFail : Bool)
    (hstatus : resp.StatusCode = 429) :
    RelayErrorHandler true unmarshal resp showBodyWhenFail
      = RelayErrorHandler false unmarshal resp showBodyWhenFail
    ∧ ∀ (body : String) (r : dto.GeneralErrorResponse),
        resp.Body.readAll = some body → resp.Body.closeFails = false →
        unmarshal body = some r → r.Error.Message ≠ "" →
        (RelayErrorHandler true unmarshal resp showBodyWhenFail).Error.Message
            = r.Error.Message
          ∧ (RelayErrorHandler false unmarshal resp showBodyWhenFail).Error.Message
            = r.Error.Message := by
  have hpol : ∀ h : Bool, (h && resp.StatusCode != http.StatusTooManyRequests) = false := by
    intro h
    simp [hstatus, http.StatusTooManyRequests]
  refine ⟨?_, ?_⟩
  · unfold RelayErrorHandler
    simp only [hpol]
  · intro body r hread hclose hdec hmsg
    rw [RelayErrorHandler_decoded unmarshal resp showBodyWhenFail true body r hread hclose
        hdec hmsg (hpol true),
      RelayErrorHandler_decoded unmarshal resp showBodyWhenFail false body r hread hclose
        hdec hmsg (hpol false)]
    exact ⟨rfl, rfl⟩

/-- Witness of C3: status 429 with the body `{"error":{"message":"bad key"}}`
gives equal envelopes under both settings, each with the message "bad key". -/
theorem C3_rate_limit_passthrough_witness :
    RelayErrorHandler true sample.unmarshalError
        (sample.response 429 "\x7b\"error\":\x7b\"message\":\"bad key\"\x7d\x7d") false
      = RelayErrorHandler false sample.unmarshalError
        (sample.response 429 "\x7b\"error\":\x7b\"message\":\"bad key\"\x7d\x7d") false
    ∧ (RelayErrorHandler true sample.unmarshalError
        (sample.response 429 "\x7b\"error\":\x7b\"message\":\"bad key\"\x7d\x7d")
        false).Error.Message = "bad key"
    ∧ (RelayErrorHandler false sample.unmarshalError
        (sample.response 429 "\x7b\"error\":\x7b\"message\":\"bad key\"\x7d\x7d")
        false).Error.Message = "bad key" :=
  have h := C3_rate_limit_passthrough sample.unmarshalError
    (sample.response 429 "\x7b\"error\":\x7b\"message\":\"bad key\"\x7d\x7d") false rfl
  ⟨h.1, h.2 "\x7b\"error\":\x7b\"message\":\"bad key\"\x7d\x7d"
    { Error := { Message := "bad key" }, ToMessage := "bad key" }
    rfl rfl (by decide) (by decide)⟩

end service

/-! ## Theorems: the error wrappers -/

namespace strings

/-- Every character of a pattern that starts a list occurs in the list. -/
theorem mem_of_startsWithChars :
    ∀ (l sub : List Char), startsWithChars l sub = true → ∀ c ∈ sub, c ∈ l
  | _, [], _, c, hc => by cases hc
  | [], _ :: _, h, _, _ => by simp [startsWithChars] at h
  | a :: l, b :: sub, h, c, hc => by
    simp only [startsWithChars, Bool.and_eq_true, beq_iff_eq] at h
    rcases List.mem_cons.mp hc with rfl | hc
    · simp [h.1]
    · exact List.mem_cons_of_mem _ (mem_of_startsWithChars l sub h.2 c hc)

/-- Every character of a pattern that occurs in a list occurs in the list. -/
theorem mem_of_containsChars :
    ∀ (l sub : List Char), containsChars l sub = true → ∀ c ∈ sub, c ∈ l
  | [], sub, h, c, hc => mem_of_startsWithChars [] sub (by simpa [containsChars] using h) c hc
  | a :: l, sub, h, c, hc => by
    simp only [containsChars, Bool.or_eq_true] at h
    rcases h with h | h
    · exact mem_of_startsWithChars (a :: l) sub h c hc
    · exact List.mem_cons_of_mem _ (mem_of_containsChars l sub h c hc)

end strings

namespace service

/-- Shared lemma: the message of the three wrappers, by cases on the
transport-term test. -/
theorem wrapper_messages (ToLower : String → String) (err code : String) (statusCode : Int) :
    (OpenAIErrorWrapper ToLower err code statusCode).Error.Message
        = (if mentionsTransportTerm ToLower err then "请求上游地址失败" else err)
    ∧ (ClaudeErrorWrapper ToLower err code statusCode).Error.Message
        = (if mentionsTransportTerm ToLower err then "请求上游地址失败" else err)
    ∧ (TaskErrorWrapper ToLower err code statusCode).Message
        = (if mentionsTransportTerm ToLower err then "请求上游地址失败" else err) :=
  ⟨rfl, rfl, rfl⟩

/-- Shared lemma: a text whose lower-casing is itself and which occurs inside
the generic message mentions no transport term. -/
theorem no_term_inside_generic (err : String)
    (hin : strings.Contains "请求上游地址失败" err = true) :
    strings.Contains err "post" = false ∧ strings.Contains err "dial" = false
      ∧ strings.Contains err "http" = false := by
  have hsub : ∀ c ∈ err.toList, c ∈ "请求上游地址失败".toList :=
    strings.mem_of_containsChars _ _ hin
  refine ⟨?_, ?_, ?_⟩
  · cases h : strings.Contains err "post" with
    | false => rfl
    | true =>
      have := hsub _ (strings.mem_of_containsChars _ _ h 'p' (by decide))
      exact absurd this (by decide)
  · cases h : strings.Contains err "dial" with
    | false => rfl
    | true =>
      have := hsub _ (strings.mem_of_containsChars _ _ h 'd' (by decide))
      exact absurd this (by decide)
  · cases h : strings.Contains err "http" with
    | false => rfl
    | true =>
      have := hsub _ (strings.mem_of_containsChars _ _ h 'h' (by decide))
      exact absurd this (by decide)

/-- C4. For each of `OpenAIErrorWrapper`, `ClaudeErrorWrapper` and
`TaskErrorWrapper`: when the lower-cased text of the error contains "post",
"dial" or "http", the message is the fixed string "请求上游地址失败", and the
text of the error does not occur in it (for a lower-casing that works
character by character and leaves the characters of the fixed string alone, as
Go's does); otherwise the message is the text of the error.  The three wrappers
give the same message, and the status code is the one passed in. -/
theorem C4_wrappers_redact_transport_errors (ToLower : String → String)
    (err code : String) (statusCode : Int) :
    (mentionsTransportTerm ToLower err = true →
        (OpenAIErrorWrapper ToLower err code statusCode).Error.Message = "请求上游地址失败"
        ∧ (ClaudeErrorWrapper ToLower err code statusCode).Error.Message = "请求上游地址失败"
        ∧ (TaskErrorWrapper ToLower err code statusCode).Message = "请求上游地址失败")
    ∧ (mentionsTransportTerm ToLower err = true →
        ∀ lowerRune : Char → Char,
          (∀ s : String, ToLower s = String.mk (s.toList.map lowerRune)) →
          (∀ c ∈ "请求上游地址失败".toList, lowerRune c = c) →
          strings.Contains
            (OpenAIErrorWrapper ToLower err code statusCode).Error.Message err = false)
    ∧ (mentionsTransportTerm ToLower err = false →
        (OpenAIErrorWrapper ToLower err code statusCode).Error.Message = err
        ∧ (ClaudeErrorWrapper ToLower err code statusCode).Error.Message = err
        ∧ (TaskErrorWrapper ToLower err code statusCode).Message = err)
    ∧ ((OpenAIErrorWrapper ToLower err code statusCode).Error.Message
          = (ClaudeErrorWrapper ToLower err code statusCode).Error.Message
        ∧ (ClaudeErrorWrapper ToLower err code statusCode).Error.Message
          = (TaskErrorWrapper ToLower err code statusCode).Message)
    ∧ ((OpenAIErrorWrapper ToLower err code statusCode).StatusCode = statusCode
        ∧ (ClaudeErrorWrapper ToLower err code statusCode).StatusCode = statusCode
        ∧ (TaskErrorWrapper ToLower err code statusCode).StatusCode = statusCode) := by
  obtain ⟨ho, hc, ht⟩ := wrapper_messages ToLower err code statusCode
  refine ⟨?_, ?_, ?_, ⟨by rw [ho, hc], by rw [hc, ht]⟩, ⟨rfl, rfl, rfl⟩⟩
  · intro h
    rw [ho, hc, ht, h]
    exact ⟨rfl, rfl, rfl⟩
  · intro h lowerRune hmap hfix
    rw [ho, h]
    simp only [if_true]
    cases hin : strings.Contains "请求上游地址失败" err with
    | false => rfl
    | true =>
      have hsub : ∀ c ∈ err.toList, c ∈ "请求上游地址失败".toList :=
        strings.mem_of_containsChars _ _ hin
      have hlow : ToLower err = err := by
        rw [hmap err]
        have hm : err.toList.map lowerRune = err.toList := by
          conv_rhs => rw [← List.map_id err.toList]
          exact List.map_congr_left (fun c hc => hfix c (hsub c hc))
        rw [hm]
        rfl
      obtain ⟨h1, h2, h3⟩ := no_term_inside_generic err hin
      simp [mentionsTransportTerm, hlow, h1, h2, h3] at h
  · intro h
    rw [ho, hc, ht, h]
    exact ⟨rfl, rfl, rfl⟩

/-- Witness of C4: a connection failure is replaced by the fixed string, which
does not contain it, and a vendor message without transport terms is kept. -/
theorem C4_wrappers_redact_transport_errors_witness :
    ((OpenAIErrorWrapper strings.asciiToLower
          "Post \"https://api.example.com/v1/chat\": dial tcp: no such host" "e" 502).Error.Message
        = "请求上游地址失败"
      ∧ (ClaudeErrorWrapper strings.asciiToLower
          "Post \"https://api.example.com/v1/chat\": dial tcp: no such host" "e" 502).Error.Message
        = "请求上游地址失败"
      ∧ (TaskErrorWrapper strings.asciiToLower
          "Post \"https://api.example.com/v1/chat\": dial tcp: no such host" "e" 502).Message
        = "请求上游地址失败")
    ∧ strings.Contains
        (OpenAIErrorWrapper strings.asciiToLower
          "Post \"https://api.example.com/v1/chat\": dial tcp: no such host" "e" 502).Error.Message
        "Post \"https://api.example.com/v1/chat\": dial tcp: no such host" = false
    ∧ ((OpenAIErrorWrapper strings.asciiToLower "model not found" "e" 404).Error.Message
        = "model not found"
      ∧ (ClaudeErrorWrapper strings.asciiToLower "model not found" "e" 404).Error.Message
        = "model not found"
      ∧ (TaskErrorWrapper strings.asciiToLower "model not found" "e" 404).Message
        = "model not found") :=
  ⟨(C4_wrappers_redact_transport_errors strings.asciiToLower
      "Post \"https://api.example.com/v1/chat\": dial tcp: no such host" "e" 502).1 (by decide),
   (C4_wrappers_redact_transport_errors strings.asciiToLower
      "Post \"https://api.example.com/v1/chat\": dial tcp: no such host" "e" 502).2.1
      (by decide) Char.toLower (fun _ => rfl) (by decide),
   (C4_wrappers_redact_transport_errors strings.asciiToLower
      "model not found" "e" 404).2.2.1 (by decide)⟩

/-- Counterexample to C5: the local wrappers replace the text of the local
validation error "invalid url: must start with http" by the generic
upstream-failure message. -/
theorem C5_local_wrappers_redact_counterexample :
    (OpenAIErrorWrapperLocal strings.asciiToLower
        "invalid url: must start with http" "invalid_request" 400).Error.Message
      ≠ "invalid url: must start with http"
    ∧ (ClaudeErrorWrapperLocal strings.asciiToLower
        "invalid url: must start with http" "invalid_request" 400).Error.Message
      ≠ "invalid url: must start with http"
    ∧ (TaskErrorWrapperLocal strings.asciiToLower
        "invalid url: must start with http" "invalid_request" 400).Message
      ≠ "invalid url: must start with http"
    ∧ (OpenAIErrorWrapperLocal strings.asciiToLower
        "invalid url: must start with http" "invalid_request" 400).Error.Message
      = "请求上游地址失败" := by
  decide

/-- C5, amended. The local wrappers always set `LocalError`; their message is
the text of the error verbatim when its lower-cased text contains none of
"post", "dial", "http", and the generic upstream-failure message when it
contains one of them. -/
theorem C5_local_wrappers_message (ToLower : String → String)
    (err code : String) (statusCode : Int) :
    ((OpenAIErrorWrapperLocal ToLower err code statusCode).LocalError = true
      ∧ (ClaudeErrorWrapperLocal ToLower err code statusCode).LocalError = true
      ∧ (TaskErrorWrapperLocal ToLower err code statusCode).LocalError = true)
    ∧ (mentionsTransportTerm ToLower err = false →
        (OpenAIErrorWrapperLocal ToLower err code statusCode).Error.Message = err
        ∧ (ClaudeErrorWrapperLocal ToLower err code statusCode).Error.Message = err
        ∧ (TaskErrorWrapperLocal ToLower err code statusCode).Message = err)
    ∧ (mentionsTransportTerm ToLower err = true →
        (OpenAIErrorWrapperLocal ToLower err code statusCode).Error.Message = "请求上游地址失败"
        ∧ (ClaudeErrorWrapperLocal ToLower err code statusCode).Error.Message = "请求上游地址失败"
        ∧ (TaskErrorWrapperLocal ToLower err code statusCode).Message = "请求上游地址失败") := by
  obtain ⟨ho, hc, ht⟩ := wrapper_messages ToLower err code statusCode
  have ho2 : (OpenAIErrorWrapperLocal ToLower err code statusCode).Error.Message
      = (OpenAIErrorWrapper ToLower err code statusCode).Error.Message := rfl
  have hc2 : (ClaudeErrorWrapperLocal ToLower err code statusCode).Error.Message
      = (ClaudeErrorWrapper ToLower err code statusCode).Error.Message := rfl
  have ht2 : (TaskErrorWrapperLocal ToLower err code statusCode).Message
      = (TaskErrorWrapper ToLower err code statusCode).Message := rfl
  refine ⟨⟨rfl, rfl, rfl⟩, ?_, ?_⟩
  · intro h
    rw [ho2, hc2, ht2, ho, hc, ht, h]
    exact ⟨rfl, rfl, rfl⟩
  · intro h
    rw [ho2, hc2, ht2, ho, hc, ht, h]
    exact ⟨rfl, rfl, rfl⟩

/-- Witness of C5 (amended): "prompt is required" is kept verbatim, and
"invalid url: must start with http" becomes the generic message. -/
theorem C5_local_wrappers_message_witness :
    ((OpenAIErrorWrapperLocal strings.asciiToLower "prompt is required" "c" 400).Error.Message
        = "prompt is required"
      ∧ (ClaudeErrorWrapperLocal strings.asciiToLower "prompt is required" "c" 400).Error.Message
        = "prompt is required"
      ∧ (TaskErrorWrapperLocal strings.asciiToLower "prompt is required" "c" 400).Message
        = "prompt is required")
    ∧ ((OpenAIErrorWrapperLocal strings.asciiToLower
          "invalid url: must start with http" "c" 400).Error.Message = "请求上游地址失败"
      ∧ (ClaudeErrorWrapperLocal strings.asciiToLower
          "invalid url: must start with http" "c" 400).Error.Message = "请求上游地址失败"
      ∧ (TaskErrorWrapperLocal strings.asciiToLower
          "invalid url: must start with http" "c" 400).Message = "请求上游地址失败") :=
  ⟨(C5_local_wrappers_message strings.asciiToLower "prompt is required" "c" 400).2.1
      (by decide),
   (C5_local_wrappers_message strings.asciiToLower
      "invalid url: must start with http" "c" 400).2.2 (by decide)⟩

end service

/-! ## Theorems: `ResetStatusCode` -/

namespace service

/-- Shared lemma: `strconv.Atoi` reads left to right.  Digits that leave the
`uint64` range give the range error and the nearest `int64` bound, also when a
character that is not a digit follows them; a character that is not a digit
before that point gives the syntax error and 0. -/
theorem Atoi_range_before_syntax :
    strconv.Atoi "99999999999999999999x" = ((2 : Int) ^ 63 - 1, some strconv.NumError.ErrRange)
    ∧ strconv.Atoi "-99999999999999999999x" = (-(2 : Int) ^ 63, some strconv.NumError.ErrRange)
    ∧ strconv.Atoi "9223372036854775808x" = (0, some strconv.NumError.ErrSyntax)
    ∧ strconv.Atoi "9223372036854775808" = ((2 : Int) ^ 63 - 1, some strconv.NumError.ErrRange)
    ∧ strconv.Atoi "-9223372036854775808" = (-(2 : Int) ^ 63, none)
    ∧ strconv.Atoi "x99999999999999999999" = (0, some strconv.NumError.ErrSyntax)
    ∧ strconv.Atoi "+500" = (500, none) := by
  decide

/-- C6. For an envelope whose status code s is not 200 and a mapping string
that decodes as a JSON object of strings whose entry for the decimal text of s
is a decimal integer v (`strconv.Atoi` parses it without error),
`ResetStatusCode` sets the status code to v and changes no other field.  The
decoder is any function that, like `json.Unmarshal`, rejects the empty text and
decodes `{}` to the empty map. -/
theorem C6_remap_sets_status (unmarshal : String → Option (List (String × String)))
    (openaiErr : dto.OpenAIErrorWithStatusCode) (statusCodeMappingStr : String)
    (statusCodeMapping : List (String × String)) (value : String) (v : Int)
    (hempty : unmarshal "" = none) (hobject : unmarshal "\x7b\x7d" = some [])
    (hstatus : openaiErr.StatusCode ≠ 200)
    (hdec : unmarshal statusCodeMappingStr = some statusCodeMapping)
    (hkey : statusCodeMapping.lookup (strconv.Itoa openaiErr.StatusCode) = some value)
    (hval : strconv.Atoi value = (v, none)) :
    ResetStatusCode unmarshal openaiErr statusCodeMappingStr
        = { openaiErr with StatusCode := v }
    ∧ (ResetStatusCode unmarshal openaiErr statusCodeMappingStr).StatusCode = v
    ∧ (ResetStatusCode unmarshal openaiErr statusCodeMappingStr).Error = openaiErr.Error
    ∧ (ResetStatusCode unmarshal openaiErr statusCodeMappingStr).LocalError
        = openaiErr.LocalError := by
  have h1 : statusCodeMappingStr ≠ "" := by
    rintro rfl
    rw [hempty] at hdec
    cases hdec
  have h2 : statusCodeMappingStr ≠ "\x7b\x7d" := by
    rintro rfl
    rw [hobject] at hdec
    cases hdec
    simp at hkey
  have h3 : (openaiErr.StatusCode == http.StatusOK) = false := by
    simpa [http.StatusOK] using hstatus
  have h : ResetStatusCode unmarshal openaiErr statusCodeMappingStr
      = { openaiErr with StatusCode := v } := by
    unfold ResetStatusCode
    simp [h1, h2, h3, hdec, hkey, hval]
  rw [h]
  exact ⟨rfl, rfl, rfl, rfl⟩

/-- Witness of C6: the mapping `{"404":"500"}` on an envelope with status 404
yields status 500 and keeps the error object and the local flag. -/
theorem C6_remap_sets_status_witness :
    ResetStatusCode sample.unmarshalMap
        { Error := { Message := "not found", Type_ := "upstream_error" }, StatusCode := 404 }
        "\x7b\"404\":\"500\"\x7d"
      = { Error := { Message := "not found", Type_ := "upstream_error" }, StatusCode := 500 } :=
  (C6_remap_sets_status sample.unmarshalMap
    { Error := { Message := "not found", Type_ := "upstream_error" }, StatusCode := 404 }
    "\x7b\"404\":\"500\"\x7d" [("404", "500")] "500" 500
    (by decide) (by decide) (by decide) (by decide) (by decide) (by decide)).1

/-- C7. A 200 status is never remapped: for every mapping string and every
decoder, `ResetStatusCode` on an envelope with status 200 returns the envelope
unchanged. -/
theorem C7_status_ok_never_remapped (unmarshal : String → Option (List (String × String)))
    (openaiErr : dto.OpenAIErrorWithStatusCode) (statusCodeMappingStr : String)
    (hstatus : openaiErr.StatusCode = 200) :
    ResetStatusCode unmarshal openaiErr statusCodeMappingStr = openaiErr := by
  have h3 : (openaiErr.StatusCode == http.StatusOK) = true := by
    simp [http.StatusOK, hstatus]
  unfold ResetStatusCode
  split_ifs
  · rfl
  · cases unmarshal statusCodeMappingStr with
    | none => rfl
    | some m => simp [h3]

/-- Witness of C7: a mapping with a "200" key leaves a 200 envelope alone. -/
theorem C7_status_ok_never_remapped_witness :
    ResetStatusCode sample.unmarshalMap { StatusCode := 200 } "\x7b\"200\":\"500\"\x7d"
      = { StatusCode := 200 } :=
  C7_status_ok_never_remapped sample.unmarshalMap { StatusCode := 200 }
    "\x7b\"200\":\"500\"\x7d" rfl

/-- C8. `ResetStatusCode` returns the envelope unchanged when the mapping
string is empty, is `{}`, does not decode as a JSON object of strings, or
decodes but has no entry for the current status code. -/
theorem C8_remap_noop_cases (unmarshal : String → Option (List (String × String)))
    (openaiErr : dto.OpenAIErrorWithStatusCode) (statusCodeMappingStr : String)
    (h : statusCodeMappingStr = "" ∨ statusCodeMappingStr = "\x7b\x7d"
      ∨ unmarshal statusCodeMappingStr = none
      ∨ ∃ statusCodeMapping, unmarshal statusCodeMappingStr = some statusCodeMapping
          ∧ statusCodeMapping.lookup (strconv.Itoa openaiErr.StatusCode) = none) :
    ResetStatusCode unmarshal openaiErr statusCodeMappingStr = openaiErr := by
  unfold ResetStatusCode
  rcases h with h | h | h | ⟨m, hm, hk⟩
  · simp [h]
  · simp [h]
  · simp only [h]
    split_ifs <;> rfl
  · simp only [hm, hk]
    split_ifs <;> rfl

/-- Witness of C8: the empty string, `{}`, text that is not JSON, and a
mapping without an entry for 503 each leave an envelope with status 503
unchanged. -/
theorem C8_remap_noop_cases_witness :
    ResetStatusCode sample.unmarshalMap { StatusCode := 503 } "" = { StatusCode := 503 }
    ∧ ResetStatusCode sample.unmarshalMap { StatusCode := 503 } "\x7b\x7d"
        = { StatusCode := 503 }
    ∧ ResetStatusCode sample.unmarshalMap { StatusCode := 503 } "\x7b\"404\":"
        = { StatusCode := 503 }
    ∧ ResetStatusCode sample.unmarshalMap { StatusCode := 503 } "\x7b\"404\":\"500\"\x7d"
        = { StatusCode := 503 } :=
  ⟨C8_remap_noop_cases sample.unmarshalMap { StatusCode := 503 } "" (Or.inl rfl),
   C8_remap_noop_cases sample.unmarshalMap { StatusCode := 503 } "\x7b\x7d"
     (Or.inr (Or.inl rfl)),
   C8_remap_noop_cases sample.unmarshalMap { StatusCode := 503 } "\x7b\"404\":"
     (Or.inr (Or.inr (Or.inl (by decide)))),
   C8_remap_noop_cases sample.unmarshalMap { StatusCode := 503 }
     "\x7b\"404\":\"500\"\x7d"
     (Or.inr (Or.inr (Or.inr ⟨[("404", "500")], by decide, by decide⟩)))⟩

/-- C9, evaluation at the failing inputs. With the mapping `{"404":"abc"}` or
`{"404":""}`, whose value for the current status is not a decimal integer,
`strconv.Atoi` reports a syntax error, the error is dropped, and
`ResetStatusCode` overwrites the status 404 with 0. -/
theorem C9_malformed_entry_sets_status_zero :
    strconv.Atoi "abc" = (0, some strconv.NumError.ErrSyntax)
    ∧ strconv.Atoi "" = (0, some strconv.NumError.ErrSyntax)
    ∧ (ResetStatusCode sample.unmarshalMap { StatusCode := 404 }
        "\x7b\"404\":\"abc\"\x7d").StatusCode = 0
    ∧ (ResetStatusCode sample.unmarshalMap { StatusCode := 404 }
        "\x7b\"404\":\"\"\x7d").StatusCode = 0 := by
  decide

end service

/-! ## Theorems: the tool-call count of `ProcessStreamResponse` -/

namespace openai

/-- Shared lemma: one choice never lowers the count. -/
theorem processChoice_count_le (acc : String × Int)
    (choice : dto.ChatCompletionsStreamResponseChoice) :
    acc.2 ≤ (processChoice acc choice).2 := by
  unfold processChoice
  cases choice.Delta.ToolCalls with
  | none => exact le_refl _
  | some toolCalls =>
    simp only []
    split_ifs with hgt
    · exact le_of_lt hgt
    · exact le_refl _

/-- Shared lemma: from a non-negative count, one choice moves the count to the
larger of the count and the length of its tool-call array. -/
theorem processChoice_count (acc : String × Int)
    (choice : dto.ChatCompletionsStreamResponseChoice) (h0 : 0 ≤ acc.2) :
    (processChoice acc choice).2 = max acc.2 (toolCallsLen choice : Int) := by
  unfold processChoice toolCallsLen
  cases choice.Delta.ToolCalls with
  | none =>
    simp only []
    exact (max_eq_left (by simpa using h0)).symm
  | some toolCalls =>
    simp only []
    split_ifs with hgt
    · exact (max_eq_right (le_of_lt hgt)).symm
    · exact (max_eq_left (not_lt.mp hgt)).symm

/-- Shared lemma: the loop over the choices of one frame. -/
theorem foldl_processChoice_count (choices : List dto.ChatCompletionsStreamResponseChoice) :
    ∀ acc : String × Int, 0 ≤ acc.2 →
      (choices.foldl processChoice acc).2
        = max acc.2 ((maxLen (choices.map toolCallsLen) : Nat) : Int) := by
  induction choices with
  | nil =>
    intro acc h0
    simpa [maxLen] using h0
  | cons c cs ih =>
    intro acc h0
    have h1 : 0 ≤ (processChoice acc c).2 := le_trans h0 (processChoice_count_le acc c)
    rw [List.foldl_cons, ih _ h1, processChoice_count acc c h0]
    simp only [List.map_cons, maxLen, List.foldr_cons, Nat.cast_max, max_assoc]

/-- Shared lemma: `maxLen` of a concatenation. -/
theorem maxLen_append (l₁ l₂ : List Nat) :
    maxLen (l₁ ++ l₂) = max (maxLen l₁) (maxLen l₂) := by
  induction l₁ with
  | nil => simp [maxLen]
  | cons a l ih =>
    have h1 : maxLen (a :: l ++ l₂) = max a (maxLen (l ++ l₂)) := rfl
    have h2 : maxLen (a :: l) = max a (maxLen l) := rfl
    rw [h1, h2, ih, max_assoc]

/-- Shared lemma: the loop over the choices of a frame never lowers the
count. -/
theorem foldl_processChoice_le (choices : List dto.ChatCompletionsStreamResponseChoice) :
    ∀ acc : String × Int, acc.2 ≤ (choices.foldl processChoice acc).2 := by
  induction choices with
  | nil => intro acc; exact le_refl _
  | cons c cs ih =>
    intro acc
    exact le_trans (processChoice_count_le acc c) (ih (processChoice acc c))

/-- Shared lemma: the loop over the frames. -/
theorem processFrames_count (frames : List dto.ChatCompletionsStreamResponse) :
    ∀ (text : String) (n : Int), 0 ≤ n →
      (processFrames frames text n).2 = max n ((maxToolCalls frames : Nat) : Int) := by
  induction frames with
  | nil =>
    intro text n h0
    simpa [processFrames, maxToolCalls, maxLen] using h0
  | cons f fs ih =>
    intro text n h0
    have hstep : (ProcessStreamResponse f text n).2
        = max n ((maxLen (f.Choices.map toolCallsLen) : Nat) : Int) :=
      foldl_processChoice_count f.Choices (text, n) h0
    have h1 : 0 ≤ (ProcessStreamResponse f text n).2 := by
      rw [hstep]
      exact le_trans h0 (le_max_left _ _)
    have hunfold : processFrames (f :: fs) text n
        = processFrames fs (ProcessStreamResponse f text n).1
            (ProcessStreamResponse f text n).2 := rfl
    rw [hunfold, ih _ _ h1, hstep]
    have hmax : maxToolCalls (f :: fs)
        = max (maxLen (f.Choices.map toolCallsLen)) (maxToolCalls fs) := by
      unfold maxToolCalls
      rw [List.flatMap_cons, List.map_append, maxLen_append]
    rw [hmax, Nat.cast_max, max_assoc]

/-- Shared lemma: `maxLen` bounds every entry. -/
theorem le_maxLen (lens : List Nat) : ∀ x ∈ lens, x ≤ maxLen lens := by
  induction lens with
  | nil => intro x hx; cases hx
  | cons a l ih =>
    intro x hx
    rcases List.mem_cons.mp hx with rfl | hx
    · exact le_max_left _ _
    · exact le_trans (ih x hx) (le_max_right _ _)

/-- Shared lemma: `maxLen` is 0 or one of the entries. -/
theorem maxLen_attained (lens : List Nat) : maxLen lens = 0 ∨ maxLen lens ∈ lens := by
  induction lens with
  | nil => exact Or.inl rfl
  | cons a l ih =>
    have hcons : maxLen (a :: l) = max a (maxLen l) := rfl
    rcases le_total a (maxLen l) with h | h
    · rw [hcons, max_eq_right h]
      rcases ih with ih | ih
      · exact Or.inl ih
      · exact Or.inr (List.mem_cons_of_mem _ ih)
    · rw [hcons, max_eq_left h]
      exact Or.inr (List.mem_cons_self _ _)

/-- C10. Starting from a tool-call count of 0, after `ProcessStreamResponse`
has been applied to every frame of a sequence in order, the count is the
maximum tool-call-array length over all choices of all frames: it bounds every
such length and, unless it is 0, is the length of one of them.  Frames with
array lengths 1, 3, 2 give 3.  The count never decreases from one frame to the
next, whatever the count before the frame. -/
theorem C10_tool_count_is_running_max :
    (∀ (frames : List dto.ChatCompletionsStreamResponse) (text : String),
        (processFrames frames text 0).2 = (maxToolCalls frames : Int)
        ∧ (∀ frame ∈ frames, ∀ choice ∈ frame.Choices,
            (toolCallsLen choice : Int) ≤ (processFrames frames text 0).2)
        ∧ ((processFrames frames text 0).2 = 0
            ∨ ∃ frame ∈ frames, ∃ choice ∈ frame.Choices,
                (toolCallsLen choice : Int) = (processFrames frames text 0).2))
    ∧ (processFrames [frameWithToolCalls 1, frameWithToolCalls 3, frameWithToolCalls 2]
        "" 0).2 = 3
    ∧ (∀ (frame : dto.ChatCompletionsStreamResponse) (text : String) (n : Int),
        n ≤ (ProcessStreamResponse frame text n).2)
    ∧ (∀ (frames : List dto.ChatCompletionsStreamResponse)
        (frame : dto.ChatCompletionsStreamResponse) (text : String) (n : Int),
        (processFrames frames text n).2 ≤ (processFrames (frames ++ [frame]) text n).2) := by
  have hmono : ∀ (frame : dto.ChatCompletionsStreamResponse) (text : String) (n : Int),
      n ≤ (ProcessStreamResponse frame text n).2 := by
    intro frame text n
    exact foldl_processChoice_le frame.Choices (text, n)
  refine ⟨?_, by decide, hmono, ?_⟩
  · intro frames text
    have hcount : (processFrames frames text 0).2 = (maxToolCalls frames : Int) := by
      rw [processFrames_count frames text 0 (le_refl _)]
      exact max_eq_right (by exact_mod_cast Nat.zero_le _)
    rw [hcount]
    refine ⟨rfl, ?_, ?_⟩
    · intro frame hf choice hc
      have hmem : toolCallsLen choice
          ∈ (frames.flatMap (fun frame => frame.Choices)).map toolCallsLen :=
        List.mem_map.mpr ⟨choice, List.mem_flatMap.mpr ⟨frame, hf, hc⟩, rfl⟩
      exact_mod_cast le_maxLen _ _ hmem
    · rcases maxLen_attained
          ((frames.flatMap (fun frame => frame.Choices)).map toolCallsLen) with h | h
      · left
        show ((maxToolCalls frames : Nat) : Int) = 0
        unfold maxToolCalls
        rw [h]
        rfl
      · right
        obtain ⟨choice, hc, hlen⟩ := List.mem_map.mp h
        obtain ⟨frame, hf, hcf⟩ := List.mem_flatMap.mp hc
        exact ⟨frame, hf, choice, hcf, by rw [hlen]; rfl⟩
  · intro frames frame text n
    have happ : processFrames (frames ++ [frame]) text n
        = ProcessStreamResponse frame (processFrames frames text n).1
            (processFrames frames text n).2 := by
      simp [processFrames, List.foldl_append]
    rw [happ]
    exact hmono _ _ _

end openai

/-! ## Theorems: `processChatCompletions` and `handleFinalResponse` -/

namespace openai

/-- Shared lemma: the tool-call loop appends the names and arguments. -/
theorem foldl_toolCalls_text (toolCalls : List dto.ToolCallResponse) :
    ∀ text : String,
      toolCalls.foldl (fun t tool => (t ++ tool.Function.Name) ++ tool.Function.Arguments) text
        = text ++ concatText
            (toolCalls.map (fun tool => tool.Function.Name ++ tool.Function.Arguments)) := by
  induction toolCalls with
  | nil => intro text; simp [concatText]
  | cons tool tools ih =>
    intro text
    rw [List.foldl_cons, ih]
    simp only [List.map_cons, concatText, String.append_assoc]

/-- Shared lemma: one choice appends its text to the builder. -/
theorem processChoice_text (acc : String × Int)
    (choice : dto.ChatCompletionsStreamResponseChoice) :
    (processChoice acc choice).1 = acc.1 ++ choiceText choice := by
  unfold processChoice choiceText
  cases choice.Delta.ToolCalls with
  | none => simp [concatText, String.append_assoc]
  | some toolCalls =>
    simp only [Option.getD_some]
    rw [foldl_toolCalls_text]
    simp only [String.append_assoc]

/-- Shared lemma: concatenation of an appended list. -/
theorem concatText_append (l₁ l₂ : List String) :
    concatText (l₁ ++ l₂) = concatText l₁ ++ concatText l₂ := by
  induction l₁ with
  | nil => simp [concatText]
  | cons t ts ih =>
    show t ++ concatText (ts ++ l₂) = (t ++ concatText ts) ++ concatText l₂
    rw [ih, String.append_assoc]

/-- Shared lemma: the choices of one frame append their texts in order. -/
theorem foldl_processChoice_text (choices : List dto.ChatCompletionsStreamResponseChoice) :
    ∀ acc : String × Int,
      (choices.foldl processChoice acc).1 = acc.1 ++ concatText (choices.map choiceText) := by
  induction choices with
  | nil => intro acc; simp [concatText]
  | cons c cs ih =>
    intro acc
    rw [List.foldl_cons, ih, processChoice_text]
    simp only [List.map_cons, concatText, String.append_assoc]

/-- Shared lemma: a sequence of frames appends `framesText` to the builder. -/
theorem processFrames_text (frames : List dto.ChatCompletionsStreamResponse) :
    ∀ (text : String) (n : Int),
      (processFrames frames text n).1 = text ++ framesText frames := by
  induction frames with
  | nil => intro text n; simp [processFrames, framesText, concatText]
  | cons f fs ih =>
    intro text n
    have hunfold : processFrames (f :: fs) text n
        = processFrames fs (ProcessStreamResponse f text n).1
            (ProcessStreamResponse f text n).2 := rfl
    have hstep : (ProcessStreamResponse f text n).1
        = text ++ concatText (f.Choices.map choiceText) :=
      foldl_processChoice_text f.Choices (text, n)
    rw [hunfold, ih, hstep]
    unfold framesText
    rw [List.flatMap_cons, List.map_append, concatText_append, String.append_assoc]

/-- Shared lemma: the batch loop of `processChatCompletions` is
`ProcessStreamResponse` applied to each decoded frame in order. -/
theorem processChatCompletions_batch
    (unmarshalAll : String → Except String (List dto.ChatCompletionsStreamResponse))
    (unmarshalOne : String → Except String dto.ChatCompletionsStreamResponse)
    (streamResp : String) (streamItems : List String)
    (frames : List dto.ChatCompletionsStreamResponse) (text : String) (n : Int)
    (hall : unmarshalAll streamResp = .ok frames) :
    processChatCompletions unmarshalAll unmarshalOne streamResp streamItems text n
      = (processFrames frames text n, none) := by
  unfold processChatCompletions
  rw [hall]
  rfl

/-- Shared lemma: the frame-by-frame loop on items that all decode. -/
theorem processChatCompletionsEach_decoded
    (unmarshalOne : String → Except String dto.ChatCompletionsStreamResponse)
    (streamItems : List String) :
    ∀ (frames : List dto.ChatCompletionsStreamResponse) (acc : String × Int),
      streamItems.map unmarshalOne = frames.map Except.ok →
      processChatCompletionsEach unmarshalOne streamItems acc
        = (processFrames frames acc.1 acc.2, none) := by
  induction streamItems with
  | nil =>
    intro frames acc h
    cases frames with
    | nil => rfl
    | cons f fs => simp at h
  | cons item items ih =>
    intro frames acc h
    cases frames with
    | nil => simp at h
    | cons f fs =>
      simp only [List.map_cons, List.cons.injEq] at h
      unfold processChatCompletionsEach
      rw [h.1]
      simp only []
      rw [ih fs _ h.2]
      rfl

/-- C11. For stream items that each decode on their own to the frames the
batch decoding yields, the batch path of `processChatCompletions` (the
concatenation decodes as one array) and its frame-by-frame path (the
concatenation does not decode) return the same builder text, the same
tool-call count and no error from the same initial state; the text is the
initial text followed by the text of every frame in order; and two runs on the
same input give the same result. -/
theorem C11_batch_and_each_agree
    (unmarshalBatch unmarshalBatchFails :
      String → Except String (List dto.ChatCompletionsStreamResponse))
    (unmarshalOne : String → Except String dto.ChatCompletionsStreamResponse)
    (streamResp : String) (streamItems : List String)
    (frames : List dto.ChatCompletionsStreamResponse) (decodeError : String)
    (text : String) (n : Int)
    (hbatch : unmarshalBatch streamResp = .ok frames)
    (hfails : unmarshalBatchFails streamResp = .error decodeError)
    (hitems : streamItems.map unmarshalOne = frames.map Except.ok) :
    processChatCompletions unmarshalBatch unmarshalOne streamResp streamItems text n
      = processChatCompletions unmarshalBatchFails unmarshalOne streamResp streamItems text n
    ∧ processChatCompletions unmarshalBatch unmarshalOne streamResp streamItems text n
      = ((text ++ framesText frames, (processFrames frames text n).2), none)
    ∧ (∀ r₁ r₂ : (String × Int) × Option String,
        r₁ = processChatCompletions unmarshalBatch unmarshalOne streamResp streamItems text n →
        r₂ = processChatCompletions unmarshalBatch unmarshalOne streamResp streamItems text n →
        r₁ = r₂)
    ∧ (∀ r₁ r₂ : (String × Int) × Option String,
        r₁ = processChatCompletions unmarshalBatchFails unmarshalOne streamResp
              streamItems text n →
        r₂ = processChatCompletions unmarshalBatchFails unmarshalOne streamResp
              streamItems text n →
        r₁ = r₂) := by
  have h1 := processChatCompletions_batch unmarshalBatch unmarshalOne streamResp streamItems
    frames text n hbatch
  have h2 : processChatCompletions unmarshalBatchFails unmarshalOne streamResp streamItems
      text n = (processFrames frames text n, none) := by
    unfold processChatCompletions
    rw [hfails]
    exact processChatCompletionsEach_decoded unmarshalOne streamItems frames (text, n) hitems
  refine ⟨by rw [h1, h2], ?_, ?_, ?_⟩
  · rw [h1, ← processFrames_text frames text n]
  · intro r₁ r₂ e₁ e₂
    rw [e₁, e₂]
  · intro r₁ r₂ e₁ e₂
    rw [e₁, e₂]

/-- Witness of C11: the frames carrying "Hel" and "lo" give the text "Hello"
and the count 0 on both paths. -/
theorem C11_batch_and_each_agree_witness :
    processChatCompletions sample.unmarshalFrames sample.unmarshalFrame
        ("[" ++ sample.frameHel ++ "," ++ sample.frameLo ++ "]")
        [sample.frameHel, sample.frameLo] "" 0
      = processChatCompletions sample.unmarshalFramesFails sample.unmarshalFrame
        ("[" ++ sample.frameHel ++ "," ++ sample.frameLo ++ "]")
        [sample.frameHel, sample.frameLo] "" 0
    ∧ processChatCompletions sample.unmarshalFrames sample.unmarshalFrame
        ("[" ++ sample.frameHel ++ "," ++ sample.frameLo ++ "]")
        [sample.frameHel, sample.frameLo] "" 0
      = (("Hello", 0), none) :=
  have h := C11_batch_and_each_agree sample.unmarshalFrames sample.unmarshalFramesFails
    sample.unmarshalFrame ("[" ++ sample.frameHel ++ "," ++ sample.frameLo ++ "]")
    [sample.frameHel, sample.frameLo]
    [{ Choices := [{ Delta := { ContentString := "Hel" } }] },
      { Choices := [{ Delta := { ContentString := "lo" } }] }]
    "invalid character" "" 0 rfl rfl rfl
  ⟨h.1, h.2.1.trans (by decide)⟩

/-- C12, evaluation at the failing input. The retained frames are a whole
frame carrying "Hel", a frame cut off in transit, and a whole frame carrying
"lo"; their concatenation does not decode as an array.  `processChatCompletions`
returns the decode error of the second frame with only "Hel" accumulated: the
third frame is never processed.  On the same shape of input the sibling
`processCompletions` passes over the bad frame and accumulates "Hello". -/
theorem C12_undecodable_frame_aborts :
    processChatCompletions sample.unmarshalFrames sample.unmarshalFrame
        ("[" ++ sample.frameHel ++ "," ++ sample.frameCut ++ "," ++ sample.frameLo ++ "]")
        [sample.frameHel, sample.frameCut, sample.frameLo] "" 0
      = (("Hel", 0), some "unexpected end of JSON input")
    ∧ processCompletions (fun _ => .error "invalid character") sample.unmarshalText
        ("[" ++ sample.textHel ++ "," ++ sample.frameCut ++ "," ++ sample.textLo ++ "]")
        [sample.textHel, sample.frameCut, sample.textLo] ""
      = ("Hello", none) := by
  decide

/-- C13. In OpenAI client format with a non-nil usage, `handleFinalResponse`
sends the usage-only frame built from the response id, the created timestamp,
the model and the usage, stamped with the system fingerprint, followed by the
done marker, when the client opted into usage reporting and no usage was seen
in the stream; in every other case it sends the done marker alone.  In both
cases it returns, the done marker is the last thing sent, and `info` is
unchanged. -/
theorem C13_final_response_openai {κ : Type}
    (GenerateFinalUsageResponse :
      String → Int → String → dto.Usage → dto.ChatCompletionsStreamResponse)
    (SetSystemFingerprint :
      dto.ChatCompletionsStreamResponse → String → dto.ChatCompletionsStreamResponse)
    (unmarshalOne : String → Except String dto.ChatCompletionsStreamResponse)
    (StreamResponseOpenAI2Claude :
      dto.ChatCompletionsStreamResponse → relaycommon.RelayInfo →
        List κ × relaycommon.RelayInfo)
    (info : relaycommon.RelayInfo) (lastStreamData responseId : String) (createAt : Int)
    (model systemFingerprint : String) (u : dto.Usage) (containStreamUsage : Bool)
    (hformat : info.RelayFormat = relaycommon.RelayFormat.RelayFormatOpenAI) :
    (info.ShouldIncludeUsage = true ∧ containStreamUsage = false →
      handleFinalResponse GenerateFinalUsageResponse SetSystemFingerprint unmarshalOne
          StreamResponseOpenAI2Claude info lastStreamData responseId createAt model
          systemFingerprint (some u) containStreamUsage
        = Outcome.returned
            ([Event.ObjectData
                (SetSystemFingerprint
                  (GenerateFinalUsageResponse responseId createAt model u) systemFingerprint),
              Event.Done], info))
    ∧ (¬ (info.ShouldIncludeUsage = true ∧ containStreamUsage = false) →
      handleFinalResponse GenerateFinalUsageResponse SetSystemFingerprint unmarshalOne
          StreamResponseOpenAI2Claude info lastStreamData responseId createAt model
          systemFingerprint (some u) containStreamUsage
        = Outcome.returned ([Event.Done], info))
    ∧ (∃ events : List (Event κ),
        handleFinalResponse GenerateFinalUsageResponse SetSystemFingerprint unmarshalOne
            StreamResponseOpenAI2Claude info lastStreamData responseId createAt model
            systemFingerprint (some u) containStreamUsage
          = Outcome.returned (events, info)
        ∧ events.getLast? = some Event.Done) := by
  unfold handleFinalResponse
  rw [hformat]
  cases hinc : info.ShouldIncludeUsage <;> cases hcon : containStreamUsage <;>
    simp

/-- Witness of C13: with usage reporting requested and no usage seen in the
stream, two events are sent, the usage-only frame and then the done marker;
with usage already seen, the done marker alone. -/
theorem C13_final_response_openai_witness :
    handleFinalResponse sample.generateFinalUsageResponse (fun r _ => r) sample.unmarshalFrame
        sample.streamResponseOpenAI2Claude { ShouldIncludeUsage := true } sample.frameLo
        "chatcmpl-1" 1700000000 "qwen-max" "fp" (some { TotalTokens := 7 }) false
      = Outcome.returned
          ([Event.ObjectData { Choices := [] }, Event.Done], { ShouldIncludeUsage := true })
    ∧ handleFinalResponse sample.generateFinalUsageResponse (fun r _ => r)
        sample.unmarshalFrame sample.streamResponseOpenAI2Claude
        { ShouldIncludeUsage := true } sample.frameLo
        "chatcmpl-1" 1700000000 "qwen-max" "fp" (some { TotalTokens := 7 }) true
      = Outcome.returned ([Event.Done], { ShouldIncludeUsage := true }) :=
  ⟨(C13_final_response_openai sample.generateFinalUsageResponse (fun r _ => r)
      sample.unmarshalFrame sample.streamResponseOpenAI2Claude { ShouldIncludeUsage := true }
      sample.frameLo "chatcmpl-1" 1700000000 "qwen-max" "fp" { TotalTokens := 7 } false
      rfl).1 ⟨rfl, rfl⟩,
   (C13_final_response_openai sample.generateFinalUsageResponse (fun r _ => r)
      sample.unmarshalFrame sample.streamResponseOpenAI2Claude { ShouldIncludeUsage := true }
      sample.frameLo "chatcmpl-1" 1700000000 "qwen-max" "fp" { TotalTokens := 7 } true
      rfl).2.1 (by decide)⟩

end openai

/-! ## Theorems: the Ali adaptor -/

namespace strings

/-- Shared lemma: a list starts with each of its initial segments. -/
theorem startsWithChars_append (l r : List Char) : startsWithChars (l ++ r) l = true := by
  induction l with
  | nil => cases r <;> rfl
  | cons a l ih => simp [startsWithChars, ih]

end strings

namespace ali

/-- Shared lemma: two texts appended to the same base are equal only when
they are equal. -/
theorem append_left_cancel (b s t : String) (h : b ++ s = b ++ t) : s = t := by
  have hd : (b ++ s).data = (b ++ t).data := by rw [h]
  rw [String.data_append, String.data_append] at hd
  exact String.ext (List.append_cancel_left hd)

/-- C14. For every base URL, `GetRequestURL` returns without error the base
URL followed by the embeddings path in embeddings mode, by the image-synthesis
path in image-generation mode and by the chat-completions path in chat mode;
the three URLs are pairwise distinct and each starts with the base URL; and two
requests with the same relay mode and base URL get the same result. -/
theorem C14_request_url_by_mode (info info' : relaycommon.RelayInfo)
    (hmode : info'.RelayMode = info.RelayMode) (hbase : info'.BaseUrl = info.BaseUrl) :
    GetRequestURL { info with RelayMode := relayconstant.RelayMode.RelayModeEmbeddings }
        = (info.BaseUrl ++ "/api/v1/services/embeddings/text-embedding/text-embedding", none)
    ∧ GetRequestURL
          { info with RelayMode := relayconstant.RelayMode.RelayModeImagesGenerations }
        = (info.BaseUrl ++ "/api/v1/services/aigc/text2image/image-synthesis", none)
    ∧ GetRequestURL { info with RelayMode := relayconstant.RelayMode.RelayModeChatCompletions }
        = (info.BaseUrl ++ "/compatible-mode/v1/chat/completions", none)
    ∧ ((GetRequestURL { info with RelayMode := relayconstant.RelayMode.RelayModeEmbeddings }).1
          ≠ (GetRequestURL
              { info with RelayMode := relayconstant.RelayMode.RelayModeImagesGenerations }).1
      ∧ (GetRequestURL { info with RelayMode := relayconstant.RelayMode.RelayModeEmbeddings }).1
          ≠ (GetRequestURL
              { info with RelayMode := relayconstant.RelayMode.RelayModeChatCompletions }).1
      ∧ (GetRequestURL
            { info with RelayMode := relayconstant.RelayMode.RelayModeImagesGenerations }).1
          ≠ (GetRequestURL
              { info with RelayMode := relayconstant.RelayMode.RelayModeChatCompletions }).1)
    ∧ ((GetRequestURL info).2 = none
      ∧ strings.startsWithChars (GetRequestURL info).1.toList info.BaseUrl.toList = true)
    ∧ GetRequestURL info' = GetRequestURL info := by
  refine ⟨rfl, rfl, rfl, ⟨?_, ?_, ?_⟩, ⟨rfl, ?_⟩, ?_⟩
  · intro h
    exact absurd (append_left_cancel _ _ _ h) (by decide)
  · intro h
    exact absurd (append_left_cancel _ _ _ h) (by decide)
  · intro h
    exact absurd (append_left_cancel _ _ _ h) (by decide)
  · have hstart : ∀ suffix : String,
        strings.startsWithChars (info.BaseUrl ++ suffix).toList info.BaseUrl.toList = true := by
      intro suffix
      show strings.startsWithChars (info.BaseUrl ++ suffix).data info.BaseUrl.data = true
      rw [String.data_append]
      exact strings.startsWithChars_append _ _
    unfold GetRequestURL
    cases info.RelayMode <;> exact hstart _
  · unfold GetRequestURL
    rw [hmode, hbase]

/-- Witness of C14: two requests in embeddings mode with the same base URL and
different keys and stream flags get the same embeddings URL. -/
theorem C14_request_url_by_mode_witness :
    GetRequestURL
        { RelayMode := relayconstant.RelayMode.RelayModeEmbeddings,
          BaseUrl := "https://dashscope.aliyuncs.com", ApiKey := "sk-2", IsStream := true }
      = GetRequestURL
        { RelayMode := relayconstant.RelayMode.RelayModeEmbeddings,
          BaseUrl := "https://dashscope.aliyuncs.com", ApiKey := "sk-1" }
    ∧ GetRequestURL
        { RelayMode := relayconstant.RelayMode.RelayModeEmbeddings,
          BaseUrl := "https://dashscope.aliyuncs.com", ApiKey := "sk-1" }
      = ("https://dashscope.aliyuncs.com/api/v1/services/embeddings/text-embedding/text-embedding",
          none) :=
  have h := C14_request_url_by_mode
    { RelayMode := relayconstant.RelayMode.RelayModeEmbeddings,
      BaseUrl := "https://dashscope.aliyuncs.com", ApiKey := "sk-1" }
    { RelayMode := relayconstant.RelayMode.RelayModeEmbeddings,
      BaseUrl := "https://dashscope.aliyuncs.com", ApiKey := "sk-2", IsStream := true }
    rfl rfl
  ⟨h.2.2.2.2.2, h.1.trans (by decide)⟩

/-- Counterexample to C15: in rerank, audio and responses mode `GetRequestURL`
returns the chat-completions URL and a nil error. -/
theorem C15_unsupported_mode_gets_chat_url :
    GetRequestURL
        { RelayMode := relayconstant.RelayMode.RelayModeRerank,
          BaseUrl := "https://dashscope.aliyuncs.com" }
      = ("https://dashscope.aliyuncs.com/compatible-mode/v1/chat/completions", none)
    ∧ GetRequestURL
        { RelayMode := relayconstant.RelayMode.RelayModeAudio,
          BaseUrl := "https://dashscope.aliyuncs.com" }
      = ("https://dashscope.aliyuncs.com/compatible-mode/v1/chat/completions", none)
    ∧ GetRequestURL
        { RelayMode := relayconstant.RelayMode.RelayModeResponses,
          BaseUrl := "https://dashscope.aliyuncs.com" }
      = ("https://dashscope.aliyuncs.com/compatible-mode/v1/chat/completions", none) := by
  decide

/-- C15, amended. `GetRequestURL` never fails: for every relay mode other than
embeddings and image generation, rerank, audio and responses included, it
returns the base URL followed by the chat-completions path and a nil error. -/
theorem C15_request_url_never_fails (info : relaycommon.RelayInfo)
    (hemb : info.RelayMode ≠ relayconstant.RelayMode.RelayModeEmbeddings)
    (himg : info.RelayMode ≠ relayconstant.RelayMode.RelayModeImagesGenerations) :
    GetRequestURL info = (info.BaseUrl ++ "/compatible-mode/v1/chat/completions", none) := by
  unfold GetRequestURL
  cases hm : info.RelayMode <;> first | rfl | exact absurd hm hemb | exact absurd hm himg

/-- Witness of C15 (amended): rerank mode gets the chat-completions URL. -/
theorem C15_request_url_never_fails_witness :
    GetRequestURL
        { RelayMode := relayconstant.RelayMode.RelayModeRerank, BaseUrl := "https://a.example" }
      = ("https://a.example" ++ "/compatible-mode/v1/chat/completions", none) :=
  C15_request_url_never_fails
    { RelayMode := relayconstant.RelayMode.RelayModeRerank, BaseUrl := "https://a.example" }
    (by decide) (by decide)

/-- C16. For every input, `ConvertRerankRequest`, `ConvertAudioRequest` and
`ConvertOpenAIResponsesRequest` return the error "not implemented" and a nil
converted request; `ConvertOpenAIRequest` returns an error exactly when the
request is nil, and a converted request exactly when it is not. -/
theorem C16_convert_not_implemented {Req Conv : Type} (requestOpenAI2Ali : Req → Conv)
    (c : gin.Context) (info : relaycommon.RelayInfo) (relayMode : relayconstant.RelayMode)
    (request : Req) (pointer : Option Req) :
    (ConvertRerankRequest c relayMode request : Option Conv × Option String)
        = (none, some "not implemented")
    ∧ (ConvertAudioRequest c info request : Option Conv × Option String)
        = (none, some "not implemented")
    ∧ (ConvertOpenAIResponsesRequest c info request : Option Conv × Option String)
        = (none, some "not implemented")
    ∧ ((ConvertOpenAIRequest requestOpenAI2Ali c info pointer).2 ≠ none ↔ pointer = none)
    ∧ ((ConvertOpenAIRequest requestOpenAI2Ali c info pointer).1 = none ↔ pointer = none)
    ∧ (ConvertOpenAIRequest requestOpenAI2Ali c info none : Option Conv × Option String)
        = (none, some "request is nil")
    ∧ ConvertOpenAIRequest requestOpenAI2Ali c info (some request)
        = (some (requestOpenAI2Ali request), none) := by
  refine ⟨rfl, rfl, rfl, ?_, ?_, rfl, rfl⟩
  · cases pointer <;> simp [ConvertOpenAIRequest]
  · cases pointer <;> simp [ConvertOpenAIRequest]

/-- C17, evaluation. For every input `ConvertClaudeRequest` panics with
"implement me": it returns neither an error nor a converted request. -/
theorem C17_convert_claude_panics {Req Conv : Type} (c : gin.Context)
    (info : relaycommon.RelayInfo) (request : Option Req) :
    (ConvertClaudeRequest c info request : Outcome (Option Conv × Option String))
        = Outcome.panicked "implement me"
    ∧ ∀ result : Option Conv × Option String,
        (ConvertClaudeRequest c info request : Outcome (Option Conv × Option String))
          ≠ Outcome.returned result := by
  refine ⟨rfl, ?_⟩
  intro result h
  cases h

/-- C18. `SetupRequestHeader` returns no error; afterwards the Authorization
header is "Bearer " followed by the API key; `X-DashScope-SSE` is "enable" when
the request streams and is left as the shared helper left it otherwise;
`X-DashScope-Plugin` is the plugin metadata of the client when that is a
non-empty string and is left as the shared helper left it otherwise.  The
canonical forms of the three header names are distinct, as in Go. -/
theorem C18_setup_request_header (CanonicalMIMEHeaderKey : String → String)
    (SetupApiRequestHeader : relaycommon.RelayInfo → gin.Context → http.Header → http.Header)
    (c : gin.Context) (req : http.Header) (info : relaycommon.RelayInfo)
    (hsse : CanonicalMIMEHeaderKey "X-DashScope-SSE" ≠ CanonicalMIMEHeaderKey "Authorization")
    (hplugin : CanonicalMIMEHeaderKey "X-DashScope-Plugin"
      ≠ CanonicalMIMEHeaderKey "Authorization")
    (hboth : CanonicalMIMEHeaderKey "X-DashScope-Plugin"
      ≠ CanonicalMIMEHeaderKey "X-DashScope-SSE") :
    (SetupRequestHeader CanonicalMIMEHeaderKey SetupApiRequestHeader c req info).2 = none
    ∧ http.Header.Get CanonicalMIMEHeaderKey
        (SetupRequestHeader CanonicalMIMEHeaderKey SetupApiRequestHeader c req info).1
        "Authorization" = "Bearer " ++ info.ApiKey
    ∧ (info.IsStream = true →
        http.Header.Get CanonicalMIMEHeaderKey
          (SetupRequestHeader CanonicalMIMEHeaderKey SetupApiRequestHeader c req info).1
          "X-DashScope-SSE" = "enable")
    ∧ (info.IsStream = false →
        (SetupRequestHeader CanonicalMIMEHeaderKey SetupApiRequestHeader c req info).1
            (CanonicalMIMEHeaderKey "X-DashScope-SSE")
          = SetupApiRequestHeader info c req (CanonicalMIMEHeaderKey "X-DashScope-SSE"))
    ∧ (c.GetString "plugin" ≠ "" →
        http.Header.Get CanonicalMIMEHeaderKey
          (SetupRequestHeader CanonicalMIMEHeaderKey SetupApiRequestHeader c req info).1
          "X-DashScope-Plugin" = c.GetString "plugin")
    ∧ (c.GetString "plugin" = "" →
        (SetupRequestHeader CanonicalMIMEHeaderKey SetupApiRequestHeader c req info).1
            (CanonicalMIMEHeaderKey "X-DashScope-Plugin")
          = SetupApiRequestHeader info c req (CanonicalMIMEHeaderKey "X-DashScope-Plugin")) := by
  refine ⟨rfl, ?_, ?_, ?_, ?_, ?_⟩
  · unfold SetupRequestHeader http.Header.Get
    by_cases hs : info.IsStream = true <;> by_cases hp : c.GetString "plugin" = "" <;>
      simp [http.Header.Set, hs, hp, hsse.symm, hplugin.symm]
  · intro hs
    unfold SetupRequestHeader http.Header.Get
    by_cases hp : c.GetString "plugin" = "" <;>
      simp [http.Header.Set, hs, hp, hboth.symm]
  · intro hs
    unfold SetupRequestHeader
    by_cases hp : c.GetString "plugin" = "" <;>
      simp [http.Header.Set, hs, hp, hsse, hboth.symm]
  · intro hp
    unfold SetupRequestHeader http.Header.Get
    by_cases hs : info.IsStream = true <;>
      simp [http.Header.Set, hs, hp]
  · intro hp
    unfold SetupRequestHeader
    by_cases hs : info.IsStream = true <;>
      simp [http.Header.Set, hs, hp, hplugin, hboth]

/-- Witness of C18: a streaming request with the key "sk-1" and the plugin
metadata "calc" gets the three headers. -/
theorem C18_setup_request_header_witness :
    http.Header.Get http.asciiCanonicalMIMEHeaderKey
        (SetupRequestHeader http.asciiCanonicalMIMEHeaderKey sample.setupApiRequestHeader
          { Keys := fun k => if k = "plugin" then some (gin.Value.str "calc") else none }
          (fun _ => none) { ApiKey := "sk-1", IsStream := true }).1
        "Authorization" = "Bearer " ++ "sk-1"
    ∧ http.Header.Get http.asciiCanonicalMIMEHeaderKey
        (SetupRequestHeader http.asciiCanonicalMIMEHeaderKey sample.setupApiRequestHeader
          { Keys := fun k => if k = "plugin" then some (gin.Value.str "calc") else none }
          (fun _ => none) { ApiKey := "sk-1", IsStream := true }).1
        "X-DashScope-SSE" = "enable"
    ∧ http.Header.Get http.asciiCanonicalMIMEHeaderKey
        (SetupRequestHeader http.asciiCanonicalMIMEHeaderKey sample.setupApiRequestHeader
          { Keys := fun k => if k = "plugin" then some (gin.Value.str "calc") else none }
          (fun _ => none) { ApiKey := "sk-1", IsStream := true }).1
        "X-DashScope-Plugin" = "calc" :=
  have h := C18_setup_request_header http.asciiCanonicalMIMEHeaderKey
    sample.setupApiRequestHeader
    { Keys := fun k => if k = "plugin" then some (gin.Value.str "calc") else none }
    (fun _ => none) { ApiKey := "sk-1", IsStream := true }
    (by decide) (by decide) (by decide)
  ⟨h.2.1, h.2.2.1 rfl, h.2.2.2.2.1 (by decide)⟩

end ali

/-! ## Theorems: the Suno task adaptor -/

namespace suno

/-- Shared lemma: the local task error built by the validation has the local
flag, the code "invalid_request" and the status 400. -/
theorem local_invalid_request (ToLower : String → String) (err : String) :
    (service.TaskErrorWrapperLocal ToLower err "invalid_request" http.StatusBadRequest).LocalError
        = true
    ∧ (service.TaskErrorWrapperLocal ToLower err "invalid_request" http.StatusBadRequest).Code
        = "invalid_request"
    ∧ (service.TaskErrorWrapperLocal ToLower err "invalid_request"
        http.StatusBadRequest).StatusCode = 400 :=
  ⟨rfl, rfl, rfl⟩

/-- Shared lemma: a request that passes `actionValidate` keeps every field
except possibly `Mv`. -/
theorem actionValidate_passed (SunoActionMusic SunoActionLyrics : String)
    (r r' : dto.SunoSubmitReq) (action : String)
    (h : actionValidate SunoActionMusic SunoActionLyrics (some r) action
      = Outcome.returned (some r', none)) :
    r'.ContinueClipId = r.ContinueClipId ∧ r'.TaskID = r.TaskID ∧ r'.Prompt = r.Prompt
      ∧ r'.Others = r.Others := by
  unfold actionValidate at h
  by_cases hm : action = SunoActionMusic
  · simp only [hm, if_true] at h
    by_cases hmv : (r.Mv == "") = true
    · simp only [hmv, if_true, Outcome.returned.injEq, Prod.mk.injEq, Option.some.injEq,
        and_true] at h
      subst h
      exact ⟨rfl, rfl, rfl, rfl⟩
    · simp only [hmv, Bool.false_eq_true, if_false, Outcome.returned.injEq, Prod.mk.injEq,
        Option.some.injEq, and_true] at h
      subst h
      exact ⟨rfl, rfl, rfl, rfl⟩
  · simp only [hm, if_false] at h
    by_cases hl : action = SunoActionLyrics
    · simp only [hl, if_true] at h
      by_cases hp : (r.Prompt == "") = true
      · simp [hp] at h
      · simp only [hp, Bool.false_eq_true, if_false, Outcome.returned.injEq, Prod.mk.injEq,
          Option.some.injEq, and_true] at h
        subst h
        exact ⟨rfl, rfl, rfl, rfl⟩
    · simp [hl] at h

/-- C19. For a submit request whose path action upper-cases to the lyrics
action and whose decoded body has an empty prompt,
`ValidateRequestAndSetAction` returns a task error with the local flag, the
code "invalid_request" and the status 400; `info` is returned unchanged
(neither `Action` nor `OriginTaskID` is set) and the context is returned as the
body decoding left it (no request object is stored).  A lyrics request with a
non-empty prompt passes `actionValidate`. -/
theorem C19_lyrics_empty_prompt_rejected (ToLower ToUpper : String → String)
    (SunoActionMusic SunoActionLyrics : String)
    (UnmarshalBodyReusable :
      gin.Context → Except String (Option dto.SunoSubmitReq) × gin.Context)
    (c c₁ : gin.Context) (info : relaycommon.TaskRelayInfo) (r : dto.SunoSubmitReq)
    (hconst : SunoActionMusic ≠ SunoActionLyrics)
    (haction : ToUpper (c.Param "action") = SunoActionLyrics)
    (hbody : UnmarshalBodyReusable c = (.ok (some r), c₁)) :
    (r.Prompt = "" →
      ValidateRequestAndSetAction ToLower ToUpper SunoActionMusic SunoActionLyrics
          UnmarshalBodyReusable c info
        = Outcome.returned
            (some (service.TaskErrorWrapperLocal ToLower "prompt_empty" "invalid_request"
              http.StatusBadRequest), c₁, info)
      ∧ (service.TaskErrorWrapperLocal ToLower "prompt_empty" "invalid_request"
          http.StatusBadRequest).LocalError = true
      ∧ (service.TaskErrorWrapperLocal ToLower "prompt_empty" "invalid_request"
          http.StatusBadRequest).Code = "invalid_request"
      ∧ (service.TaskErrorWrapperLocal ToLower "prompt_empty" "invalid_request"
          http.StatusBadRequest).StatusCode = 400)
    ∧ (r.Prompt ≠ "" →
      actionValidate SunoActionMusic SunoActionLyrics (some r) (ToUpper (c.Param "action"))
        = Outcome.returned (some r, none)) := by
  have hne : ¬ SunoActionLyrics = SunoActionMusic := fun h => hconst h.symm
  refine ⟨?_, ?_⟩
  · intro hprompt
    refine ⟨?_, local_invalid_request ToLower "prompt_empty"⟩
    unfold ValidateRequestAndSetAction
    simp only [hbody, haction]
    unfold actionValidate
    simp [hne, hprompt]
  · intro hprompt
    rw [haction]
    unfold actionValidate
    simp [hne, hprompt]

/-- Witness of C19: the path action "Lyrics" with an empty prompt is rejected
locally with `info` unchanged; with the prompt "a song about rain" the action
validation passes. -/
theorem C19_lyrics_empty_prompt_rejected_witness :
    ValidateRequestAndSetAction strings.asciiToLower sample.asciiToUpper "MUSIC" "LYRICS"
        (sample.unmarshalBody { Prompt := "" }) (sample.taskContext "Lyrics") {}
      = Outcome.returned
          (some (service.TaskErrorWrapperLocal strings.asciiToLower "prompt_empty"
            "invalid_request" http.StatusBadRequest), sample.taskContext "Lyrics", {})
    ∧ actionValidate "MUSIC" "LYRICS" (some { Prompt := "a song about rain" })
        (sample.asciiToUpper ((sample.taskContext "Lyrics").Param "action"))
      = Outcome.returned (some { Prompt := "a song about rain" }, none) :=
  ⟨((C19_lyrics_empty_prompt_rejected strings.asciiToLower sample.asciiToUpper "MUSIC" "LYRICS"
      (sample.unmarshalBody { Prompt := "" }) (sample.taskContext "Lyrics")
      (sample.taskContext "Lyrics") {} { Prompt := "" } (by decide) (by decide) rfl).1 rfl).1,
   (C19_lyrics_empty_prompt_rejected strings.asciiToLower sample.asciiToUpper "MUSIC" "LYRICS"
      (sample.unmarshalBody { Prompt := "a song about rain" }) (sample.taskContext "Lyrics")
      (sample.taskContext "Lyrics") {} { Prompt := "a song about rain" }
      (by decide) (by decide) rfl).2 (by decide)⟩

/-- C20. For a decoded request that passes `actionValidate`: with a non-empty
continue-clip id and an empty task id, `ValidateRequestAndSetAction` returns a
local task error (local flag, code "invalid_request", status 400) and returns
`info` unchanged; with a non-empty continue-clip id and a non-empty task id it
returns no error and `info.OriginTaskID` is that task id; with an empty
continue-clip id it returns no error and `info.OriginTaskID` is unchanged. -/
theorem C20_continue_clip_needs_task_id (ToLower ToUpper : String → String)
    (SunoActionMusic SunoActionLyrics : String)
    (UnmarshalBodyReusable :
      gin.Context → Except String (Option dto.SunoSubmitReq) × gin.Context)
    (c c₁ : gin.Context) (info : relaycommon.TaskRelayInfo) (r r' : dto.SunoSubmitReq)
    (hbody : UnmarshalBodyReusable c = (.ok (some r), c₁))
    (hvalid : actionValidate SunoActionMusic SunoActionLyrics (some r)
        (ToUpper (c.Param "action")) = Outcome.returned (some r', none)) :
    (r.ContinueClipId ≠ "" → r.TaskID = "" →
      ValidateRequestAndSetAction ToLower ToUpper SunoActionMusic SunoActionLyrics
          UnmarshalBodyReusable c info
        = Outcome.returned
            (some (service.TaskErrorWrapperLocal ToLower "task id is empty" "invalid_request"
              http.StatusBadRequest), c₁, info)
      ∧ (service.TaskErrorWrapperLocal ToLower "task id is empty" "invalid_request"
          http.StatusBadRequest).LocalError = true
      ∧ (service.TaskErrorWrapperLocal ToLower "task id is empty" "invalid_request"
          http.StatusBadRequest).Code = "invalid_request"
      ∧ (service.TaskErrorWrapperLocal ToLower "task id is empty" "invalid_request"
          http.StatusBadRequest).StatusCode = 400)
    ∧ (r.ContinueClipId ≠ "" → r.TaskID ≠ "" →
      ValidateRequestAndSetAction ToLower ToUpper SunoActionMusic SunoActionLyrics
          UnmarshalBodyReusable c info
        = Outcome.returned
            (none, c₁.Set "task_request" (gin.Value.sunoSubmitReq (some r')),
              { info with OriginTaskID := r.TaskID, Action := ToUpper (c.Param "action") }))
    ∧ (r.ContinueClipId = "" →
      ValidateRequestAndSetAction ToLower ToUpper SunoActionMusic SunoActionLyrics
          UnmarshalBodyReusable c info
        = Outcome.returned
            (none, c₁.Set "task_request" (gin.Value.sunoSubmitReq (some r')),
              { info with Action := ToUpper (c.Param "action") })) := by
  obtain ⟨hclip, htask, -, -⟩ :=
    actionValidate_passed SunoActionMusic SunoActionLyrics r r' _ hvalid
  refine ⟨?_, ?_, ?_⟩
  · intro hc ht
    refine ⟨?_, local_invalid_request ToLower "task id is empty"⟩
    unfold ValidateRequestAndSetAction
    simp only [hbody, hvalid]
    simp [hclip, htask, hc, ht]
  · intro hc ht
    unfold ValidateRequestAndSetAction
    simp only [hbody, hvalid]
    simp [hclip, htask, hc, ht]
  · intro hc
    unfold ValidateRequestAndSetAction
    simp only [hbody, hvalid]
    simp [hclip, hc]

/-- Witness of C20: a music request that continues the clip "clip-1" is
rejected without a task id, and with the task id "task-9" it is accepted with
`OriginTaskID` set to "task-9". -/
theorem C20_continue_clip_needs_task_id_witness :
    ValidateRequestAndSetAction strings.asciiToLower sample.asciiToUpper "MUSIC" "LYRICS"
        (sample.unmarshalBody { Mv := "chirp-v3-5", ContinueClipId := "clip-1" })
        (sample.taskContext "music") {}
      = Outcome.returned
          (some (service.TaskErrorWrapperLocal strings.asciiToLower "task id is empty"
            "invalid_request" http.StatusBadRequest), sample.taskContext "music", {})
    ∧ ValidateRequestAndSetAction strings.asciiToLower sample.asciiToUpper "MUSIC" "LYRICS"
        (sample.unmarshalBody
          { Mv := "chirp-v3-5", ContinueClipId := "clip-1", TaskID := "task-9" })
        (sample.taskContext "music") {}
      = Outcome.returned
          (none,
            (sample.taskContext "music").Set "task_request"
              (gin.Value.sunoSubmitReq
                (some { Mv := "chirp-v3-5", ContinueClipId := "clip-1", TaskID := "task-9" })),
            { OriginTaskID := "task-9",
              Action := sample.asciiToUpper ((sample.taskContext "music").Param "action") }) :=
  ⟨((C20_continue_clip_needs_task_id strings.asciiToLower sample.asciiToUpper "MUSIC" "LYRICS"
      (sample.unmarshalBody { Mv := "chirp-v3-5", ContinueClipId := "clip-1" })
      (sample.taskContext "music") (sample.taskContext "music") {}
      { Mv := "chirp-v3-5", ContinueClipId := "clip-1" }
      { Mv := "chirp-v3-5", ContinueClipId := "clip-1" } rfl (by decide)).1
      (by decide) rfl).1,
   (C20_continue_clip_needs_task_id strings.asciiToLower sample.asciiToUpper "MUSIC" "LYRICS"
      (sample.unmarshalBody
        { Mv := "chirp-v3-5", ContinueClipId := "clip-1", TaskID := "task-9" })
      (sample.taskContext "music") (sample.taskContext "music") {}
      { Mv := "chirp-v3-5", ContinueClipId := "clip-1", TaskID := "task-9" }
      { Mv := "chirp-v3-5", ContinueClipId := "clip-1", TaskID := "task-9" }
      rfl (by decide)).2.1 (by decide) (by decide)⟩

end suno

/-! ## Theorems: `actionValidate`, the local flag, the last frame -/

namespace suno

/-- Counterexample to C21: for the music action and the nil request, which is
what the JSON body `null` decodes to, `actionValidate` does not return a nil
error: the read of `Mv` panics, and nothing is returned at all. -/
theorem C21_nil_request_panics :
    actionValidate "MUSIC" "LYRICS" none "MUSIC"
        = Outcome.panicked "runtime error: invalid memory address or nil pointer dereference"
    ∧ ∀ result : Option dto.SunoSubmitReq × Option String,
        actionValidate "MUSIC" "LYRICS" none "MUSIC" ≠ Outcome.returned result := by
  have h : actionValidate "MUSIC" "LYRICS" none "MUSIC"
      = Outcome.panicked "runtime error: invalid memory address or nil pointer dereference" := by
    unfold actionValidate
    simp
  refine ⟨h, fun result hret => ?_⟩
  rw [h] at hret
  cases hret

/-- C21, amended. For the music action and every request that is not nil,
`actionValidate` returns no error; the request it leaves has `Mv` equal to
"chirp-v3-0" when `Mv` was empty and is the request unchanged when `Mv` was
not empty, and in both cases every field other than `Mv` is unchanged.  For an
action other than music and lyrics it returns the error "invalid_action" and
leaves the request unchanged, whether the request is nil or not. -/
theorem C21_action_validate_music_and_unknown (SunoActionMusic SunoActionLyrics : String)
    (r : dto.SunoSubmitReq) (action : String) :
    (action = SunoActionMusic → r.Mv = "" →
      actionValidate SunoActionMusic SunoActionLyrics (some r) action
        = Outcome.returned (some { r with Mv := "chirp-v3-0" }, none))
    ∧ (action = SunoActionMusic → r.Mv ≠ "" →
      actionValidate SunoActionMusic SunoActionLyrics (some r) action
        = Outcome.returned (some r, none))
    ∧ (action = SunoActionMusic →
      ∃ r' : dto.SunoSubmitReq,
        actionValidate SunoActionMusic SunoActionLyrics (some r) action
          = Outcome.returned (some r', none)
        ∧ r'.Prompt = r.Prompt ∧ r'.ContinueClipId = r.ContinueClipId
        ∧ r'.TaskID = r.TaskID ∧ r'.Others = r.Others)
    ∧ (action ≠ SunoActionMusic → action ≠ SunoActionLyrics →
      actionValidate SunoActionMusic SunoActionLyrics (some r) action
          = Outcome.returned (some r, some "invalid_action")
        ∧ actionValidate SunoActionMusic SunoActionLyrics none action
          = Outcome.returned (none, some "invalid_action")) := by
  refine ⟨?_, ?_, ?_, ?_⟩
  · intro ha hmv
    unfold actionValidate
    simp [ha, hmv]
  · intro ha hmv
    unfold actionValidate
    simp [ha, hmv]
  · intro ha
    unfold actionValidate
    by_cases hmv : r.Mv = ""
    · exact ⟨{ r with Mv := "chirp-v3-0" }, by simp [ha, hmv], rfl, rfl, rfl, rfl⟩
    · exact ⟨r, by simp [ha, hmv], rfl, rfl, rfl, rfl⟩
  · intro hm hl
    unfold actionValidate
    constructor
    · simp [hm, hl]
    · simp [hm, hl]

/-- Witness of C21 (amended): a music request without `Mv` gets "chirp-v3-0",
one with "chirp-v3-5" keeps it, and the action "VIDEO" is rejected, with a
request and with the nil request. -/
theorem C21_action_validate_music_and_unknown_witness :
    actionValidate "MUSIC" "LYRICS" (some { Prompt := "rain", Mv := "" }) "MUSIC"
        = Outcome.returned (some { Prompt := "rain", Mv := "chirp-v3-0" }, none)
    ∧ actionValidate "MUSIC" "LYRICS" (some { Prompt := "rain", Mv := "chirp-v3-5" }) "MUSIC"
        = Outcome.returned (some { Prompt := "rain", Mv := "chirp-v3-5" }, none)
    ∧ (actionValidate "MUSIC" "LYRICS" (some { Prompt := "rain" }) "VIDEO"
          = Outcome.returned (some { Prompt := "rain" }, some "invalid_action")
        ∧ actionValidate "MUSIC" "LYRICS" none "VIDEO"
          = Outcome.returned (none, some "invalid_action")) :=
  ⟨(C21_action_validate_music_and_unknown "MUSIC" "LYRICS"
      { Prompt := "rain", Mv := "" } "MUSIC").1 rfl rfl,
   (C21_action_validate_music_and_unknown "MUSIC" "LYRICS"
      { Prompt := "rain", Mv := "chirp-v3-5" } "MUSIC").2.1 rfl (by decide),
   (C21_action_validate_music_and_unknown "MUSIC" "LYRICS"
      { Prompt := "rain" } "VIDEO").2.2.2 (by decide) (by decide)⟩

end suno

namespace service

/-- Shared lemma: the envelope of `RelayErrorHandler` never has the local
flag. -/
theorem RelayErrorHandler_not_local (hideUpstream : Bool)
    (unmarshal : String → Option dto.GeneralErrorResponse)
    (resp : http.Response) (showBodyWhenFail : Bool) :
    (RelayErrorHandler hideUpstream unmarshal resp showBodyWhenFail).LocalError = false := by
  unfold RelayErrorHandler
  dsimp only
  repeat' (first | rfl | split_ifs | split)

/-- C28. For every error, code and status, each local wrapper returns the
envelope of the corresponding non-local wrapper on the same arguments with the
local flag set to true and nothing else changed; the non-local wrappers and
`RelayErrorHandler` always return an envelope whose local flag is false. -/
theorem C28_local_flag_only_difference (ToLower : String → String) (err code : String)
    (statusCode : Int) (hideUpstream : Bool)
    (unmarshal : String → Option dto.GeneralErrorResponse)
    (resp : http.Response) (showBodyWhenFail : Bool) :
    (OpenAIErrorWrapperLocal ToLower err code statusCode
        = { OpenAIErrorWrapper ToLower err code statusCode with LocalError := true }
      ∧ ClaudeErrorWrapperLocal ToLower err code statusCode
        = { ClaudeErrorWrapper ToLower err code statusCode with LocalError := true }
      ∧ TaskErrorWrapperLocal ToLower err code statusCode
        = { TaskErrorWrapper ToLower err code statusCode with LocalError := true })
    ∧ ((OpenAIErrorWrapperLocal ToLower err code statusCode).Error
          = (OpenAIErrorWrapper ToLower err code statusCode).Error
      ∧ (OpenAIErrorWrapperLocal ToLower err code statusCode).StatusCode
          = (OpenAIErrorWrapper ToLower err code statusCode).StatusCode
      ∧ (ClaudeErrorWrapperLocal ToLower err code statusCode).Error
          = (ClaudeErrorWrapper ToLower err code statusCode).Error
      ∧ (ClaudeErrorWrapperLocal ToLower err code statusCode).StatusCode
          = (ClaudeErrorWrapper ToLower err code statusCode).StatusCode
      ∧ (TaskErrorWrapperLocal ToLower err code statusCode).Code
          = (TaskErrorWrapper ToLower err code statusCode).Code
      ∧ (TaskErrorWrapperLocal ToLower err code statusCode).Message
          = (TaskErrorWrapper ToLower err code statusCode).Message
      ∧ (TaskErrorWrapperLocal ToLower err code statusCode).StatusCode
          = (TaskErrorWrapper ToLower err code statusCode).StatusCode
      ∧ (TaskErrorWrapperLocal ToLower err code statusCode).Error
          = (TaskErrorWrapper ToLower err code statusCode).Error)
    ∧ ((OpenAIErrorWrapperLocal ToLower err code statusCode).LocalError = true
      ∧ (ClaudeErrorWrapperLocal ToLower err code statusCode).LocalError = true
      ∧ (TaskErrorWrapperLocal ToLower err code statusCode).LocalError = true)
    ∧ ((OpenAIErrorWrapper ToLower err code statusCode).LocalError = false
      ∧ (ClaudeErrorWrapper ToLower err code statusCode).LocalError = false
      ∧ (TaskErrorWrapper ToLower err code statusCode).LocalError = false
      ∧ (RelayErrorHandler hideUpstream unmarshal resp showBodyWhenFail).LocalError
          = false) :=
  ⟨⟨rfl, rfl, rfl⟩, ⟨rfl, rfl, rfl, rfl, rfl, rfl, rfl, rfl⟩, ⟨rfl, rfl, rfl⟩,
    ⟨rfl, rfl, rfl, RelayErrorHandler_not_local hideUpstream unmarshal resp showBodyWhenFail⟩⟩

end service

namespace openai

/-- C29. When the last retained frame decodes, `handleLastResponse` returns no
error and sets the response id, the created timestamp, the system fingerprint
and the model to the values of that frame; when the usage of the frame is
valid it sets the contains-usage flag to true and the usage output to that
usage, and otherwise leaves both as they were; it sets should-send-last-response
to false when the usage is valid and the client did not opt into usage
reporting, and otherwise leaves it as it was.  When the frame does not decode
it returns the decode error and leaves every output as it was. -/
theorem C29_handle_last_response
    (unmarshalOne : String → Except String dto.ChatCompletionsStreamResponse)
    (ValidUsage : Option dto.Usage → Bool)
    (lastStreamData : String) (out : LastResponseOutputs) (info : relaycommon.RelayInfo) :
    (∀ frame : dto.ChatCompletionsStreamResponse, unmarshalOne lastStreamData = .ok frame →
      (handleLastResponse unmarshalOne ValidUsage lastStreamData out info).2 = none
      ∧ (handleLastResponse unmarshalOne ValidUsage lastStreamData out info).1.responseId
          = frame.Id
      ∧ (handleLastResponse unmarshalOne ValidUsage lastStreamData out info).1.createAt
          = frame.Created
      ∧ (handleLastResponse unmarshalOne ValidUsage lastStreamData out info).1.systemFingerprint
          = frame.SystemFingerprint
      ∧ (handleLastResponse unmarshalOne ValidUsage lastStreamData out info).1.model
          = frame.Model
      ∧ (handleLastResponse unmarshalOne ValidUsage lastStreamData out info).1.containStreamUsage
          = (if ValidUsage frame.Usage then true else out.containStreamUsage)
      ∧ (handleLastResponse unmarshalOne ValidUsage lastStreamData out info).1.usage
          = (if ValidUsage frame.Usage then frame.Usage else out.usage)
      ∧ (handleLastResponse unmarshalOne ValidUsage lastStreamData out info).1.shouldSendLastResp
          = (if ValidUsage frame.Usage = true ∧ info.ShouldIncludeUsage = false then false
              else out.shouldSendLastResp))
    ∧ (∀ err : String, unmarshalOne lastStreamData = .error err →
      handleLastResponse unmarshalOne ValidUsage lastStreamData out info = (out, some err)) := by
  refine ⟨?_, ?_⟩
  · intro frame hdec
    unfold handleLastResponse
    rw [hdec]
    cases hv : ValidUsage frame.Usage <;> cases hi : info.ShouldIncludeUsage <;> simp [hv, hi]
  · intro err hdec
    unfold handleLastResponse
    rw [hdec]

/-- Witness of C29: a last frame with valid usage, for a client that did not
opt into usage reporting, fills every output and clears
should-send-last-response; a frame cut off in transit changes nothing. -/
theorem C29_handle_last_response_witness :
    ((handleLastResponse sample.unmarshalLast sample.validUsage sample.frameUsage {} {}).2
        = none
      ∧ (handleLastResponse sample.unmarshalLast sample.validUsage
          sample.frameUsage {} {}).1.responseId = "chatcmpl-9"
      ∧ (handleLastResponse sample.unmarshalLast sample.validUsage
          sample.frameUsage {} {}).1.model = "qwen-max"
      ∧ (handleLastResponse sample.unmarshalLast sample.validUsage
          sample.frameUsage {} {}).1.containStreamUsage = true
      ∧ (handleLastResponse sample.unmarshalLast sample.validUsage
          sample.frameUsage {} {}).1.usage
          = some { PromptTokens := 3, CompletionTokens := 4, TotalTokens := 7 }
      ∧ (handleLastResponse sample.unmarshalLast sample.validUsage
          sample.frameUsage {} {}).1.shouldSendLastResp = false)
    ∧ handleLastResponse sample.unmarshalLast sample.validUsage sample.frameCut {} {}
      = ({}, some "unexpected end of JSON input") :=
  have h := ((C29_handle_last_response sample.unmarshalLast sample.validUsage
    sample.frameUsage {} {}).1
    { Id := "chatcmpl-9", Created := 1700000000, Model := "qwen-max",
      Usage := some { PromptTokens := 3, CompletionTokens := 4, TotalTokens := 7 } } rfl)
  ⟨⟨h.1, h.2.1, h.2.2.2.2.1, h.2.2.2.2.2.1.trans (by decide),
      h.2.2.2.2.2.2.1.trans (by decide), h.2.2.2.2.2.2.2.trans (by decide)⟩,
   (C29_handle_last_response sample.unmarshalLast sample.validUsage sample.frameCut {} {}).2
     "unexpected end of JSON input" rfl⟩

end openai

/-! ## Theorems: the Suno submit response and the webhook content -/

namespace suno

/-- Shared lemma: on a vendor-reported failure `DoResponse` writes nothing to
the client and returns an empty task id and a task error with the vendor code,
status 500 and, as message, the wrapped text of `fmt.Errorf(message)`. -/
theorem DoResponse_failure (ToLower : String → String) (Errorf : String → String)
    (unmarshal : String → Except String dto.TaskResponse)
    (IsSuccess : dto.TaskResponse → Bool) (copyError : Option String)
    (resp : http.Response) (body : String) (r : dto.TaskResponse)
    (hread : resp.Body.readAll = some body) (hdec : unmarshal body = .ok r)
    (hfail : IsSuccess r = false) :
    DoResponse ToLower Errorf unmarshal IsSuccess copyError resp
      = Outcome.returned
          (("", none, some (service.TaskErrorWrapper ToLower (Errorf r.Message) r.Code 500)),
            []) := by
  unfold DoResponse
  simp only [hread, hdec, hfail]
  rfl

/-- C22, evaluation at the failing input. The submit response
`{"code":"quota_exceeded","message":"quota usage reached 100%","data":""}`
reports a failure whose message mentions no transport term.  `DoResponse`
passes the message to `fmt.Errorf` as the format, so the task error carries
"quota usage reached 100%!(NOVERB)" instead of the vendor message; the code,
the status 500, the empty task id and the absence of client writes are as
expected. -/
theorem C22_vendor_message_used_as_format :
    service.mentionsTransportTerm strings.asciiToLower "quota usage reached 100%" = false
    ∧ DoResponse strings.asciiToLower sample.errorf sample.unmarshalTask sample.isSuccess none
        { StatusCode := 200,
          Body :=
            { readAll := some
                "\x7b\"code\":\"quota_exceeded\",\"message\":\"quota usage reached 100%\",\"data\":\"\"\x7d",
              closeFails := false } }
      = Outcome.returned
          (("", none,
            some { Code := "quota_exceeded", Message := "quota usage reached 100%!(NOVERB)",
                   StatusCode := 500, Error := "quota usage reached 100%!(NOVERB)" }), [])
    ∧ "quota usage reached 100%!(NOVERB)" ≠ "quota usage reached 100%" := by
  decide

end suno

namespace service

/-- C25, evaluation at the failing input. With the template "%s of %s used"
and the values "80" and "100", the content put in the payload is
"80 of %!!(string=100)s(MISSING) used", not "80 of 100 used": each value is
formatted into the whole content on its own, so the first pass marks the second
placeholder as missing and the second pass formats the second value into that
mark.  With the single value "80" the template "%s used" gives "80 used". -/
theorem C25_webhook_content_two_values :
    webhookContent (sample.env false)
        { Content := "%s of %s used", Values := [Any.str "80", Any.str "100"] }
      = "80 of %!!(string=100)s(MISSING) used"
    ∧ webhookContent (sample.env false)
        { Content := "%s of %s used", Values := [Any.str "80", Any.str "100"] }
      ≠ "80 of 100 used"
    ∧ webhookContent (sample.env false) { Content := "%s used", Values := [Any.str "80"] }
      = "80 used"
    ∧ webhookContent (sample.env false) { Content := "%s used", Values := [] } = "%s used" := by
  decide

/-- C27. `NotifyUser` checks the rate limit of the user and the notification
type first.  When the check returns an error, or reports that the limit is
exceeded, `NotifyUser` returns a non-nil error and the check is the only thing
it does: no email and no webhook is sent, whatever the settings are.  When the
settings hold no channel preference and the check allows the notification,
delivery goes by email: the address is the notification-email setting when
there is one and the email of the user otherwise; for a non-empty address
`NotifyUser` does the check, sends exactly one email with the title and the
filled content to that address, and returns what the mail transport returns;
for an empty address it does the check only and returns nil; a setting that is
not a string stops it after the check.  No webhook is sent in any of these
cases. -/
theorem C27_rate_limit_before_delivery (env : Env) (userId : Int) (userEmail : String)
    (userSetting : String → Option Any) (data : dto.Notify) :
    (NotifyUser env userId userEmail userSetting data).1.head?
        = some (Effect.checkLimit userId data.Type_)
    ∧ (∀ err : String, (env.CheckNotificationLimit userId data.Type_).2 = some err →
        NotifyUser env userId userEmail userSetting data
          = ([Effect.checkLimit userId data.Type_], Outcome.returned (some err)))
    ∧ ((env.CheckNotificationLimit userId data.Type_).2 = none →
        (env.CheckNotificationLimit userId data.Type_).1 = false →
        ∃ err : String,
          NotifyUser env userId userEmail userSetting data
            = ([Effect.checkLimit userId data.Type_], Outcome.returned (some err)))
    ∧ (userSetting env.UserSettingNotifyType = none →
        (env.CheckNotificationLimit userId data.Type_) = (true, none) →
        (∀ receiver : String, receiver ≠ "" →
          (userSetting env.UserSettingNotificationEmail = some (Any.str receiver)
            ∨ (userSetting env.UserSettingNotificationEmail = none ∧ userEmail = receiver)) →
          NotifyUser env userId userEmail userSetting data
            = ([Effect.checkLimit userId data.Type_,
                  Effect.email data.Title receiver (emailContent env data)],
                Outcome.returned (env.SendEmail data.Title receiver (emailContent env data))))
        ∧ ((userSetting env.UserSettingNotificationEmail = some (Any.str "")
            ∨ (userSetting env.UserSettingNotificationEmail = none ∧ userEmail = "")) →
          NotifyUser env userId userEmail userSetting data
            = ([Effect.checkLimit userId data.Type_], Outcome.returned none))
        ∧ (∀ i : Int, userSetting env.UserSettingNotificationEmail = some (Any.int i) →
          NotifyUser env userId userEmail userSetting data
            = ([Effect.checkLimit userId data.Type_],
                Outcome.panicked "interface conversion: interface \x7b\x7d is not string"))) := by
  refine ⟨?_, ?_, ?_, ?_⟩
  · unfold NotifyUser
    dsimp only
    repeat' (first | rfl | split_ifs | split)
  · intro err herr
    unfold NotifyUser
    simp only [herr]
  · intro herr hcan
    unfold NotifyUser
    simp only [herr, hcan]
    exact ⟨_, rfl⟩
  · intro hpref hcheck
    refine ⟨?_, ?_, ?_⟩
    · intro receiver hne hset
      unfold NotifyUser
      simp only [hpref, hcheck]
      rcases hset with hset | ⟨hset, rfl⟩
      · simp [hset, hne, sendEmailNotify]
      · simp [hset, hne, sendEmailNotify]
    · intro hset
      unfold NotifyUser
      simp only [hpref, hcheck]
      rcases hset with hset | ⟨hset, rfl⟩
      · simp [hset]
      · simp [hset]
    · intro i hset
      unfold NotifyUser
      simp only [hpref, hcheck]
      simp [hset]

/-- Witness of C27: with the limit exceeded and a webhook configured, the
check is the only effect and an error is returned; with no preference and the
limit not reached, the check is followed by one email to the address of the
user, and by one email to the notification-email setting when there is one. -/
theorem C27_rate_limit_before_delivery_witness :
    (∃ err : String,
      NotifyUser sample.envLimited 7 "ann@example.com"
          (fun k =>
            if k = "notify_type" then some (Any.str "webhook")
            else if k = "webhook_url" then some (Any.str "https://hooks.example/a")
            else none)
          { Type_ := "quota", Title := "Quota", Content := "low" }
        = ([Effect.checkLimit 7 "quota"], Outcome.returned (some err)))
    ∧ NotifyUser (sample.env false) 7 "ann@example.com" (fun _ => none)
          { Type_ := "quota", Title := "Quota", Content := "low" }
        = ([Effect.checkLimit 7 "quota", Effect.email "Quota" "ann@example.com" "low"],
            Outcome.returned none)
    ∧ NotifyUser (sample.env false) 7 "ann@example.com"
          (fun k => if k = "notification_email" then some (Any.str "ops@example.com") else none)
          { Type_ := "quota", Title := "Quota", Content := "low" }
        = ([Effect.checkLimit 7 "quota", Effect.email "Quota" "ops@example.com" "low"],
            Outcome.returned none) :=
  ⟨(C27_rate_limit_before_delivery sample.envLimited 7 "ann@example.com"
      (fun k =>
        if k = "notify_type" then some (Any.str "webhook")
        else if k = "webhook_url" then some (Any.str "https://hooks.example/a")
        else none)
      { Type_ := "quota", Title := "Quota", Content := "low" }).2.2.1 rfl rfl,
   ((C27_rate_limit_before_delivery (sample.env false) 7 "ann@example.com" (fun _ => none)
      { Type_ := "quota", Title := "Quota", Content := "low" }).2.2.2 rfl rfl).1
      "ann@example.com" (by decide) (Or.inr ⟨rfl, rfl⟩),
   ((C27_rate_limit_before_delivery (sample.env false) 7 "ann@example.com"
      (fun k => if k = "notification_email" then some (Any.str "ops@example.com") else none)
      { Type_ := "quota", Title := "Quota", Content := "low" }).2.2.2 rfl rfl).1
      "ops@example.com" (by decide) (Or.inl rfl)⟩

end service

/-! ## Theorems: the webhook signature -/

set_option maxRecDepth 1000000

namespace hex

/-- Shared lemma: every digit is one of the sixteen lower-case hexadecimal
characters. -/
theorem digit_mem (n : Nat) : digit n ∈ "0123456789abcdef".toList := by
  rcases Nat.lt_or_ge n 16 with h | h
  · interval_cases n <;> decide
  · have : digit n = '0' := by
      unfold digit
      exact List.getD_eq_default _ _ (by simpa using h)
    rw [this]
    decide

/-- Shared lemma: the digits of two numbers below 16 differ when the numbers
differ. -/
theorem digit_injective : ∀ a < 16, ∀ b < 16, digit a = digit b → a = b := by
  decide

/-- Shared lemma: the encoding has two characters per byte. -/
theorem length_encode (bytes : List Nat) : (EncodeToString bytes).length = 2 * bytes.length := by
  show (bytes.flatMap (fun b => [digit (b / 16), digit (b % 16)])).length = 2 * bytes.length
  induction bytes with
  | nil => rfl
  | cons b bs ih =>
    rw [List.flatMap_cons, List.length_append, ih, List.length_cons, List.length_cons,
      List.length_nil, List.length_cons]
    omega

/-- Shared lemma: the encoding consists of lower-case hexadecimal characters. -/
theorem encode_chars (bytes : List Nat) :
    ∀ c ∈ (EncodeToString bytes).toList, c ∈ "0123456789abcdef".toList := by
  intro c hc
  have hc' : c ∈ bytes.flatMap (fun b => [digit (b / 16), digit (b % 16)]) := hc
  obtain ⟨b, -, hb⟩ := List.mem_flatMap.mp hc'
  rcases List.mem_cons.mp hb with rfl | hb
  · exact digit_mem _
  · rcases List.mem_cons.mp hb with rfl | hb
    · exact digit_mem _
    · cases hb

/-- Shared lemma: two lists of bytes with the same encoding are equal. -/
theorem encode_injective :
    ∀ (xs ys : List Nat), (∀ x ∈ xs, x < 256) → (∀ y ∈ ys, y < 256) →
      EncodeToString xs = EncodeToString ys → xs = ys := by
  intro xs
  induction xs with
  | nil =>
    intro ys _ _ h
    cases ys with
    | nil => rfl
    | cons y ys =>
      have := congrArg String.length h
      rw [length_encode, length_encode] at this
      simp at this
  | cons x xs ih =>
    intro ys hx hy h
    cases ys with
    | nil =>
      have := congrArg String.length h
      rw [length_encode, length_encode] at this
      simp at this
    | cons y ys =>
      have hd : (x :: xs).flatMap (fun b => [digit (b / 16), digit (b % 16)])
          = (y :: ys).flatMap (fun b => [digit (b / 16), digit (b % 16)]) :=
        congrArg String.data h
      rw [List.flatMap_cons, List.flatMap_cons] at hd
      simp only [List.cons_append, List.nil_append, List.cons.injEq] at hd
      obtain ⟨h1, h2, h3⟩ := hd
      have hx' : x < 256 := hx x (List.mem_cons_self _ _)
      have hy' : y < 256 := hy y (List.mem_cons_self _ _)
      have e1 : x / 16 = y / 16 :=
        digit_injective _ (by omega) _ (by omega) h1
      have e2 : x % 16 = y % 16 :=
        digit_injective _ (Nat.mod_lt _ (by decide)) _ (Nat.mod_lt _ (by decide)) h2
      have exy : x = y := by omega
      have := ih ys (fun a ha => hx a (List.mem_cons_of_mem _ ha))
        (fun a ha => hy a (List.mem_cons_of_mem _ ha)) (String.ext h3)
      rw [exy, this]

end hex

namespace sha256

/-- Shared lemma: a digest has 32 bytes. -/
theorem length_Sum256 (msg : List Nat) : (Sum256 msg).length = 32 := rfl

/-- Shared lemma: every entry of a digest is a byte. -/
theorem Sum256_bytes (msg : List Nat) : ∀ b ∈ Sum256 msg, b < 256 := by
  intro b hb
  simp only [Sum256, digest, wordBytes, List.cons_append, List.nil_append, List.mem_cons,
    List.mem_singleton, List.not_mem_nil, or_false] at hb
  rcases hb with h | h | h | h | h | h | h | h | h | h | h | h | h | h | h | h | h | h | h | h
    | h | h | h | h | h | h | h | h | h | h | h | h <;>
    (rw [h]; exact Nat.mod_lt _ (by decide))

end sha256

namespace hmac

/-- Shared lemma: a key block has 64 bytes. -/
theorem length_keyBlock (key : List Nat) : (keyBlock key).length = 64 := by
  unfold keyBlock
  by_cases h : key.length > 64
  · simp only [h, if_true, List.length_append, List.length_replicate, sha256.length_Sum256]
  · simp only [h, if_false, List.length_append, List.length_replicate]
    omega

end hmac

namespace service

/-- Shared lemma: secrets with the same key block sign alike. -/
theorem generateSignature_of_keyBlock (s₁ s₂ payload : String)
    (h : hmac.keyBlock (bytesOf s₁) = hmac.keyBlock (bytesOf s₂)) :
    generateSignature s₁ payload = generateSignature s₂ payload := by
  unfold generateSignature hmac.Sum hmac.outerInput
  rw [h]

/-- Shared lemma: equal signatures come from equal key blocks unless SHA-256
maps the two different outer inputs to one digest. -/
theorem keyBlock_of_generateSignature (s₁ s₂ payload : String)
    (hsig : generateSignature s₁ payload = generateSignature s₂ payload)
    (hash : sha256.Sum256 (hmac.outerInput (bytesOf s₁) (bytesOf payload))
        = sha256.Sum256 (hmac.outerInput (bytesOf s₂) (bytesOf payload)) →
      hmac.outerInput (bytesOf s₁) (bytesOf payload)
        = hmac.outerInput (bytesOf s₂) (bytesOf payload)) :
    hmac.keyBlock (bytesOf s₁) = hmac.keyBlock (bytesOf s₂) := by
  have hsum : hmac.Sum (bytesOf s₁) (bytesOf payload) = hmac.Sum (bytesOf s₂) (bytesOf payload) :=
    hex.encode_injective _ _ (sha256.Sum256_bytes _) (sha256.Sum256_bytes _) hsig
  have hout := hash hsum
  unfold hmac.outerInput at hout
  have hlen : ((hmac.keyBlock (bytesOf s₁)).map (fun b => b ^^^ 92)).length
      = ((hmac.keyBlock (bytesOf s₂)).map (fun b => b ^^^ 92)).length := by
    rw [List.length_map, List.length_map, hmac.length_keyBlock, hmac.length_keyBlock]
  have hmap := (List.append_inj hout hlen).1
  exact List.map_injective_iff.mpr Nat.xor_left_injective hmap

/-- C23. When the payload serialises to `b`, `SendWebhookNotify` hands to the
transport one request whose body is `b`, on the worker path as on the direct
path (where the URL is accepted by `http.NewRequest`); the request carries an
`X-Webhook-Signature` header exactly when the secret is not empty, and its
value is `generateSignature(secret, b)`.  That value is the hexadecimal
encoding of HMAC-SHA256 of `b` under the secret: 64 characters, each a
lower-case hexadecimal digit.  On the direct path the canonical forms of the
two header names are distinct, as in Go. -/
theorem C23_webhook_signature (env : Env) (webhookURL secret : String) (data : dto.Notify)
    (b : String)
    (hmarshal : env.Marshal
        { Type_ := data.Type_, Title := data.Title, Content := webhookContent env data,
          Values := data.Values, Timestamp := env.Now } = .ok b) :
    (env.EnableWorker = true →
      ∃ request : WorkerRequest,
        (SendWebhookNotify env webhookURL secret data).1 = [Sent.worker request]
        ∧ request.Body = b
        ∧ request.Headers "X-Webhook-Signature"
            = (if secret = "" then none else some (generateSignature secret b)))
    ∧ (env.EnableWorker = false → env.NewRequestError webhookURL = none →
      env.CanonicalMIMEHeaderKey "X-Webhook-Signature"
        ≠ env.CanonicalMIMEHeaderKey "Content-Type" →
      ∃ request : http.Request,
        (SendWebhookNotify env webhookURL secret data).1 = [Sent.direct request]
        ∧ request.Body = b
        ∧ request.Header (env.CanonicalMIMEHeaderKey "X-Webhook-Signature")
            = (if secret = "" then none else some [generateSignature secret b]))
    ∧ (generateSignature secret b
          = hex.EncodeToString (hmac.Sum (bytesOf secret) (bytesOf b))
      ∧ (generateSignature secret b).length = 64
      ∧ ∀ c ∈ (generateSignature secret b).toList, c ∈ "0123456789abcdef".toList) := by
  refine ⟨?_, ?_, rfl, ?_, hex.encode_chars _⟩
  · intro hw
    unfold SendWebhookNotify
    simp only [hmarshal, hw, if_true]
    by_cases hs : secret = ""
    · subst hs
      simp only [bne_self_eq_false, Bool.false_eq_true, if_false, if_true]
      split
      · exact ⟨_, rfl, rfl, by simp⟩
      · split_ifs <;> exact ⟨_, rfl, rfl, by simp⟩
    · have hs' : (secret != "") = true := by simpa using hs
      simp only [hs', hs, if_true, if_false]
      split
      · exact ⟨_, rfl, rfl, by simp⟩
      · split_ifs <;> exact ⟨_, rfl, rfl, by simp⟩
  · intro hw hurl hcanon
    unfold SendWebhookNotify
    simp only [hmarshal, hw, hurl, Bool.false_eq_true, if_false]
    by_cases hs : secret = ""
    · subst hs
      simp only [bne_self_eq_false, Bool.false_eq_true, if_false, if_true]
      split
      · exact ⟨_, rfl, rfl, by simp [http.Header.Set, hcanon]⟩
      · split_ifs <;> exact ⟨_, rfl, rfl, by simp [http.Header.Set, hcanon]⟩
    · have hs' : (secret != "") = true := by simpa using hs
      simp only [hs', hs, if_true, if_false]
      split
      · exact ⟨_, rfl, rfl, by simp [http.Header.Set]⟩
      · split_ifs <;> exact ⟨_, rfl, rfl, by simp [http.Header.Set]⟩
  · unfold generateSignature hmac.Sum
    rw [hex.length_encode, sha256.length_Sum256]

/-- Shared lemma: the model agrees with the published digest of "abc"
(FIPS 180-4) and with HMAC-SHA256 of "payload" under the key "s". -/
theorem known_answers :
    hex.EncodeToString (sha256.Sum256 (bytesOf "abc"))
        = "ba7816bf8f01cfea414140de5dae2223b00361a396177a9cb410ff61f20015ad"
    ∧ generateSignature "s" "payload"
        = "4a4b058d88e209a50ed3fe0fea512998b77326c73019a9d7a1cb1b828910fb72" := by
  decide

/-- Witness of C23: the payload "alert|Quota|80% used" signed with the secret
"s" goes through the worker with its signature, and without a secret it goes
out directly with no signature header. -/
theorem C23_webhook_signature_witness :
    (∃ request : WorkerRequest,
      (SendWebhookNotify (sample.env true) "https://hooks.example/a" "s"
          { Type_ := "alert", Title := "Quota", Content := "80% used" }).1
        = [Sent.worker request]
      ∧ request.Body = "alert|Quota|80% used"
      ∧ request.Headers "X-Webhook-Signature"
          = some "b27de22f48c269225a8072df5ef3955f2c221466aeffd8552dae29a0b1ef6043")
    ∧ (∃ request : http.Request,
      (SendWebhookNotify (sample.env false) "https://hooks.example/a" ""
          { Type_ := "alert", Title := "Quota", Content := "80% used" }).1
        = [Sent.direct request]
      ∧ request.Body = "alert|Quota|80% used"
      ∧ request.Header (http.asciiCanonicalMIMEHeaderKey "X-Webhook-Signature") = none) :=
  ⟨(((C23_webhook_signature (sample.env true) "https://hooks.example/a" "s"
        { Type_ := "alert", Title := "Quota", Content := "80% used" }
        "alert|Quota|80% used" rfl).1 rfl).imp
      fun _ h => ⟨h.1, h.2.1, h.2.2.trans (by decide)⟩),
   (((C23_webhook_signature (sample.env false) "https://hooks.example/a" ""
        { Type_ := "alert", Title := "Quota", Content := "80% used" }
        "alert|Quota|80% used" rfl).2.1 rfl rfl (by decide)).imp
      fun _ h => ⟨h.1, h.2.1, h.2.2.trans (by decide)⟩)⟩

/-- Counterexample to C24: the secrets "s" and "s" followed by a zero byte
differ and sign the payload "payload" alike, because HMAC pads both to the same
key block. -/
theorem C24_zero_padded_secret_same_signature :
    "s" ≠ "s\x00"
    ∧ generateSignature "s" "payload" = generateSignature "s\x00" "payload" := by
  decide

/-- C24, amended. The signature depends on the secret through its HMAC key
block only: two secrets with the same key block sign every payload alike, and
two secrets with different key blocks sign a payload differently unless SHA-256
maps the two different outer inputs of HMAC to one digest. -/
theorem C24_signature_by_key_block (s₁ s₂ payload : String) :
    (hmac.keyBlock (bytesOf s₁) = hmac.keyBlock (bytesOf s₂) →
      generateSignature s₁ payload = generateSignature s₂ payload)
    ∧ (hmac.keyBlock (bytesOf s₁) ≠ hmac.keyBlock (bytesOf s₂) →
      (sha256.Sum256 (hmac.outerInput (bytesOf s₁) (bytesOf payload))
          = sha256.Sum256 (hmac.outerInput (bytesOf s₂) (bytesOf payload)) →
        hmac.outerInput (bytesOf s₁) (bytesOf payload)
          = hmac.outerInput (bytesOf s₂) (bytesOf payload)) →
      generateSignature s₁ payload ≠ generateSignature s₂ payload) :=
  ⟨generateSignature_of_keyBlock s₁ s₂ payload,
   fun hblock hash hsig => hblock (keyBlock_of_generateSignature s₁ s₂ payload hsig hash)⟩

/-- Witness of C24 (amended): "s" and "s" followed by a zero byte have one key
block and one signature; "s" and "t" have different key blocks, their outer
digests differ, and so do their signatures. -/
theorem C24_signature_by_key_block_witness :
    generateSignature "s" "payload" = generateSignature "s\x00" "payload"
    ∧ generateSignature "s" "payload" ≠ generateSignature "t" "payload" :=
  ⟨(C24_signature_by_key_block "s" "s\x00" "payload").1 (by decide),
   (C24_signature_by_key_block "s" "t" "payload").2 (by decide)
     (fun h => absurd h (by decide))⟩

end service

/-! ## Theorems: the email body -/

namespace strings

/-- Shared lemma: a pattern that fails on a text at least as long as itself
fails on every extension of the text. -/
theorem startsWithChars_append_false :
    ∀ (x token rest : List Char), startsWithChars x token = false → token.length ≤ x.length →
      startsWithChars (x ++ rest) token = false
  | _, [], _, h, _ => by simp [startsWithChars] at h
  | [], _ :: _, _, _, hlen => by simp at hlen
  | a :: x, t :: token, rest, h, hlen => by
    simp only [startsWithChars, List.cons_append, Bool.and_eq_false_iff] at h ⊢
    rcases h with h | h
    · exact Or.inl h
    · exact Or.inr (startsWithChars_append_false x token rest h (by simpa using hlen))

/-- Shared lemma: replacement passes over a text in which no occurrence of
the token starts. -/
theorem replaceFirstChars_pass (token new : List Char) :
    ∀ (d rest : List Char), noTokenStartsIn token d rest = true →
      replaceFirstChars (d ++ rest) token new = d ++ replaceFirstChars rest token new
  | [], _, _ => rfl
  | c :: cs, rest, h => by
    simp only [noTokenStartsIn, Bool.and_eq_true, Bool.not_eq_true'] at h
    have h1 : startsWithChars (c :: (cs ++ rest)) token = false := h.1
    show replaceFirstChars (c :: (cs ++ rest)) token new = _
    rw [replaceFirstChars, h1]
    simp only [Bool.false_eq_true, if_false, List.cons_append]
    rw [replaceFirstChars_pass token new cs rest h.2]

/-- Shared lemma: replacement leaves a text without the token alone. -/
theorem replaceFirstChars_tokenFree (token new : List Char) (htoken : token ≠ []) :
    ∀ p : List Char, tokenFree token p = true → replaceFirstChars p token new = p
  | [], _ => by
    cases token with
    | nil => exact absurd rfl htoken
    | cons t token => rfl
  | c :: cs, hp => by
    simp only [tokenFree, Bool.and_eq_true, Bool.not_eq_true'] at hp
    rw [replaceFirstChars, hp.1]
    simp only [Bool.false_eq_true, if_false]
    rw [replaceFirstChars_tokenFree token new htoken cs hp.2]

/-- Shared lemma: replacement in a piece followed by the token replaces that
occurrence. -/
theorem replaceFirstChars_piece (token new rest : List Char) (htoken : token ≠ []) :
    ∀ p : List Char, tokenFreeBefore token p = true →
      replaceFirstChars (p ++ (token ++ rest)) token new = p ++ (new ++ rest)
  | [], _ => by
    cases htk : token with
    | nil => exact absurd htk htoken
    | cons t ts =>
      have hstart : startsWithChars (t :: (ts ++ rest)) (t :: ts) = true :=
        startsWithChars_append (t :: ts) rest
      show replaceFirstChars (t :: (ts ++ rest)) (t :: ts) new = new ++ rest
      rw [replaceFirstChars, hstart]
      simp
  | c :: cs, hp => by
    simp only [tokenFreeBefore, Bool.and_eq_true, Bool.not_eq_true'] at hp
    have h1 : startsWithChars (c :: (cs ++ (token ++ rest))) token = false := by
      have := startsWithChars_append_false (c :: cs ++ token) token rest hp.1
        (by simp only [List.length_cons, List.length_append]; omega)
      simpa [List.append_assoc] using this
    show replaceFirstChars (c :: (cs ++ (token ++ rest))) token new = _
    rw [replaceFirstChars, h1]
    simp only [Bool.false_eq_true, if_false, List.cons_append]
    rw [replaceFirstChars_piece token new rest htoken cs hp.2]

/-- Shared lemma: nothing is asked of the texts when no occurrence is left. -/
theorem fillsCleanly_nil (token d : List Char) (vals : List (List Char)) :
    fillsCleanly token d [] vals = true := by
  unfold fillsCleanly
  rfl

/-- Shared lemma: nothing is asked of the texts after the last piece. -/
theorem fillsCleanly_singleton (token d p : List Char) (vals : List (List Char)) :
    fillsCleanly token d [p] vals = true := by
  unfold fillsCleanly
  rfl

/-- Shared lemma: replacing the first occurrence once per text, in order, on a
template cut into valid pieces fills the occurrences in order, provided no
text creates an occurrence that a later text could take. -/
theorem foldl_replaceFirstChars (token : List Char) (htoken : token ≠ []) :
    ∀ (vals : List (List Char)) (d : List Char) (segs : List (List Char)),
      (vals ≠ [] → noTokenStartsIn token d (fillSegments token segs []) = true) →
      segmentsValid token segs = true →
      fillsCleanly token d segs vals = true →
      vals.foldl (fun l v => replaceFirstChars l token v) (d ++ fillSegments token segs [])
        = d ++ fillSegments token segs vals
  | [], _, _, _, _, _ => rfl
  | v :: vs, d, segs, hinv, hs, hclean => by
    have hd : noTokenStartsIn token d (fillSegments token segs []) = true :=
      hinv (List.cons_ne_nil v vs)
    rw [List.foldl_cons]
    match segs, hs, hd, hclean with
    | [], hs, hd, _ =>
      rw [replaceFirstChars_pass token v d _ hd]
      have h0 : replaceFirstChars (fillSegments token [] []) token v = fillSegments token [] [] :=
        replaceFirstChars_tokenFree token v htoken [] (by
          cases htk : token with
          | nil => exact absurd htk htoken
          | cons t ts => rfl)
      rw [h0]
      exact foldl_replaceFirstChars token htoken vs d [] (fun _ => hd) hs
        (fillsCleanly_nil token d vs)
    | [p], hs, hd, _ =>
      rw [replaceFirstChars_pass token v d _ hd]
      have h0 : replaceFirstChars (fillSegments token [p] []) token v = p :=
        replaceFirstChars_tokenFree token v htoken p hs
      rw [h0]
      exact foldl_replaceFirstChars token htoken vs d [p] (fun _ => hd) hs
        (fillsCleanly_singleton token d p vs)
    | p :: q :: ps, hs, hd, hclean =>
      simp only [segmentsValid, Bool.and_eq_true] at hs
      simp only [fillsCleanly, Bool.and_eq_true, Bool.or_eq_true, List.isEmpty_iff] at hclean
      rw [replaceFirstChars_pass token v d _ hd]
      have h0 : replaceFirstChars (fillSegments token (p :: q :: ps) []) token v
          = p ++ (v ++ fillSegments token (q :: ps) []) := by
        show replaceFirstChars (p ++ token ++ fillSegments token (q :: ps) []) token v = _
        rw [List.append_assoc]
        exact replaceFirstChars_piece token v _ htoken p hs.1
      rw [h0]
      have hinv' : vs ≠ [] →
          noTokenStartsIn token (d ++ (p ++ v)) (fillSegments token (q :: ps) []) = true :=
        fun hne => hclean.1.resolve_left hne
      have hstep := foldl_replaceFirstChars token htoken vs (d ++ (p ++ v)) (q :: ps)
        hinv' hs.2 hclean.2
      have e1 : d ++ (p ++ (v ++ fillSegments token (q :: ps) []))
          = (d ++ (p ++ v)) ++ fillSegments token (q :: ps) [] := by
        simp only [List.append_assoc]
      rw [e1, hstep]
      show (d ++ (p ++ v)) ++ fillSegments token (q :: ps) vs
        = d ++ (p ++ v ++ fillSegments token (q :: ps) vs)
      simp only [List.append_assoc]

end strings

namespace service

/-- Shared lemma: the content loop of the email on character lists. -/
theorem emailContent_chars (env : Env) (values : List Any) :
    ∀ content : String,
      values.foldl
          (fun content value =>
            strings.Replace1 content env.ContentValueParam (env.Sprintf "%v" [value]))
          content
        = String.mk
            ((values.map (fun value => (env.Sprintf "%v" [value]).toList)).foldl
              (fun l v => strings.replaceFirstChars l env.ContentValueParam.toList v)
              content.toList) := by
  induction values with
  | nil => intro content; rfl
  | cons v vs ih =>
    intro content
    rw [List.foldl_cons, ih]
    rfl

/-- Counterexample to C26: with the token `{{value}}`, the template
"Dear {{value}}, your quota is {{value}}" and the values "{{value}}" and 0, the
email body is "Dear 0, your quota is {{value}}": the second value replaces the
text of the first, not the second occurrence of the template. -/
theorem C26_value_with_token_is_replaced :
    emailContent (sample.env false)
        { Content := "Dear \x7b\x7bvalue\x7d\x7d, your quota is \x7b\x7bvalue\x7d\x7d",
          Values := [Any.str "\x7b\x7bvalue\x7d\x7d", Any.int 0] }
      = "Dear 0, your quota is \x7b\x7bvalue\x7d\x7d"
    ∧ emailContent (sample.env false)
        { Content := "Dear \x7b\x7bvalue\x7d\x7d, your quota is \x7b\x7bvalue\x7d\x7d",
          Values := [Any.str "\x7b\x7bvalue\x7d\x7d", Any.int 0] }
      ≠ "Dear \x7b\x7bvalue\x7d\x7d, your quota is 0" := by
  decide

/-- C26, amended. For a non-empty token, a template cut at its occurrences of
the token (read left to right) and values of which none that is followed by
another value creates an occurrence of the token (once its text stands in
place of its occurrence, no occurrence of the token starts before the end of
that text), the email body built by `sendEmailNotify` is the template with the
i-th occurrence replaced by the text of the i-th value; occurrences beyond the
values keep the token and values beyond the occurrences change nothing. -/
theorem C26_email_body_fills_tokens (env : Env) (userEmail : String) (data : dto.Notify)
    (segments : List String)
    (htoken : env.ContentValueParam ≠ "")
    (htemplate : data.Content
      = String.mk (strings.fillSegments env.ContentValueParam.toList
          (segments.map String.toList) []))
    (hsegments : strings.segmentsValid env.ContentValueParam.toList
        (segments.map String.toList) = true)
    (hvalues : strings.fillsCleanly env.ContentValueParam.toList []
        (segments.map String.toList)
        (data.Values.map (fun value => (env.Sprintf "%v" [value]).toList)) = true) :
    emailContent env data
        = String.mk (strings.fillSegments env.ContentValueParam.toList
            (segments.map String.toList)
            (data.Values.map (fun value => (env.Sprintf "%v" [value]).toList)))
    ∧ (sendEmailNotify env userEmail data).1
        = [Effect.email data.Title userEmail
            (String.mk (strings.fillSegments env.ContentValueParam.toList
              (segments.map String.toList)
              (data.Values.map (fun value => (env.Sprintf "%v" [value]).toList))))] := by
  have htok : env.ContentValueParam.toList ≠ [] := by
    intro h
    exact htoken (String.ext h)
  have hcontent : emailContent env data
      = String.mk (strings.fillSegments env.ContentValueParam.toList
          (segments.map String.toList)
          (data.Values.map (fun value => (env.Sprintf "%v" [value]).toList))) := by
    unfold emailContent
    rw [emailContent_chars, htemplate]
    have := strings.foldl_replaceFirstChars env.ContentValueParam.toList htok _ []
      (segments.map String.toList) (fun _ => rfl) hsegments hvalues
    simp only [List.nil_append] at this
    exact congrArg String.mk this
  refine ⟨hcontent, ?_⟩
  unfold sendEmailNotify
  rw [hcontent]

/-- Witness of C26 (amended): with the token `{{value}}` and the template
"Dear {{value}}, your quota is {{value}}", the values "Alice", 0 and 5 give
the body "Dear Alice, your quota is 0", and the values "{value}" and
"{{value}}", of which the last is the token itself, give the body
"Dear {value}, your quota is {{value}}". -/
theorem C26_email_body_fills_tokens_witness :
    emailContent (sample.env false)
        { Content := "Dear \x7b\x7bvalue\x7d\x7d, your quota is \x7b\x7bvalue\x7d\x7d",
          Values := [Any.str "Alice", Any.int 0, Any.int 5] }
      = "Dear Alice, your quota is 0"
    ∧ emailContent (sample.env false)
        { Content := "Dear \x7b\x7bvalue\x7d\x7d, your quota is \x7b\x7bvalue\x7d\x7d",
          Values := [Any.str "\x7bvalue\x7d", Any.str "\x7b\x7bvalue\x7d\x7d"] }
      = "Dear \x7bvalue\x7d, your quota is \x7b\x7bvalue\x7d\x7d" :=
  And.intro
    (((C26_email_body_fills_tokens (sample.env false) "ann@example.com"
      { Content := "Dear \x7b\x7bvalue\x7d\x7d, your quota is \x7b\x7bvalue\x7d\x7d",
        Values := [Any.str "Alice", Any.int 0, Any.int 5] }
      ["Dear ", ", your quota is ", ""] (by decide) (by decide) (by decide) (by decide)).1).trans
      (by decide))
    (((C26_email_body_fills_tokens (sample.env false) "ann@example.com"
      { Content := "Dear \x7b\x7bvalue\x7d\x7d, your quota is \x7b\x7bvalue\x7d\x7d",
        Values := [Any.str "\x7bvalue\x7d", Any.str "\x7b\x7bvalue\x7d\x7d"] }
      ["Dear ", ", your quota is ", ""] (by decide) (by decide) (by decide) (by decide)).1).trans
      (by decide))

end service

/-! ## Theorems: the sensitive-word lists -/

namespace strings

/-- Shared lemma: a line without the separator, followed by the separator, is
the first piece of the split. -/
theorem splitChars_line (sep : Char) (rest : List Char) :
    ∀ line : List Char, sep ∉ line →
      splitChars sep (line ++ sep :: rest) = line :: splitChars sep rest
  | [], _ => by simp [splitChars]
  | c :: cs, h => by
    have hc : c ≠ sep := fun e => h (e ▸ List.mem_cons_self _ _)
    have hcs : sep ∉ cs := fun e => h (List.mem_cons_of_mem _ e)
    show splitChars sep (c :: (cs ++ sep :: rest)) = _
    rw [splitChars, if_neg hc, splitChars_line sep rest cs hcs]

/-- Shared lemma: the same on strings. -/
theorem Split_line (line rest : String) (h : '\n' ∉ line.toList) :
    Split ((line ++ "\n") ++ rest) '\n' = line :: Split rest '\n' := by
  unfold Split
  have hdata : ((line ++ "\n") ++ rest).toList = line.toList ++ '\n' :: rest.toList := by
    show ((line ++ "\n") ++ rest).data = _
    rw [String.data_append, String.data_append]
    simp [String.toList]
  rw [hdata, splitChars_line '\n' rest.toList line.toList h]
  rfl

/-- Shared lemma: white space is dropped from neither end of a text that has
none there. -/
theorem TrimSpace_of_noOuterSpace (s : String)
    (hhead : ∀ c, s.toList.head? = some c → unicode.IsSpace c = false)
    (hlast : ∀ c, s.toList.getLast? = some c → unicode.IsSpace c = false) :
    TrimSpace s = s := by
  have h1 : s.toList.dropWhile unicode.IsSpace = s.toList := by
    cases hl : s.toList with
    | nil => rfl
    | cons c cs =>
      have := hhead c (by rw [hl]; rfl)
      simp [List.dropWhile_cons, this]
  have h2 : trimRightChars s.toList = s.toList := by
    unfold trimRightChars
    have h3 : s.toList.reverse.dropWhile unicode.IsSpace = s.toList.reverse := by
      cases hl : s.toList.reverse with
      | nil => rfl
      | cons c cs =>
        have hc : s.toList.getLast? = some c := by
          rw [← List.head?_reverse, hl]; rfl
        have := hlast c hc
        simp [List.dropWhile_cons, this]
    rw [h3, List.reverse_reverse]
  unfold TrimSpace
  rw [h1, h2]
  rfl

/-- Shared lemma: a trimmed text has no white space at either end. -/
theorem TrimSpace_outer (s : String) :
    (∀ c, (TrimSpace s).toList.head? = some c → unicode.IsSpace c = false)
    ∧ (∀ c, (TrimSpace s).toList.getLast? = some c → unicode.IsSpace c = false) := by
  have hdata : (TrimSpace s).toList = trimRightChars (s.toList.dropWhile unicode.IsSpace) := rfl
  rw [hdata]
  generalize hm : s.toList.dropWhile unicode.IsSpace = m
  have hmhead : ∀ c, m.head? = some c → unicode.IsSpace c = false := by
    intro c hc
    have := List.head?_dropWhile_not unicode.IsSpace s.toList
    rw [hm, hc] at this
    exact this
  have hsplit : m = trimRightChars m ++ (m.reverse.takeWhile unicode.IsSpace).reverse := by
    unfold trimRightChars
    rw [← List.reverse_append, List.takeWhile_append_dropWhile, List.reverse_reverse]
  refine ⟨?_, ?_⟩
  · intro c hc
    apply hmhead c
    rw [hsplit, List.head?_append, hc]
    rfl
  · intro c hc
    unfold trimRightChars at hc
    rw [List.getLast?_reverse] at hc
    have := List.head?_dropWhile_not unicode.IsSpace m.reverse
    rw [hc] at this
    exact this

end strings

namespace setting

/-- Shared lemma: the two conditions of `noOuterSpace`. -/
theorem noOuterSpace_iff (s : String) :
    noOuterSpace s = true ↔
      (∀ c, s.toList.head? = some c → unicode.IsSpace c = false)
      ∧ (∀ c, s.toList.getLast? = some c → unicode.IsSpace c = false) := by
  unfold noOuterSpace
  cases s.toList.head? <;> cases s.toList.getLast? <;> simp

/-- Shared lemma: the builder loop appends the texts of the entries. -/
theorem foldl_builder (f : String → String) (g : String → String → String)
    (hg : ∀ b w, g b w = b ++ f w) (ws : List String) :
    ∀ b : String, ws.foldl g b = b ++ openai.concatText (ws.map f) := by
  induction ws with
  | nil => intro b; simp [openai.concatText]
  | cons w ws ih =>
    intro b
    rw [List.foldl_cons, ih, hg]
    simp only [List.map_cons, openai.concatText, String.append_assoc]

/-- The lines that `SensitiveWordsToString` writes. -/
theorem SensitiveWordsToString_lines (lists : Lists) :
    SensitiveWordsToString lists
      = openai.concatText
          ((lists.SensitiveWords ++ lists.RegexSensitiveWords.map (fun p => "regex:" ++ p)).map
            (fun line => line ++ "\n")) := by
  unfold SensitiveWordsToString
  rw [foldl_builder (fun p => ("regex:" ++ p) ++ "\n") _
      (fun b p => by simp only [String.append_assoc]) lists.RegexSensitiveWords,
    foldl_builder (fun w => w ++ "\n") _
      (fun b w => by simp only [String.append_assoc]) lists.SensitiveWords]
  rw [String.empty_append, List.map_append, openai.concatText_append, List.map_map]
  rfl

/-- Shared lemma: splitting what was written gives the lines back, followed by
an empty line. -/
theorem Split_lines (lines : List String) (h : ∀ line ∈ lines, '\n' ∉ line.toList) :
    strings.Split (openai.concatText (lines.map (fun line => line ++ "\n"))) '\n'
      = lines ++ [""] := by
  induction lines with
  | nil => rfl
  | cons line lines ih =>
    have h1 := strings.Split_line line
      (openai.concatText (lines.map (fun line => line ++ "\n")))
      (h line (List.mem_cons_self _ _))
    simp only [List.map_cons, openai.concatText, List.cons_append]
    rw [h1, ih (fun l hl => h l (List.mem_cons_of_mem _ hl))]

/-- Shared lemma: a well-formed plain word is appended to the words. -/
theorem addLine_word (isValidRegex : String → Bool) (lists : Lists) (word : String)
    (hne : word ≠ "") (hspace : noOuterSpace word = true)
    (hplain : strings.HasPrefix word "regex:" = false) :
    addLine isValidRegex lists word
      = { lists with SensitiveWords := lists.SensitiveWords ++ [word] } := by
  have htrim : strings.TrimSpace word = word :=
    strings.TrimSpace_of_noOuterSpace word ((noOuterSpace_iff word).mp hspace).1
      ((noOuterSpace_iff word).mp hspace).2
  unfold addLine
  simp [htrim, hne, hplain]

/-- Shared lemma: a well-formed pattern line is appended to the patterns. -/
theorem addLine_pattern (isValidRegex : String → Bool) (lists : Lists) (pattern : String)
    (hvalid : isValidRegex pattern = true) (hspace : noOuterSpace pattern = true) :
    addLine isValidRegex lists ("regex:" ++ pattern)
      = { lists with RegexSensitiveWords := lists.RegexSensitiveWords ++ [pattern] } := by
  have hdata : ("regex:" ++ pattern).toList = "regex:".toList ++ pattern.toList :=
    String.data_append _ _
  obtain ⟨-, hlast⟩ := (noOuterSpace_iff pattern).mp hspace
  have htrim : strings.TrimSpace ("regex:" ++ pattern) = "regex:" ++ pattern := by
    apply strings.TrimSpace_of_noOuterSpace
    · intro c hc
      rw [hdata] at hc
      simp only [String.toList, List.cons_append, List.head?_cons, Option.some.injEq] at hc
      rw [← hc]
      decide
    · intro c hc
      rw [hdata, List.getLast?_append] at hc
      cases hp : pattern.toList.getLast? with
      | none =>
        rw [hp] at hc
        simp only [Option.or] at hc
        have : c = ':' := by
          have h6 : "regex:".toList.getLast? = some ':' := by decide
          rw [h6] at hc
          exact (Option.some.inj hc).symm
        rw [this]
        decide
      | some d =>
        rw [hp] at hc
        simp only [Option.or, Option.some.injEq] at hc
        rw [← hc]
        exact hlast d hp
  have hne : "regex:" ++ pattern ≠ "" := by
    intro h
    have := congrArg String.length h
    rw [String.length_append] at this
    have h6 : "regex:".length = 6 := by decide
    have h0 : "".length = 0 := rfl
    omega
  have hstart : strings.startsWithChars ("regex:" ++ pattern).toList "regex:".toList = true := by
    rw [hdata]
    exact strings.startsWithChars_append _ _
  have hpre : strings.HasPrefix ("regex:" ++ pattern) "regex:" = true := hstart
  have hcut : strings.TrimPrefix ("regex:" ++ pattern) "regex:" = pattern := by
    unfold strings.TrimPrefix
    rw [hstart, if_pos rfl, hdata]
    show String.mk (List.drop "regex:".toList.length ("regex:".toList ++ pattern.toList)) = pattern
    rw [List.drop_left]
    rfl
  unfold addLine
  simp [htrim, hne, hpre, hcut, hvalid]

/-- Shared lemma: an empty line changes nothing. -/
theorem addLine_empty (isValidRegex : String → Bool) (lists : Lists) :
    addLine isValidRegex lists "" = lists := by
  have : strings.TrimSpace "" = "" := by decide
  unfold addLine
  simp [this]

/-- Shared lemma: reading well-formed plain words. -/
theorem foldl_addLine_words (isValidRegex : String → Bool) (words : List String)
    (h : ∀ word ∈ words, word ≠ "" ∧ '\n' ∉ word.toList ∧ noOuterSpace word = true
        ∧ strings.HasPrefix word "regex:" = false) :
    ∀ lists : Lists, words.foldl (addLine isValidRegex) lists
      = { lists with SensitiveWords := lists.SensitiveWords ++ words } := by
  induction words with
  | nil => intro lists; simp
  | cons w ws ih =>
    intro lists
    obtain ⟨h1, -, h3, h4⟩ := h w (List.mem_cons_self _ _)
    rw [List.foldl_cons, addLine_word isValidRegex lists w h1 h3 h4,
      ih (fun x hx => h x (List.mem_cons_of_mem _ hx))]
    simp

/-- Shared lemma: reading well-formed pattern lines. -/
theorem foldl_addLine_patterns (isValidRegex : String → Bool) (patterns : List String)
    (h : ∀ pattern ∈ patterns, isValidRegex pattern = true ∧ '\n' ∉ pattern.toList
        ∧ noOuterSpace pattern = true) :
    ∀ lists : Lists,
      (patterns.map (fun p => "regex:" ++ p)).foldl (addLine isValidRegex) lists
        = { lists with RegexSensitiveWords := lists.RegexSensitiveWords ++ patterns } := by
  induction patterns with
  | nil => intro lists; simp
  | cons p ps ih =>
    intro lists
    obtain ⟨h1, -, h3⟩ := h p (List.mem_cons_self _ _)
    rw [List.map_cons, List.foldl_cons, addLine_pattern isValidRegex lists p h1 h3,
      ih (fun x hx => h x (List.mem_cons_of_mem _ hx))]
    simp

/-- Shared lemma: every step of the reading loop keeps the patterns valid and
the words non-empty and without white space at either end. -/
theorem addLine_invariant (isValidRegex : String → Bool) (lists : Lists) (line : String)
    (h : (∀ p ∈ lists.RegexSensitiveWords, isValidRegex p = true)
      ∧ (∀ w ∈ lists.SensitiveWords, w ≠ "" ∧ noOuterSpace w = true)) :
    (∀ p ∈ (addLine isValidRegex lists line).RegexSensitiveWords, isValidRegex p = true)
    ∧ (∀ w ∈ (addLine isValidRegex lists line).SensitiveWords,
        w ≠ "" ∧ noOuterSpace w = true) := by
  unfold addLine
  dsimp only
  by_cases hempty : strings.TrimSpace line = ""
  · simp only [hempty, beq_self_eq_true, if_true]
    exact h
  · have hne : (strings.TrimSpace line == "") = false := by simpa using hempty
    rw [hne]
    simp only [Bool.false_eq_true, if_false]
    by_cases hpre : strings.HasPrefix (strings.TrimSpace line) "regex:" = true
    · rw [if_pos hpre]
      by_cases hvalid : isValidRegex (strings.TrimPrefix (strings.TrimSpace line) "regex:") = true
      · rw [if_pos hvalid]
        refine ⟨?_, h.2⟩
        intro p hp
        rcases List.mem_append.mp hp with hp | hp
        · exact h.1 p hp
        · rw [List.mem_singleton.mp hp]
          exact hvalid
      · rw [if_neg hvalid]
        exact h
    · rw [if_neg hpre]
      refine ⟨h.1, ?_⟩
      intro w hw
      rcases List.mem_append.mp hw with hw | hw
      · exact h.2 w hw
      · rw [List.mem_singleton.mp hw]
        exact ⟨hempty, (noOuterSpace_iff _).mpr (strings.TrimSpace_outer line)⟩

/-- C30. Round trip: for lists in which every plain word is non-empty, has no
newline, no white space at either end and does not start with "regex:", and
every pattern is accepted by `regexp.Compile`, has no newline and no white space
at either end, `SensitiveWordsFromString(SensitiveWordsToString())` gives back
both lists, entry for entry and in order.  And for every input text,
`SensitiveWordsFromString` leaves only accepted patterns in
`RegexSensitiveWords` and only non-empty words without white space at either
end in `SensitiveWords`. -/
theorem C30_sensitive_words_round_trip (isValidRegex : String → Bool) :
    (∀ lists : Lists, WellFormed isValidRegex lists →
      SensitiveWordsFromString isValidRegex (SensitiveWordsToString lists) = lists)
    ∧ (∀ s : String,
      (∀ p ∈ (SensitiveWordsFromString isValidRegex s).RegexSensitiveWords,
          isValidRegex p = true)
      ∧ (∀ w ∈ (SensitiveWordsFromString isValidRegex s).SensitiveWords,
          w ≠ "" ∧ noOuterSpace w = true)) := by
  refine ⟨?_, ?_⟩
  · intro lists hwf
    obtain ⟨hwords, hpatterns⟩ := hwf
    have hlines : ∀ line ∈ lists.SensitiveWords
          ++ lists.RegexSensitiveWords.map (fun p => "regex:" ++ p),
        '\n' ∉ line.toList := by
      intro line hline
      rcases List.mem_append.mp hline with hl | hl
      · exact (hwords line hl).2.1
      · obtain ⟨p, hp, rfl⟩ := List.mem_map.mp hl
        intro hmem
        have hdata : ("regex:" ++ p).toList = "regex:".toList ++ p.toList :=
          String.data_append _ _
        rw [hdata] at hmem
        rcases List.mem_append.mp hmem with h | h
        · exact absurd h (by decide)
        · exact (hpatterns p hp).2.1 h
    unfold SensitiveWordsFromString
    rw [SensitiveWordsToString_lines, Split_lines _ hlines, List.foldl_append,
      List.foldl_append, foldl_addLine_words isValidRegex _ hwords,
      foldl_addLine_patterns isValidRegex _ hpatterns]
    simp only [List.foldl_cons, List.foldl_nil, addLine_empty, List.nil_append]
  · intro s
    unfold SensitiveWordsFromString
    generalize strings.Split s '\n' = lines
    have hgen : ∀ (ls : List String) (acc : Lists),
        ((∀ p ∈ acc.RegexSensitiveWords, isValidRegex p = true)
          ∧ (∀ w ∈ acc.SensitiveWords, w ≠ "" ∧ noOuterSpace w = true)) →
        (∀ p ∈ (ls.foldl (addLine isValidRegex) acc).RegexSensitiveWords,
            isValidRegex p = true)
          ∧ (∀ w ∈ (ls.foldl (addLine isValidRegex) acc).SensitiveWords,
            w ≠ "" ∧ noOuterSpace w = true) := by
      intro ls
      induction ls with
      | nil => intro acc h; exact h
      | cons l ls ih =>
        intro acc h
        exact ih _ (addLine_invariant isValidRegex acc l h)
    exact hgen lines _ (And.intro (fun p hp => absurd hp (List.not_mem_nil p))
      (fun w hw => absurd hw (List.not_mem_nil w)))

/-- Witness of C30: the words "bad word" and "x" with the patterns "a.*b" and
the empty pattern survive the round trip. -/
theorem C30_sensitive_words_round_trip_witness :
    SensitiveWordsFromString sample.isValidRegex
        (SensitiveWordsToString
          { SensitiveWords := ["bad word", "x"], RegexSensitiveWords := ["a.*b", ""] })
      = { SensitiveWords := ["bad word", "x"], RegexSensitiveWords := ["a.*b", ""] } :=
  (C30_sensitive_words_round_trip sample.isValidRegex).1
    { SensitiveWords := ["bad word", "x"], RegexSensitiveWords := ["a.*b", ""] }
    (And.intro (by decide) (by decide))

end setting

end Veloera
